import Mathlib

/-!
# boost-asio-utils: reactor, timer and transport adapters

A shallow embedding of `utils/src/async_io_context.cpp`, `utils/src/timer.cpp`,
`utils/src/udp_client.cpp`, `utils/src/can.cpp`, `utils/src/mqtt_client.cpp`
and `utils/src/string_util.cpp`.

Conventions of the embedding

* An object is a record of its data members; a member function is a function
  from the record to the record (plus a return value when the C++ function
  returns one).
* Everything the code does to the outside world (log lines, user callbacks
  entered, asynchronous operations issued) is appended to a `trace` field, so
  that "how many times" questions are questions about a list.
* The Boost.Asio objects the code drives (`steady_timer`, the UDP socket, the
  `io_context` queue) are modelled by the documented behaviour of the calls the
  code makes on them.
* `std::error_code` is its integer value: `0` is success and
  `boost::asio::error::operation_aborted` is `ECANCELED`.
-/

namespace asio.utils

/-! ## logger.hpp -/

/-- The enum `asio::logger::LogLevel` (the levels that are used for messages). -/
inductive LogLevel where
  | TRACE
  | DEBUG
  | INFO
  | WARN
  | ERROR
  | CRITICAL
deriving DecidableEq, Repr

/-- Numeric value of a level, in declaration order of the enum. -/
def LogLevel.toNat : LogLevel → Nat
  | .TRACE => 0
  | .DEBUG => 1
  | .INFO => 2
  | .WARN => 3
  | .ERROR => 4
  | .CRITICAL => 5

/-- Value of a `std::error_code`; `0` converts to `false`. -/
abbrev error_code := Int

/-- The value of `boost::asio::error::operation_aborted` (`ECANCELED`). -/
def operation_aborted : error_code := 125

/-- The errno value `EINVAL`. -/
def EINVAL : Int := 22

/-- The errno value `ENOENT`. -/
def ENOENT : Int := 2

/-! ## async_io_context.{hpp,cpp} -/

/-- Constant `AsyncIoContext::THREADPOOL_MIN_SIZE`. -/
def THREADPOOL_MIN_SIZE : Int := 16

/-- Constant `AsyncIoContext::THREADPOOL_MAX_SIZE`. -/
def THREADPOOL_MAX_SIZE : Int := 128

/-- What the reactor does that is visible from outside. -/
inductive ReactorEvent where
  | thread_created (i : Int)
  | work_guard_reset
  | stop
  | join (i : Int)
  | log (level : LogLevel)
deriving DecidableEq, Repr

/-- Data members of `AsyncIoContext`. A `std::thread` of `_thread_pool` is
represented by the loop index `i` its lambda captured. -/
structure AsyncIoContext where
  work_guard_held : Bool
  stopped : Bool
  _thread_pool : List Int
  trace : List ReactorEvent
deriving DecidableEq, Repr

/-- The loop `for (int i = 0; i < pool_size; i++) _thread_pool.emplace_back(...)`
of the constructor, entered with the current `i`. -/
def AsyncIoContext.emplace_threads (pool_size : Int) (i : Int) (c : AsyncIoContext) :
    AsyncIoContext :=
  if i < pool_size then
    AsyncIoContext.emplace_threads pool_size (i + 1)
      { c with _thread_pool := c._thread_pool ++ [i],
               trace := c.trace ++ [ReactorEvent.thread_created i] }
  else c
termination_by (pool_size - i).toNat
decreasing_by omega

/-- Constructor `AsyncIoContext::AsyncIoContext(int pool_size)`. -/
def AsyncIoContext.create (pool_size : Int) : AsyncIoContext :=
  let pool_size :=
    if pool_size < THREADPOOL_MIN_SIZE then THREADPOOL_MIN_SIZE
    else if pool_size > THREADPOOL_MAX_SIZE then THREADPOOL_MAX_SIZE
    else pool_size
  AsyncIoContext.emplace_threads pool_size 0
    { work_guard_held := true, stopped := false, _thread_pool := [], trace := [] }

/-- The loop `for (auto& thread : _thread_pool) thread.join();` of the destructor. -/
def AsyncIoContext.join_all : List Int → AsyncIoContext → AsyncIoContext
  | [], c => c
  | i :: rest, c =>
    AsyncIoContext.join_all rest { c with trace := c.trace ++ [ReactorEvent.join i] }

/-- Destructor `AsyncIoContext::~AsyncIoContext()`. -/
def AsyncIoContext.destroy (c : AsyncIoContext) : AsyncIoContext :=
  let c := { c with work_guard_held := false, trace := c.trace ++ [ReactorEvent.work_guard_reset] }
  let c := { c with stopped := true, trace := c.trace ++ [ReactorEvent.stop] }
  let c := AsyncIoContext.join_all c._thread_pool c
  { c with trace := c.trace ++ [ReactorEvent.log LogLevel.DEBUG] }

/-- The `join` events of a trace, in order. -/
def joined_threads : List ReactorEvent → List Int
  | [] => []
  | ReactorEvent.join i :: rest => i :: joined_threads rest
  | _ :: rest => joined_threads rest

/-- The pool size the spec names `clamp(p, 16, 128)`. -/
def clamp_pool_size (p : Int) : Int := max 16 (min p 128)

/-! ## timer.{hpp,cpp}

The `boost::asio::steady_timer` behind `_timer` is a handle (a number, fresh
for every `make_unique`) together with the wait operations issued on it, kept
in `waits`. A wait is `pending` until its deadline passes; then it is `expired`
(its handler has been queued with a success code and can no longer be
cancelled). `cancel()`, `expires_after()` and the destructor of the
`steady_timer` turn the pending waits of that handle into `aborted` ones, whose
handler will be run with `operation_aborted`.

A user callback (`std::function<void()>`) is a number; what it does to the
timer it belongs to is given by a table from these numbers to a list of calls
of the timer's public member functions. An empty `std::function` is `none`. -/

/-- State of one `async_wait` operation. -/
inductive WaitStatus where
  | pending
  | expired
  | aborted
deriving DecidableEq, Repr

/-- One `async_wait` issued on a `steady_timer` and not yet completed:
the timer object it was issued on, the duration given to `expires_after`
just before, and its state. -/
structure Wait where
  handle : Nat
  msec : Int
  status : WaitStatus
deriving DecidableEq, Repr

/-- What a timer does that is visible from outside. -/
inductive TimerEvent where
  | log (level : LogLevel)
  | callback (id : Nat)
  | async_wait (handle : Nat) (msec : Int)
deriving DecidableEq, Repr

/-- The struct `TimerConfig` (without the name, which `Timer` does not read). -/
structure TimerConfig where
  callback_fn : Option Nat
  start_interval_msec : Int
  periodic_interval_msec : Int
deriving DecidableEq, Repr

/-- Data members of `Timer`, and the part of the `io_context` that belongs to
it: `_mutex` is the number of times the running thread holds the
`std::recursive_mutex`, `next_handle` numbers the `steady_timer` objects,
`waits` are the outstanding wait operations. -/
structure Timer where
  _callback : Option Nat
  _start_interval_msec : Int
  _periodic_interval_msec : Int
  _timer : Option Nat
  _mutex : Nat
  next_handle : Nat
  waits : List Wait
  trace : List TimerEvent
deriving DecidableEq, Repr

/-- A call of a public member function of `Timer`, as a user callback can make. -/
inductive TimerCall where
  | start
  | stop
  | restart
  | restart_with (callback_fn : Option Nat) (start_interval_msec : Int)
      (periodic_interval_msec : Int)
  | set_start_interval_msec (msec : Int)
  | set_periodic_interval_msec (msec : Int)
  | set_callback (callback_fn : Option Nat)
deriving DecidableEq, Repr

/-- Cancellation of the outstanding waits of one `steady_timer`
(`cancel()`, and what `expires_after()` and the destructor do first). -/
def steady_timer_cancel (handle : Nat) (waits : List Wait) : List Wait :=
  waits.map fun w =>
    if w.handle = handle ∧ w.status = WaitStatus.pending then
      { w with status := WaitStatus.aborted }
    else w

/-- Constructor `Timer::Timer(const TimerConfig&, io_context&)`. -/
def Timer.create (config : TimerConfig) : Timer :=
  { _callback := config.callback_fn,
    _start_interval_msec := config.start_interval_msec,
    _periodic_interval_msec := config.periodic_interval_msec,
    _timer := none, _mutex := 0, next_handle := 0, waits := [], trace := [] }

/-- Construction of `std::lock_guard<std::recursive_mutex> lock(_mutex)`. -/
def Timer.lock (t : Timer) : Timer := { t with _mutex := t._mutex + 1 }

/-- Destruction of the `lock_guard` at the end of the function. -/
def Timer.unlock (t : Timer) : Timer := { t with _mutex := t._mutex - 1 }

/-- `Timer::timer_async_wait(bool first_run)`: `expires_after` followed by
`async_wait`. The callers have checked `_timer`. -/
def Timer.timer_async_wait ( first_run : Bool) (t : Timer) : Timer :=
  match t._timer with
  | none => t
  | some h =>
    let msec := if first_run then t._start_interval_msec else t._periodic_interval_msec
    { t with waits := steady_timer_cancel h t.waits ++ [⟨h, msec, WaitStatus.pending⟩],
             trace := t.trace ++ [TimerEvent.async_wait h msec] }

/-- `Timer::start_noLock()`. -/
def Timer.start_noLock (t : Timer) : Timer :=
  if t._timer.isNone then
    let t := { t with _timer := some t.next_handle, next_handle := t.next_handle + 1 }
    t.timer_async_wait true
  else t

/-- `Timer::start()`. -/
def Timer.start (t : Timer) : Timer := t.lock.start_noLock.unlock

/-- The assignment `_timer = nullptr`: the `steady_timer`, if there is one, is
destroyed, which cancels its outstanding waits. -/
def Timer.reset_timer (t : Timer) : Timer :=
  match t._timer with
  | none => t
  | some h => { t with waits := steady_timer_cancel h t.waits, _timer := none }

/-- `Timer::stop_no_lock()`. -/
def Timer.stop_no_lock (t : Timer) : Timer :=
  match t._timer with
  | none => t
  | some h => Timer.reset_timer { t with waits := steady_timer_cancel h t.waits }

/-- `Timer::stop()`. -/
def Timer.stop (t : Timer) : Timer := t.lock.stop_no_lock.unlock

/-- `Timer::restart()`. -/
def Timer.restart (t : Timer) : Timer := t.lock.stop_no_lock.start_noLock.unlock

/-- `Timer::restart(callback_fn, start_interval_msec, periodic_interval_msec)`. -/
def Timer.restart_with (callback_fn : Option Nat) (start_interval_msec : Int)
    (periodic_interval_msec : Int) (t : Timer) : Timer :=
  let t := t.lock.stop_no_lock
  let t := { t with _callback := callback_fn }
  let t := { t with _start_interval_msec := start_interval_msec }
  let t := { t with _periodic_interval_msec := periodic_interval_msec }
  t.start_noLock.unlock

/-- `Timer::set_start_interval_msec(msec)`. -/
def Timer.set_start_interval_msec (msec : Int) (t : Timer) : Timer :=
  Timer.unlock { t.lock with _start_interval_msec := msec }

/-- `Timer::set_periodic_interval_msec(msec)`. -/
def Timer.set_periodic_interval_msec (msec : Int) (t : Timer) : Timer :=
  Timer.unlock { t.lock with _periodic_interval_msec := msec }

/-- `Timer::get_start_interval_msec()`. -/
def Timer.get_start_interval_msec (t : Timer) : Int := t._start_interval_msec

/-- `Timer::get_periodic_interval_msec()`. -/
def Timer.get_periodic_interval_msec (t : Timer) : Int := t._periodic_interval_msec

/-- `Timer::set_callback(callback_fn)`. -/
def Timer.set_callback (callback_fn : Option Nat) (t : Timer) : Timer :=
  Timer.unlock { t.lock with _callback := callback_fn }

/-- `Timer::is_started()`. -/
def Timer.is_started (t : Timer) : Bool :=
  if t._timer.isSome then true else false

/-- One call of a public member function. -/
def Timer.call (t : Timer) : TimerCall → Timer
  | TimerCall.start => t.start
  | TimerCall.stop => t.stop
  | TimerCall.restart => t.restart
  | TimerCall.restart_with cb s p => t.restart_with cb s p
  | TimerCall.set_start_interval_msec m => t.set_start_interval_msec m
  | TimerCall.set_periodic_interval_msec m => t.set_periodic_interval_msec m
  | TimerCall.set_callback cb => t.set_callback cb

/-- Execution of the body of a user callback on its timer. -/
def Timer.run_body (body : List TimerCall) (t : Timer) : Timer :=
  body.foldl Timer.call t

/-- `Timer::call_callback()`; `code` is the table of the user callbacks. -/
def Timer.call_callback (code : Nat → List TimerCall) (t : Timer) : Timer :=
  match t._callback with
  | some cb => Timer.run_body (code cb) { t with trace := t.trace ++ [TimerEvent.callback cb] }
  | none => { t with trace := t.trace ++ [TimerEvent.log LogLevel.WARN] }

/-- `Timer::timer_callback(const std::error_code& ec)`. The first branch is
the `return` inside `if (ec)`; in the other branch an `ec` that is set (and
is not `operation_aborted`) is logged and the function goes on. -/
def Timer.timer_callback (code : Nat → List TimerCall) (ec : error_code) (t : Timer) : Timer :=
  let t := t.lock
  if ec ≠ 0 ∧ ec = operation_aborted then
    Timer.unlock { t with trace := t.trace ++ [TimerEvent.log LogLevel.ERROR] }
  else
    let t := if ec ≠ 0 then { t with trace := t.trace ++ [TimerEvent.log LogLevel.ERROR] } else t
    if t._timer.isSome then
      let t := t.call_callback code
      if t._periodic_interval_msec > 0 ∧ t._timer.isSome then
        (t.timer_async_wait false).unlock
      else
        t.reset_timer.unlock
    else
      Timer.unlock { t with trace := t.trace ++ [TimerEvent.log LogLevel.TRACE] }

/-- The state in which `call_callback()` returns inside
`timer_callback(ec)`, for an `ec` other than `operation_aborted` and a timer
with a handle: the state on which the handler decides between rescheduling and
discarding the handle. -/
def Timer.fire_callback_state (code : Nat → List TimerCall) (ec : error_code) (t : Timer) :
    Timer :=
  let t := t.lock
  let t := if ec ≠ 0 then { t with trace := t.trace ++ [TimerEvent.log LogLevel.ERROR] } else t
  t.call_callback code

/-- The `io_context` side, deadline: the `i`-th outstanding wait, if it is still
pending, expires and its handler is queued with a success code. -/
def Timer.expire (i : Nat) (t : Timer) : Timer :=
  match t.waits.get? i with
  | some w =>
    if w.status = WaitStatus.pending then
      { t with waits := t.waits.set i { w with status := WaitStatus.expired } }
    else t
  | none => t

/-- The `io_context` side, completion: the handler of the `i`-th outstanding
wait, once that wait has expired or been aborted, is taken from the queue and
run (on the strand) with the corresponding error code. -/
def Timer.complete (code : Nat → List TimerCall) (i : Nat) (t : Timer) : Timer :=
  match t.waits.get? i with
  | some w =>
    match w.status with
    | WaitStatus.pending => t
    | WaitStatus.expired => Timer.timer_callback code 0 { t with waits := t.waits.eraseIdx i }
    | WaitStatus.aborted =>
      Timer.timer_callback code operation_aborted { t with waits := t.waits.eraseIdx i }
  | none => t

/-- The user callbacks entered according to a trace, in order. -/
def callbacks_invoked : List TimerEvent → List Nat
  | [] => []
  | TimerEvent.callback cb :: rest => cb :: callbacks_invoked rest
  | _ :: rest => callbacks_invoked rest

/-- The waits issued according to a trace, in order. -/
def waits_issued : List TimerEvent → List (Nat × Int)
  | [] => []
  | TimerEvent.async_wait h m :: rest => (h, m) :: waits_issued rest
  | _ :: rest => waits_issued rest

/-- The outstanding waits that are still pending. -/
def Timer.pending_waits (t : Timer) : List Wait :=
  t.waits.filter fun w => w.status = WaitStatus.pending

/-- Well-formed timer state: handles in use are below `next_handle`, and a
pending wait belongs to the live `steady_timer`. -/
def Timer.WF (t : Timer) : Prop :=
  (∀ w ∈ t.waits, w.handle < t.next_handle) ∧
  (∀ h, t._timer = some h → h < t.next_handle) ∧
  (∀ w ∈ t.waits, w.status = WaitStatus.pending → t._timer = some w.handle)

instance (t : Timer) : Decidable t.WF := by
  unfold Timer.WF
  cases h : t._timer <;> infer_instance

/-- The timer states that can occur outside a fire: those of a newly created
timer after any sequence of calls of public member functions (from any
thread, one at a time under the mutex), deadlines passing and wait handlers
run by the `io_context`. -/
inductive Timer.Reachable (code : Nat → List TimerCall) : Timer → Prop where
  | create (config : TimerConfig) : Timer.Reachable code (Timer.create config)
  | call {t : Timer} (c : TimerCall) : Timer.Reachable code t → Timer.Reachable code (t.call c)
  | expire {t : Timer} (i : Nat) : Timer.Reachable code t → Timer.Reachable code (t.expire i)
  | complete {t : Timer} (i : Nat) :
    Timer.Reachable code t → Timer.Reachable code (t.complete code i)

/-! ## udp_client.{hpp,cpp}

The socket is its kernel receive queue, a list of datagrams (lists of bytes):
a receive with `MSG_PEEK | MSG_TRUNC` reports the length of the head datagram
and leaves the queue as it is, the consuming `receive` removes the head.
A registered `callback_t` is a number; a table gives, for the buffer and size
it is called with, the buffer it leaves (the buffer is passed by non-const
reference) and how the call ends. -/

/-- Constant `UdpClient::MAX_MESSAGE_SIZE`. -/
def MAX_MESSAGE_SIZE : Nat := 2 * 1024

/-- Constant `INIT_MESSAGE_SIZE`. -/
def INIT_MESSAGE_SIZE : Nat := 1024

/-- The errno value `EAGAIN`. -/
def EAGAIN : Int := 11

/-- How a call of a user callback ends: it returns, it throws an object of a
class derived from `std::exception`, or it throws something else. -/
inductive Outcome where
  | returned
  | threw_std_exception
  | threw_other
deriving DecidableEq, Repr

/-- A value of type `data_handler_t`: empty, the stub lambda of `async_send`,
or a callable of the caller. -/
inductive data_handler_t where
  | null
  | stub
  | user (id : Nat)
deriving DecidableEq, Repr

/-- The callable given to `async_send_to` as completion handler. -/
inductive SendCompletion where
  | handle_send
  | data_handler (h : data_handler_t)
deriving DecidableEq, Repr

/-- One outstanding `async_send_to`. -/
structure SendOp where
  data : List Nat
  size : Nat
  completion : SendCompletion
deriving DecidableEq, Repr

/-- What the UDP client does that is visible from outside. -/
inductive UdpEvent where
  | log (level : LogLevel)
  | callback (key : String) (id : Nat) (data : List Nat) (size : Nat)
  | data_handler (id : Nat) (error : error_code) (bytes_transferred : Nat)
  | stub_handler
  | async_receive_from
  | async_send_to (data : List Nat) (size : Nat)
deriving DecidableEq, Repr

/-- Data members of `UdpClientImpl` that the code reads or writes after
construction, and the part of the outside world that belongs to it: `socket`
is the receive queue, `receives` the number of outstanding
`async_receive_from` operations, `sends` the outstanding `async_send_to`
operations. `_callbacks` is the `std::map`, as the list of its entries in
iteration order. -/
structure UdpClientImpl where
  _callbacks : List (String × Nat)
  _rcv_buf : List Nat
  socket : List (List Nat)
  receives : Nat
  sends : List SendOp
  trace : List UdpEvent
deriving DecidableEq, Repr

/-- Append a log line. -/
def UdpClientImpl.log (level : LogLevel) (u : UdpClientImpl) : UdpClientImpl :=
  { u with trace := u.trace ++ [UdpEvent.log level] }

/-- `UdpClientImpl::receive_loop()`. -/
def UdpClientImpl.receive_loop (u : UdpClientImpl) : UdpClientImpl :=
  { u with receives := u.receives + 1, trace := u.trace ++ [UdpEvent.async_receive_from] }

/-- Constructor `UdpClientImpl::UdpClientImpl` when address resolution and
binding succeed. -/
def UdpClientImpl.create : UdpClientImpl :=
  UdpClientImpl.receive_loop
    { _callbacks := [], _rcv_buf := List.replicate INIT_MESSAGE_SIZE 0, socket := [],
      receives := 0, sends := [], trace := [UdpEvent.log LogLevel.INFO] }

/-- `UdpClientImpl::async_send(data, size, handler)`; a null `data` is `none`. -/
def UdpClientImpl.async_send (data : Option (List Nat)) (size : Nat) (handler : data_handler_t)
    (u : UdpClientImpl) : UdpClientImpl × Int :=
  match data with
  | none => (u.log LogLevel.ERROR, EINVAL)
  | some d =>
    let _handler := if handler = data_handler_t.null then data_handler_t.stub else handler
    ({ u with sends := u.sends ++ [⟨d, size, SendCompletion.handle_send⟩],
              trace := u.trace ++ [UdpEvent.async_send_to d size] }, 0)

/-- `UdpClientImpl::handle_send(error, bytes_transferred)`. -/
def UdpClientImpl.handle_send (error : error_code) (_bytes_transferred : Nat)
    (u : UdpClientImpl) : UdpClientImpl :=
  if error ≠ 0 then u.log LogLevel.ERROR else u

/-- A call of a `data_handler_t` (an empty one is never called by the code). -/
def UdpClientImpl.call_data_handler (h : data_handler_t) (error : error_code)
    (bytes_transferred : Nat) (u : UdpClientImpl) : UdpClientImpl :=
  match h with
  | data_handler_t.null => u
  | data_handler_t.stub =>
    { u with trace := u.trace ++ [UdpEvent.stub_handler, UdpEvent.log LogLevel.TRACE] }
  | data_handler_t.user id =>
    { u with trace := u.trace ++ [UdpEvent.data_handler id error bytes_transferred] }

/-- The `io_context` side: the `i`-th outstanding send completes with `error`
and `bytes_transferred`, and the callable bound to it is run. -/
def UdpClientImpl.complete_send (i : Nat) (error : error_code) (bytes_transferred : Nat)
    (u : UdpClientImpl) : UdpClientImpl :=
  match u.sends.get? i with
  | none => u
  | some op =>
    let u := { u with sends := u.sends.eraseIdx i }
    match op.completion with
    | SendCompletion.handle_send => u.handle_send error bytes_transferred
    | SendCompletion.data_handler h => u.call_data_handler h error bytes_transferred

/-- `std::map::insert` on the entries in key order: the new entry is put at
its place unless the key is there already; the flag tells whether it was
inserted. -/
def map_insert (key : String) (value : Nat) :
    List (String × Nat) → List (String × Nat) × Bool
  | [] => ([(key, value)], true)
  | (k, v) :: rest =>
    if key < k then ((key, value) :: (k, v) :: rest, true)
    else if key = k then ((k, v) :: rest, false)
    else
      let r := map_insert key value rest
      ((k, v) :: r.1, r.2)

/-- `std::map::erase(key)`: the entries without the one of that key, and the
number of entries removed. -/
def map_erase (key : String) : List (String × Nat) → List (String × Nat) × Nat
  | [] => ([], 0)
  | (k, v) :: rest =>
    if key = k then (rest, 1)
    else
      let r := map_erase key rest
      ((k, v) :: r.1, r.2)

/-- `UdpClientImpl::register_callback(id, callback)`; an empty `callback` is `none`. -/
def UdpClientImpl.register_callback (id : String) (callback : Option Nat) (u : UdpClientImpl) :
    UdpClientImpl × Int :=
  match callback with
  | none => (u.log LogLevel.ERROR, EINVAL)
  | some cb =>
    let r := map_insert id cb u._callbacks
    ({ u with _callbacks := r.1 }, if r.2 then 0 else 1)

/-- `UdpClientImpl::unregister_callback(id)`. -/
def UdpClientImpl.unregister_callback (id : String) (u : UdpClientImpl) : UdpClientImpl × Int :=
  let r := map_erase id u._callbacks
  ({ u with _callbacks := r.1 }, if r.2 = 1 then 0 else ENOENT)

/-- `std::vector<char>::resize(n)`. -/
def vector_resize (n : Nat) (v : List Nat) : List Nat :=
  v.take n ++ List.replicate (n - v.length) 0

/-- A receive into a buffer: the datagram's bytes, as many as fit, overwrite
the front of the buffer. -/
def copy_into (datagram : List Nat) (buf : List Nat) : List Nat :=
  datagram.take buf.length ++ buf.drop datagram.length

/-- The consuming `_socket.receive(buffer(_rcv_buf.data(), n), 0, ec)`:
`recv_error` is the error the system call reports, if any. The head datagram
is removed and copied; the result is the state, `ec` and `bytes_read`.
(A completed peek precedes this call, so the queue is not empty; on an empty
queue the model reports `EAGAIN`.) -/
def UdpClientImpl.socket_receive (n : Nat) (recv_error : error_code) (u : UdpClientImpl) :
    UdpClientImpl × error_code × Nat :=
  if recv_error ≠ 0 then (u, recv_error, 0)
  else
    match u.socket with
    | [] => (u, EAGAIN, 0)
    | d :: rest =>
      ({ u with socket := rest, _rcv_buf := copy_into d u._rcv_buf }, 0, min d.length n)

/-- The loop `for (const auto& [key, callback] : _callbacks)` of
`receive_handler` with its `try`/`catch (std::exception&)`. `behave` is the
table of the registered callbacks. The flag of the result tells whether the
loop was left by an exception that the `catch` clause does not catch. -/
def UdpClientImpl.dispatch (behave : Nat → List Nat → Nat → List Nat × Outcome) (bytes_read : Nat) :
    List (String × Nat) → UdpClientImpl → UdpClientImpl × Bool
  | [], u => (u, false)
  | (key, cb) :: rest, u =>
    let r := behave cb u._rcv_buf bytes_read
    let u := { u with _rcv_buf := r.1,
                      trace := u.trace ++ [UdpEvent.callback key cb u._rcv_buf bytes_read] }
    match r.2 with
    | Outcome.returned => UdpClientImpl.dispatch behave bytes_read rest u
    | Outcome.threw_std_exception =>
      UdpClientImpl.dispatch behave bytes_read rest (u.log LogLevel.ERROR)
    | Outcome.threw_other => (u, true)

/-- `UdpClientImpl::receive_handler(error, bytes_transferred)`. The flag of
the result tells whether the function was left by an exception. -/
def UdpClientImpl.receive_handler (behave : Nat → List Nat → Nat → List Nat × Outcome)
    (error : error_code) (bytes_transferred : Nat) (recv_error : error_code)
    (u : UdpClientImpl) : UdpClientImpl × Bool :=
  if error = operation_aborted then (u, false)
  else
    let r : UdpClientImpl × Bool :=
      if error ≠ 0 then (u.log LogLevel.ERROR, false)
      else if bytes_transferred = 0 then (u.log LogLevel.ERROR, false)
      else if bytes_transferred > MAX_MESSAGE_SIZE then (u.log LogLevel.ERROR, false)
      else
        let u := { u with _rcv_buf := vector_resize bytes_transferred u._rcv_buf }
        let rcv := u.socket_receive bytes_transferred recv_error
        let u := rcv.1
        let ec := rcv.2.1
        let bytes_read := rcv.2.2
        if ec ≠ 0 then (u.log LogLevel.ERROR, false)
        else if bytes_read = 0 then (u.log LogLevel.ERROR, false)
        else if u._callbacks.isEmpty then (u.log LogLevel.DEBUG, false)
        else
          let u := if bytes_read ≠ bytes_transferred then u.log LogLevel.ERROR else u
          let u := u.log LogLevel.TRACE
          UdpClientImpl.dispatch behave bytes_read u._callbacks u
    if r.2 then (r.1, true) else (r.1.receive_loop, false)

/-- The `io_context` side: an outstanding peeking `async_receive_from`
completes once a datagram is at the head of the queue. The front of the
datagram is copied into `_rcv_buf`, the datagram stays in the queue, and the
handler is run with the datagram's full length (`MSG_TRUNC`). -/
def UdpClientImpl.complete_receive (behave : Nat → List Nat → Nat → List Nat × Outcome)
    (recv_error : error_code) (u : UdpClientImpl) : UdpClientImpl × Bool :=
  if u.receives = 0 then (u, false)
  else
    match u.socket with
    | [] => (u, false)
    | d :: _ =>
      UdpClientImpl.receive_handler behave 0 d.length recv_error
        { u with receives := u.receives - 1, _rcv_buf := copy_into d u._rcv_buf }

/-- The receive loop at work: `n` completions of the peeking receive in a
row, with no error from the system calls, stopping when a handler is left by
an exception. -/
def UdpClientImpl.run_receive_loop (behave : Nat → List Nat → Nat → List Nat × Outcome) :
    Nat → UdpClientImpl → UdpClientImpl × Bool
  | 0, u => (u, false)
  | n + 1, u =>
    let r := UdpClientImpl.complete_receive behave 0 u
    if r.2 then r else UdpClientImpl.run_receive_loop behave n r.1

/-- The calls of registered callbacks according to a trace, in order:
key, callback, buffer contents at the call, size. -/
def udp_callbacks_invoked : List UdpEvent → List (String × Nat × List Nat × Nat)
  | [] => []
  | UdpEvent.callback key id data size :: rest =>
    (key, id, data, size) :: udp_callbacks_invoked rest
  | _ :: rest => udp_callbacks_invoked rest

/-- The calls of callers' send handlers according to a trace, in order. -/
def data_handlers_invoked : List UdpEvent → List (Nat × error_code × Nat)
  | [] => []
  | UdpEvent.data_handler id error n :: rest => (id, error, n) :: data_handlers_invoked rest
  | _ :: rest => data_handlers_invoked rest

/-- The number of `async_receive_from` operations issued according to a trace. -/
def receives_issued : List UdpEvent → Nat
  | [] => 0
  | UdpEvent.async_receive_from :: rest => receives_issued rest + 1
  | _ :: rest => receives_issued rest

/-- `std::map::find(key)` on the entries in key order: the value stored under
the key, if there is one. -/
def map_find (key : String) : List (String × Nat) → Option Nat
  | [] => none
  | (k, v) :: rest => if key = k then some v else map_find key rest

/-- The invariant of a `std::map`: the keys are strictly increasing (and so
pairwise distinct). -/
def map_wf (m : List (String × Nat)) : Prop :=
  (m.map Prod.fst).Pairwise (fun a b => a < b)

/-! ## async_io_context.cpp: the worker lambda

`_async_context.run()` is the part of the outside world here: a worker is
given the way each of its successive calls of `run()` ends. A list that is
used up means that the call then in progress has not returned. -/

/-- What a worker thread does that is visible from outside. -/
inductive WorkerEvent where
  | log (level : LogLevel)
  | run
deriving DecidableEq, Repr

/-- Where a worker thread stands: inside `run()`, past the end of its lambda,
or stopped by an exception that left the lambda (`std::terminate`). -/
inductive WorkerStatus where
  | running
  | finished
  | terminated
deriving DecidableEq, Repr

/-- A worker thread: the number of calls of `run()` it has made, where it
stands, and its trace. -/
structure Worker where
  runs : Nat
  status : WorkerStatus
  trace : List WorkerEvent
deriving DecidableEq, Repr

/-- The loop `while (true) { try { run(); break; } catch (const std::exception&) {...} }`
of the worker lambda, and the `LOG_DEBUG` after it. -/
def Worker.loop : List Outcome → Worker → Worker
  | [], w =>
    { w with runs := w.runs + 1, status := WorkerStatus.running,
             trace := w.trace ++ [WorkerEvent.run] }
  | Outcome.returned :: _, w =>
    { w with runs := w.runs + 1, status := WorkerStatus.finished,
             trace := w.trace ++ [WorkerEvent.run, WorkerEvent.log LogLevel.DEBUG] }
  | Outcome.threw_std_exception :: rest, w =>
    Worker.loop rest
      { w with runs := w.runs + 1,
               trace := w.trace ++ [WorkerEvent.run, WorkerEvent.log LogLevel.ERROR] }
  | Outcome.threw_other :: _, w =>
    { w with runs := w.runs + 1, status := WorkerStatus.terminated,
             trace := w.trace ++ [WorkerEvent.run] }

/-- The lambda given to `_thread_pool.emplace_back` in the constructor of
`AsyncIoContext`, run with the given ends of its calls of `run()`. -/
def Worker.start (runs : List Outcome) : Worker :=
  Worker.loop runs
    { runs := 0, status := WorkerStatus.running, trace := [WorkerEvent.log LogLevel.INFO] }

/-- The number of error lines in a worker's trace. -/
def worker_errors_logged : List WorkerEvent → Nat
  | [] => 0
  | WorkerEvent.log LogLevel.ERROR :: rest => worker_errors_logged rest + 1
  | _ :: rest => worker_errors_logged rest

/-! ## can.{hpp,cpp}

A `canfd_frame` is the list of its bytes. A `CanReadHandler` is a number (an
empty `std::function` is `none`); a table tells how a call of it ends. The
stream descriptor is the list of the read operations outstanding on it; each
carries the lambda it was given, and `cancel()` marks the outstanding ones,
which then complete with `operation_canceled`. -/

/-- The value of `sizeof(canfd_frame)`. -/
def sizeof_canfd_frame : Nat := 72

/-- The value of `boost::system::errc::operation_canceled` (`ECANCELED`). -/
def operation_canceled : error_code := 125

/-- The lambda given to `async_read_internal`: the one of `async_read`, which
has captured its handler, or the one of `register_read_callback` and
`handle_read_repeat`, which reads `_can_read_cb` when it runs. -/
inductive ReadLambda where
  | once (can_read_handler : Option Nat)
  | repeating
deriving DecidableEq, Repr

/-- One outstanding `boost::asio::async_read` on `_can_stream`. -/
structure ReadOp where
  lambda : ReadLambda
  cancelled : Bool
deriving DecidableEq, Repr

/-- What the CAN adapter does that is visible from outside. -/
inductive CanEvent where
  | log (level : LogLevel)
  | read_handler (id : Nat) (frame : List Nat)
  | send_handler (id : Nat) (err : error_code)
  | async_read
  | async_write (frame : List Nat)
  | cancel
deriving DecidableEq, Repr

/-- Data members of `CanImpl` and the operations outstanding on `_can_stream`
(for a write: the handler captured by its lambda). -/
structure CanImpl where
  _can_read_cb : Option Nat
  reads : List ReadOp
  writes : List (Option Nat)
  trace : List CanEvent
deriving DecidableEq, Repr

/-- Constructor `CanImpl::CanImpl`, once the socket is there. -/
def CanImpl.create : CanImpl :=
  { _can_read_cb := none, reads := [], writes := [], trace := [] }

/-- Append a log line. -/
def CanImpl.log (level : LogLevel) (c : CanImpl) : CanImpl :=
  { c with trace := c.trace ++ [CanEvent.log level] }

/-- `CanImpl::async_read_internal(h)`. -/
def CanImpl.async_read_internal (h : ReadLambda) (c : CanImpl) : CanImpl :=
  { c with reads := c.reads ++ [⟨h, false⟩], trace := c.trace ++ [CanEvent.async_read] }

/-- `CanImpl::async_read(can_read_handler)`. -/
def CanImpl.async_read (can_read_handler : Option Nat) (c : CanImpl) : CanImpl :=
  c.async_read_internal (ReadLambda.once can_read_handler)

/-- `CanImpl::async_send(frame, handler)`. -/
def CanImpl.async_send (frame : List Nat) (handler : Option Nat) (c : CanImpl) : CanImpl :=
  { c with writes := c.writes ++ [handler], trace := c.trace ++ [CanEvent.async_write frame] }

/-- `CanImpl::handle_write(err, bytes_transferred, handler)`. -/
def CanImpl.handle_write (err : error_code) (handler : Option Nat) (c : CanImpl) : CanImpl :=
  match handler with
  | some h => { c with trace := c.trace ++ [CanEvent.send_handler h err] }
  | none => c

/-- `CanImpl::handle_read(err, bytes_transferred, frame, can_read_handler)`.
The second component tells how the function is left: a call of an empty
handler throws `std::bad_function_call`, a call of a handler ends as
`behave` says. -/
def CanImpl.handle_read (behave : Nat → List Nat → Outcome) (err : error_code)
    (bytes_transferred : Nat) (frame : List Nat) (can_read_handler : Option Nat) (c : CanImpl) :
    CanImpl × Outcome :=
  if err ≠ 0 then
    if err = operation_canceled then (c.log LogLevel.WARN, Outcome.returned)
    else if err ≠ 0 then
      let c := c.log LogLevel.WARN
      if bytes_transferred < sizeof_canfd_frame then (c.log LogLevel.WARN, Outcome.returned)
      else (c, Outcome.returned)
    else (c, Outcome.returned)
  else
    match can_read_handler with
    | none => (c, Outcome.threw_std_exception)
    | some h => ({ c with trace := c.trace ++ [CanEvent.read_handler h frame] }, behave h frame)

/-- `CanImpl::handle_read_repeat(err, bytes_transferred, frame, can_read_handler)`:
when `handle_read` returns, the next read is issued. -/
def CanImpl.handle_read_repeat (behave : Nat → List Nat → Outcome) (err : error_code)
    (bytes_transferred : Nat) (frame : List Nat) (can_read_handler : Option Nat) (c : CanImpl) :
    CanImpl × Outcome :=
  let r := c.handle_read behave err bytes_transferred frame can_read_handler
  match r.2 with
  | Outcome.returned => (r.1.async_read_internal ReadLambda.repeating, Outcome.returned)
  | o => (r.1, o)

/-- `_can_stream.cancel()`. -/
def CanImpl.cancel (c : CanImpl) : CanImpl :=
  { c with reads := c.reads.map (fun r => { r with cancelled := true }),
           trace := c.trace ++ [CanEvent.cancel] }

/-- `CanImpl::register_read_callback(can_read_handler)`. -/
def CanImpl.register_read_callback (can_read_handler : Option Nat) (c : CanImpl) : CanImpl :=
  let c := c.cancel
  let c := { c with _can_read_cb := can_read_handler }
  c.async_read_internal ReadLambda.repeating

/-- The `io_context` side: the `i`-th outstanding read completes, with
`operation_canceled` if it has been cancelled and else with the given result
of the read, and its lambda is run. -/
def CanImpl.complete_read (behave : Nat → List Nat → Outcome) (i : Nat) (err : error_code)
    (bytes_transferred : Nat) (frame : List Nat) (c : CanImpl) : CanImpl × Outcome :=
  match c.reads.get? i with
  | none => (c, Outcome.returned)
  | some op =>
    let err := if op.cancelled then operation_canceled else err
    let c := { c with reads := c.reads.eraseIdx i }
    match op.lambda with
    | ReadLambda.once h => c.handle_read behave err bytes_transferred frame h
    | ReadLambda.repeating =>
      c.handle_read_repeat behave err bytes_transferred frame c._can_read_cb

/-- A sequence of read completions, each given as index, error code, byte
count and frame; it stops when a handler is left by an exception. -/
def CanImpl.run_reads (behave : Nat → List Nat → Outcome) :
    List (Nat × error_code × Nat × List Nat) → CanImpl → CanImpl × Outcome
  | [], c => (c, Outcome.returned)
  | (i, err, n, frame) :: rest, c =>
    let r := c.complete_read behave i err n frame
    match r.2 with
    | Outcome.returned => CanImpl.run_reads behave rest r.1
    | o => (r.1, o)

/-- The calls of read handlers according to a trace, in order. -/
def read_handlers_invoked : List CanEvent → List (Nat × List Nat)
  | [] => []
  | CanEvent.read_handler id frame :: rest => (id, frame) :: read_handlers_invoked rest
  | _ :: rest => read_handlers_invoked rest

/-- The number of reads issued according to a trace. -/
def reads_issued : List CanEvent → Nat
  | [] => 0
  | CanEvent.async_read :: rest => reads_issued rest + 1
  | _ :: rest => reads_issued rest

/-! ## mqtt_client.{hpp,cpp}

The mosquitto library is the outside world: a call of it is an event of the
trace, and what the call returns is an argument of the member function that
makes it. A `MessageCallback` is a number, an empty one is `none`. The
reconnect timer is a `Timer` as above. -/

/-- The value of `MOSQ_ERR_SUCCESS` in `mosquitto.h`. -/
def MOSQ_ERR_SUCCESS : Int := 0

/-- The value of `MOSQ_ERR_UNKNOWN` in `mosquitto.h`. -/
def MOSQ_ERR_UNKNOWN : Int := 13

/-- Enumerator `MqttQosMin`. -/
def MqttQosMin : Int := 0

/-- Enumerator `MqttQosMax`. -/
def MqttQosMax : Int := 2

/-- The errno value `EALREADY`. -/
def EALREADY : Int := 114

/-- Constant `MqttClientImpl::CONNECTION_POLL_INTERVAL`. -/
def CONNECTION_POLL_INTERVAL : Int := 1000

/-- The number that stands for the lambda `[&]() { connection_timer_handler(); }`. -/
def connection_timer_callback : Nat := 0

/-- What the MQTT adapter does that is visible from outside. -/
inductive MqttEvent where
  | log (level : LogLevel)
  | mosquitto_publish (topic : String) (len : Int) (buf : List Nat) (qos : Int) (retain : Bool)
  | mosquitto_subscribe (topic : String)
  | mosquitto_unsubscribe (topic : String)
  | mosquitto_connect
  | mosquitto_disconnect
  | mosquitto_socket
  | async_read_some
  | async_write_some
  | release
  | connection_status (value : Bool)
  | message_callback (id : Nat) (topic : String) (payload : List Nat) (len : Int)
deriving DecidableEq, Repr

/-- Data members of `MqttClientImpl` that the code reads or writes after
construction, with the numbers of outstanding `async_read_some` and
`async_write_some` operations on `_mqtt_socket`. -/
structure MqttClientImpl where
  _subscribed_topics : List String
  _mqtt_data_received_cb : Option Nat
  _mqtt_topic_data_received_cb : List (String × Nat)
  _connection_status : Bool
  _reconnect_required : Bool
  _dev_mqtt_fd : Int
  _connection_status_timer : Option Timer
  rx_scheduled : Nat
  tx_scheduled : Nat
  trace : List MqttEvent
deriving DecidableEq, Repr

/-- Append a log line. -/
def MqttClientImpl.log (level : LogLevel) (m : MqttClientImpl) : MqttClientImpl :=
  { m with trace := m.trace ++ [MqttEvent.log level] }

/-- Append an event. -/
def MqttClientImpl.emit (e : MqttEvent) (m : MqttClientImpl) : MqttClientImpl :=
  { m with trace := m.trace ++ [e] }

/-- `MqttClientImpl::schedule_mqtt_rx()`. -/
def MqttClientImpl.schedule_mqtt_rx (m : MqttClientImpl) : MqttClientImpl :=
  { m with rx_scheduled := m.rx_scheduled + 1, trace := m.trace ++ [MqttEvent.async_read_some] }

/-- `MqttClientImpl::schedule_mqtt_tx()`. -/
def MqttClientImpl.schedule_mqtt_tx (m : MqttClientImpl) : MqttClientImpl :=
  { m with tx_scheduled := m.tx_scheduled + 1, trace := m.trace ++ [MqttEvent.async_write_some] }

/-- `MqttClientImpl::setup_mqtt_communicator()`; `fd` is what
`mosquitto_socket` returns. -/
def MqttClientImpl.setup_mqtt_communicator (fd : Int) (m : MqttClientImpl) :
    MqttClientImpl × Int :=
  let m := { m.emit MqttEvent.mosquitto_socket with _dev_mqtt_fd := fd }
  if -1 = m._dev_mqtt_fd then (m.log LogLevel.ERROR, -1)
  else ((m.log LogLevel.INFO).schedule_mqtt_rx, 0)

/-- The state of a client whose constructor has run without throwing:
connected, nothing subscribed or registered, the first read scheduled. -/
def MqttClientImpl.create (fd : Int) : MqttClientImpl :=
  MqttClientImpl.log LogLevel.INFO
    (MqttClientImpl.setup_mqtt_communicator fd
      { _subscribed_topics := [], _mqtt_data_received_cb := none,
        _mqtt_topic_data_received_cb := [], _connection_status := true,
        _reconnect_required := true, _dev_mqtt_fd := -1, _connection_status_timer := none,
        rx_scheduled := 0, tx_scheduled := 0, trace := [MqttEvent.mosquitto_connect] }).1

/-- `MqttClientImpl::publish_data(topic, buf, len, qos, retain)`; a null
pointer is `none`, `rc` is what `mosquitto_publish` returns when it is called. -/
def MqttClientImpl.publish_data (topic : Option String) (buf : Option (List Nat)) (len : Int)
    (qos : Int) (retain : Bool) (rc : Int) (m : MqttClientImpl) : MqttClientImpl × Int :=
  if topic = none ∨ buf = none ∨ len = 0 ∨ qos < MqttQosMin ∨ qos > MqttQosMax then
    (m.log LogLevel.ERROR, -1)
  else
    let m := m.emit (MqttEvent.mosquitto_publish (topic.getD "") len (buf.getD []) qos retain)
    if rc ≠ MOSQ_ERR_SUCCESS then (m.log LogLevel.ERROR, -1)
    else (m.schedule_mqtt_tx, 0)

/-- `MqttClientImpl::subscribe_topic(topic)`; `rc` is what
`mosquitto_subscribe` returns when it is called. -/
def MqttClientImpl.subscribe_topic (topic : Option String) (rc : Int) (m : MqttClientImpl) :
    MqttClientImpl × Int :=
  match topic with
  | none => (m.log LogLevel.ERROR, -1)
  | some t =>
    let m := m.emit (MqttEvent.mosquitto_subscribe t)
    if rc ≠ MOSQ_ERR_SUCCESS then (m.log LogLevel.ERROR, -1)
    else
      let m := m.schedule_mqtt_tx
      ({ m with _subscribed_topics := m._subscribed_topics ++ [t] }, 0)

/-- `MqttClientImpl::unsubscribe_topic(topic)`; `rc` is what
`mosquitto_unsubscribe` returns when it is called. -/
def MqttClientImpl.unsubscribe_topic (topic : Option String) (rc : Int) (m : MqttClientImpl) :
    MqttClientImpl × Int :=
  match topic with
  | none => (m.log LogLevel.ERROR, -1)
  | some t =>
    let m := m.emit (MqttEvent.mosquitto_unsubscribe t)
    if rc ≠ MOSQ_ERR_SUCCESS then (m.log LogLevel.ERROR, -1)
    else
      let m := m.schedule_mqtt_tx
      ({ m with _subscribed_topics := m._subscribed_topics.filter (fun s => ¬ s = t) }, 0)

/-- `MqttClientImpl::register_callback(callback_fn)`. -/
def MqttClientImpl.register_callback (callback_fn : Option Nat) (m : MqttClientImpl) :
    MqttClientImpl × Int :=
  match callback_fn with
  | none => (m.log LogLevel.ERROR, EINVAL)
  | some cb =>
    if m._mqtt_data_received_cb ≠ none then (m.log LogLevel.ERROR, EALREADY)
    else (MqttClientImpl.log LogLevel.INFO { m with _mqtt_data_received_cb := some cb }, 0)

/-- `MqttClientImpl::unregister_callback()`. -/
def MqttClientImpl.unregister_callback (m : MqttClientImpl) : MqttClientImpl :=
  { m with _mqtt_data_received_cb := none }

/-- `MqttClientImpl::register_topic_callback(topic, callback_fn)`. -/
def MqttClientImpl.register_topic_callback (topic : String) (callback_fn : Option Nat)
    (m : MqttClientImpl) : MqttClientImpl × Int :=
  match callback_fn with
  | none => (m.log LogLevel.ERROR, EINVAL)
  | some cb =>
    if map_find topic m._mqtt_topic_data_received_cb ≠ none then
      (m.log LogLevel.ERROR, EALREADY)
    else
      ({ m with _mqtt_topic_data_received_cb :=
                  (map_insert topic cb m._mqtt_topic_data_received_cb).1 }, 0)

/-- `MqttClientImpl::unregister_topic_callback(topic)`. -/
def MqttClientImpl.unregister_topic_callback (topic : String) (m : MqttClientImpl) :
    MqttClientImpl :=
  { m with _mqtt_topic_data_received_cb := (map_erase topic m._mqtt_topic_data_received_cb).1 }

/-- The function `on_message(mosq, obj, msg)` with `msg->topic`,
`msg->payload` and `msg->payloadlen`. -/
def MqttClientImpl.on_message (topic : String) (payload : List Nat) (payloadlen : Int)
    (m : MqttClientImpl) : MqttClientImpl :=
  match map_find topic m._mqtt_topic_data_received_cb with
  | some cb => m.emit (MqttEvent.message_callback cb topic payload payloadlen)
  | none =>
    match m._mqtt_data_received_cb with
    | some cb => m.emit (MqttEvent.message_callback cb topic payload payloadlen)
    | none => m

/-- `MqttClientImpl::start_connection_timer()`. -/
def MqttClientImpl.start_connection_timer (m : MqttClientImpl) : MqttClientImpl :=
  let timer_config : TimerConfig :=
    { callback_fn := some connection_timer_callback,
      start_interval_msec := CONNECTION_POLL_INTERVAL,
      periodic_interval_msec := CONNECTION_POLL_INTERVAL }
  { m with _connection_status_timer := some (Timer.create timer_config).start }

/-- The call `_connection_status_timer->stop()`. -/
def MqttClientImpl.stop_connection_timer (m : MqttClientImpl) : MqttClientImpl :=
  { m with _connection_status_timer := m._connection_status_timer.map Timer.stop }

/-- `MqttClientImpl::on_disconnection_msg(mosq, data, rc)`. -/
def MqttClientImpl.on_disconnection_msg (m : MqttClientImpl) : MqttClientImpl :=
  let m := m.log LogLevel.INFO
  if ¬ m._connection_status then
    let m := m.emit MqttEvent.release
    if m._reconnect_required then m.start_connection_timer else m
  else m

/-- The function `on_disconnect(mosq, obj, rc)`. -/
def MqttClientImpl.on_disconnect (m : MqttClientImpl) : MqttClientImpl :=
  MqttClientImpl.on_disconnection_msg
    (MqttClientImpl.emit (MqttEvent.connection_status false) { m with _connection_status := false })

/-- The function `on_connect(mosq, obj, reason_code)`. -/
def MqttClientImpl.on_connect (reason_code : Int) (m : MqttClientImpl) : MqttClientImpl :=
  if reason_code ≠ 0 then m.emit MqttEvent.mosquitto_disconnect
  else
    MqttClientImpl.emit (MqttEvent.connection_status true)
      { m.log LogLevel.DEBUG with _connection_status := true }

/-- The loop `for (auto& topic : _subscribed_topics)` of
`connection_timer_handler`, entered at the `i`-th topic with the current
`rc`; `subscribe_rc i` is what the `i`-th call of `mosquitto_subscribe`
returns. The result is the state and the final `rc`. -/
def MqttClientImpl.resubscribe (subscribe_rc : Nat → Int) :
    List String → Nat → Int → MqttClientImpl → MqttClientImpl × Int
  | [], _, rc, m => (m, rc)
  | topic :: rest, i, _, m =>
    let rc := subscribe_rc i
    let m := m.emit (MqttEvent.mosquitto_subscribe topic)
    let m := if rc ≠ MOSQ_ERR_SUCCESS then m.log LogLevel.ERROR else m
    MqttClientImpl.resubscribe subscribe_rc rest (i + 1) rc m

/-- `MqttClientImpl::connection_timer_handler()`; `connect_rc` is what
`mosquitto_connect` returns when it is called, `subscribe_rc` gives what the
calls of `mosquitto_subscribe` return, `fd` what `mosquitto_socket` returns. -/
def MqttClientImpl.connection_timer_handler (connect_rc : Int) (subscribe_rc : Nat → Int)
    (fd : Int) (m : MqttClientImpl) : MqttClientImpl :=
  let m := m.log LogLevel.TRACE
  if ¬ m._connection_status then
    let m := m.emit MqttEvent.mosquitto_connect
    if MOSQ_ERR_SUCCESS ≠ connect_rc then m.log LogLevel.ERROR
    else
      let r := MqttClientImpl.resubscribe subscribe_rc m._subscribed_topics 0 MOSQ_ERR_UNKNOWN m
      if r.2 = MOSQ_ERR_SUCCESS then
        let m := (r.1.setup_mqtt_communicator fd).1
        let m := MqttClientImpl.emit (MqttEvent.connection_status true)
          { m with _connection_status := true }
        m.stop_connection_timer
      else r.1
  else
    (m.log LogLevel.INFO).stop_connection_timer

/-- The calls of `mosquitto_subscribe` according to a trace: the topics, in order. -/
def subscribes_called : List MqttEvent → List String
  | [] => []
  | MqttEvent.mosquitto_subscribe topic :: rest => topic :: subscribes_called rest
  | _ :: rest => subscribes_called rest

/-- The calls of `mosquitto_publish` according to a trace, in order. -/
def publishes_called : List MqttEvent → List (String × Int × List Nat × Int × Bool)
  | [] => []
  | MqttEvent.mosquitto_publish topic len buf qos retain :: rest =>
    (topic, len, buf, qos, retain) :: publishes_called rest
  | _ :: rest => publishes_called rest

/-- The number of calls of the mosquitto library according to a trace. -/
def library_calls : List MqttEvent → Nat
  | [] => 0
  | MqttEvent.mosquitto_publish _ _ _ _ _ :: rest => library_calls rest + 1
  | MqttEvent.mosquitto_subscribe _ :: rest => library_calls rest + 1
  | MqttEvent.mosquitto_unsubscribe _ :: rest => library_calls rest + 1
  | MqttEvent.mosquitto_connect :: rest => library_calls rest + 1
  | MqttEvent.mosquitto_disconnect :: rest => library_calls rest + 1
  | MqttEvent.mosquitto_socket :: rest => library_calls rest + 1
  | _ :: rest => library_calls rest

/-- The calls of message callbacks according to a trace, in order. -/
def message_callbacks_invoked : List MqttEvent → List (Nat × String × List Nat × Int)
  | [] => []
  | MqttEvent.message_callback id topic payload len :: rest =>
    (id, topic, payload, len) :: message_callbacks_invoked rest
  | _ :: rest => message_callbacks_invoked rest

/-! ## Log levels of the traces -/

/-- The levels of the log lines of a timer trace, in order. -/
def timer_log_levels : List TimerEvent → List LogLevel
  | [] => []
  | TimerEvent.log level :: rest => level :: timer_log_levels rest
  | _ :: rest => timer_log_levels rest

/-- The levels of the log lines of a CAN trace, in order. -/
def can_log_levels : List CanEvent → List LogLevel
  | [] => []
  | CanEvent.log level :: rest => level :: can_log_levels rest
  | _ :: rest => can_log_levels rest

/-- The levels of the log lines of a UDP trace, in order. -/
def udp_log_levels : List UdpEvent → List LogLevel
  | [] => []
  | UdpEvent.log level :: rest => level :: udp_log_levels rest
  | _ :: rest => udp_log_levels rest

/-! ## Timer and CAN adapter: what is outstanding -/

/-- The outstanding waits that have not been cancelled: those still waiting
for their deadline and those that have expired, whose handler is queued with
a success code. -/
def Timer.uncancelled_waits (t : Timer) : List Wait :=
  t.waits.filter fun w => ¬ w.status = WaitStatus.aborted

/-- The `io_context` side, a wait that is handled as soon as it completes:
the deadline of the `i`-th outstanding wait passes, if that wait is pending,
and its handler is run at once. -/
def Timer.fire (code : Nat → List TimerCall) (i : Nat) (t : Timer) : Timer :=
  (t.expire i).complete code i

/-- The timer states that can occur when every wait handler runs as soon as
its wait completes, so that no call of a member function comes between the
passing of a deadline and the run of the handler. -/
inductive Timer.ReachableAtomic (code : Nat → List TimerCall) : Timer → Prop where
  | create (config : TimerConfig) : Timer.ReachableAtomic code (Timer.create config)
  | call {t : Timer} (c : TimerCall) :
    Timer.ReachableAtomic code t → Timer.ReachableAtomic code (t.call c)
  | fire {t : Timer} (i : Nat) :
    Timer.ReachableAtomic code t → Timer.ReachableAtomic code (t.fire code i)

/-- The repeating reads outstanding on `_can_stream` that have not been
cancelled. -/
def CanImpl.repeating_reads (c : CanImpl) : List ReadOp :=
  c.reads.filter fun r => r.lambda = ReadLambda.repeating ∧ r.cancelled = false

/-! ## string_util.{hpp,cpp}

A `std::string` is the list of its characters here. -/

/-- `std::string::find` for a pattern of one character: the position of its
first occurrence, `none` for `npos`. -/
def string_find (c : Char) : List Char → Option Nat
  | [] => none
  | x :: rest => if x = c then some 0 else (string_find c rest).map (fun n => n + 1)

/-- `std::string::substr(pos, count)` for `pos` within the string. -/
def string_substr (pos count : Nat) (s : List Char) : List Char :=
  (s.drop pos).take count

/-- The values of `std::errc` that `std::from_chars` reports. -/
inductive errc where
  | ok
  | invalid_argument
  | result_out_of_range
deriving DecidableEq, Repr

/-- The largest value of `uint32_t`. -/
def UINT32_MAX : Nat := 4294967295

/-- The number that a run of decimal digits writes. -/
def digits_value (digits : List Char) : Nat :=
  digits.foldl (fun acc c => acc * 10 + (c.toNat - 48)) 0

/-- `std::from_chars(first, last, value)` for a `uint32_t` in base 10, on the
characters between `first` and `last`: the longest run of decimal digits at
the front is taken (no white space, no sign). The result is the offset of
`ptr` from `first`, the error code, and `value`, which is written only on
success. -/
def from_chars_uint32 (s : List Char) (value : Nat) : Nat × errc × Nat :=
  let digits := s.takeWhile Char.isDigit
  if digits = [] then (0, errc.invalid_argument, value)
  else if digits_value digits > UINT32_MAX then (digits.length, errc.result_out_of_range, value)
  else (digits.length, errc.ok, digits_value digits)

/-- `stringUtil::split_url_into_address_and_port(url)`. -/
def split_url_into_address_and_port (url : List Char) : Option (List Char × Nat) :=
  match string_find ':' url with
  | none => none
  | some delimiter_position =>
    let address := string_substr 0 delimiter_position url
    let port_string :=
      string_substr (delimiter_position + 1) (url.length - delimiter_position) url
    let port := 0
    let r := from_chars_uint32 port_string port
    if address.length ≠ 0 ∧ r.2.1 = errc.ok ∧ r.1 = port_string.length then
      some (address, r.2.2)
    else none

/-! # Theorems -/

/-! ## Reactor -/

theorem emplace_threads_spec (pool_size : Int) (n : Nat) :
    ∀ (i : Int) (c : AsyncIoContext), (pool_size - i).toNat = n →
      AsyncIoContext.emplace_threads pool_size i c =
        { c with _thread_pool := c._thread_pool ++ (List.range n).map (fun k : Nat => i + (k : Int)),
                 trace := c.trace ++
                   (List.range n).map (fun k : Nat => ReactorEvent.thread_created (i + (k : Int))) } := by
  induction n with
  | zero =>
    intro i c h
    rw [AsyncIoContext.emplace_threads]
    have : ¬ i < pool_size := by omega
    simp [this]
  | succ n ih =>
    intro i c h
    rw [AsyncIoContext.emplace_threads]
    have hlt : i < pool_size := by omega
    rw [if_pos hlt, ih (i + 1) _ (by omega)]
    simp only [List.range_succ_eq_map, List.map_cons, List.map_map, List.append_assoc,
      List.singleton_append, Nat.cast_zero, add_zero]
    have e : (fun k : Nat => i + 1 + (k : Int)) = ((fun k : Nat => i + (k : Int)) ∘ Nat.succ) := by
      funext k
      simp only [Function.comp, Nat.succ_eq_add_one, Nat.cast_add, Nat.cast_one]
      omega
    have e2 : (fun k : Nat => ReactorEvent.thread_created (i + 1 + (k : Int))) =
        ((fun k : Nat => ReactorEvent.thread_created (i + (k : Int))) ∘ Nat.succ) := by
      funext k
      simp only [Function.comp, Nat.succ_eq_add_one, Nat.cast_add, Nat.cast_one]
      congr 1
      omega
    rw [e, e2]

theorem join_all_spec (pool : List Int) :
    ∀ c : AsyncIoContext,
      AsyncIoContext.join_all pool c =
        { c with trace := c.trace ++ pool.map ReactorEvent.join } := by
  induction pool with
  | nil => intro c; simp [AsyncIoContext.join_all]
  | cons i rest ih => intro c; simp [AsyncIoContext.join_all, ih]

theorem joined_threads_append (a b : List ReactorEvent) :
    joined_threads (a ++ b) = joined_threads a ++ joined_threads b := by
  induction a with
  | nil => rfl
  | cons e rest ih => cases e <;> simp [joined_threads, ih]

theorem joined_threads_map_join (pool : List Int) :
    joined_threads (pool.map ReactorEvent.join) = pool := by
  induction pool with
  | nil => rfl
  | cons i rest ih => simp [joined_threads, ih]

theorem joined_threads_map_created (l : List Int) :
    joined_threads (l.map ReactorEvent.thread_created) = [] := by
  induction l with
  | nil => rfl
  | cons i rest ih => simp [joined_threads, ih]

theorem create_eq (pool_size : Int) :
    AsyncIoContext.create pool_size =
      { work_guard_held := true, stopped := false,
        _thread_pool := (List.range (clamp_pool_size pool_size).toNat).map (fun k : Nat => (k : Int)),
        trace := (List.range (clamp_pool_size pool_size).toNat).map
          (fun k : Nat => ReactorEvent.thread_created (k : Int)) } := by
  unfold AsyncIoContext.create
  have hc : (if pool_size < THREADPOOL_MIN_SIZE then THREADPOOL_MIN_SIZE
      else if pool_size > THREADPOOL_MAX_SIZE then THREADPOOL_MAX_SIZE else pool_size)
      = clamp_pool_size pool_size := by
    unfold THREADPOOL_MIN_SIZE THREADPOOL_MAX_SIZE clamp_pool_size
    split_ifs <;> omega
  simp only [hc]
  rw [emplace_threads_spec _ (clamp_pool_size pool_size).toNat 0 _ (by simp)]
  simp

/-- C1: for every integer `pool_size` (zero and negative ones included) the
constructor puts exactly `clamp(pool_size, 16, 128) = max(16, min(pool_size, 128))`
worker threads into the pool, numbered `0, 1, ...` without repetition, and the
destructor, after releasing the work guard and stopping the loop, joins
exactly these threads, each once and in pool order, before its final log line
and its return. -/
theorem reactor_pool_size_is_clamped (pool_size : Int) :
    ((AsyncIoContext.create pool_size)._thread_pool.length : Int) = clamp_pool_size pool_size ∧
    clamp_pool_size pool_size = max 16 (min pool_size 128) ∧
    (AsyncIoContext.create pool_size)._thread_pool =
      (List.range (clamp_pool_size pool_size).toNat).map (fun k : Nat => (k : Int)) ∧
    (AsyncIoContext.create pool_size)._thread_pool.Nodup ∧
    (AsyncIoContext.destroy (AsyncIoContext.create pool_size)).trace =
      (AsyncIoContext.create pool_size).trace ++
        [ReactorEvent.work_guard_reset, ReactorEvent.stop] ++
        (AsyncIoContext.create pool_size)._thread_pool.map ReactorEvent.join ++
        [ReactorEvent.log LogLevel.DEBUG] ∧
    joined_threads (AsyncIoContext.destroy (AsyncIoContext.create pool_size)).trace =
      (AsyncIoContext.create pool_size)._thread_pool ∧
    ((joined_threads (AsyncIoContext.destroy (AsyncIoContext.create pool_size)).trace).length : Int)
      = clamp_pool_size pool_size := by
  have hpos : 0 ≤ clamp_pool_size pool_size := by unfold clamp_pool_size; omega
  have hlen : ((AsyncIoContext.create pool_size)._thread_pool.length : Int)
      = clamp_pool_size pool_size := by
    rw [create_eq]; simp [hpos]
  have htrace : (AsyncIoContext.destroy (AsyncIoContext.create pool_size)).trace =
      (AsyncIoContext.create pool_size).trace ++
        [ReactorEvent.work_guard_reset, ReactorEvent.stop] ++
        (AsyncIoContext.create pool_size)._thread_pool.map ReactorEvent.join ++
        [ReactorEvent.log LogLevel.DEBUG] := by
    simp [AsyncIoContext.destroy, join_all_spec]
  have hjoin : joined_threads (AsyncIoContext.destroy (AsyncIoContext.create pool_size)).trace =
      (AsyncIoContext.create pool_size)._thread_pool := by
    rw [htrace]
    simp only [joined_threads_append, joined_threads_map_join]
    rw [create_eq]
    have := joined_threads_map_created
      ((List.range (clamp_pool_size pool_size).toNat).map (fun k : Nat => (k : Int)))
    simp only [List.map_map] at this
    simp [Function.comp_def] at this
    simp [this, joined_threads]
  refine ⟨hlen, rfl, ?_, ?_, htrace, hjoin, ?_⟩
  · rw [create_eq]
  · rw [create_eq]
    exact (List.nodup_range _).map (fun a b h => by simpa using h)
  · rw [hjoin]; exact hlen

/-! ## Timer: the wait list -/

theorem steady_timer_cancel_mem {h : Nat} {waits : List Wait} {w : Wait}
    (hw : w ∈ steady_timer_cancel h waits) :
    ∃ v ∈ waits, v.handle = w.handle ∧ v.msec = w.msec ∧
      (w.status = WaitStatus.pending → v.status = WaitStatus.pending ∧ v.handle ≠ h) := by
  unfold steady_timer_cancel at hw
  rw [List.mem_map] at hw
  obtain ⟨v, hv, rfl⟩ := hw
  refine ⟨v, hv, ?_⟩
  by_cases c : v.handle = h ∧ v.status = WaitStatus.pending
  · simp [c]
  · simp only [c, if_false, true_and]
    intro hp
    exact ⟨hp, fun e => c ⟨e, hp⟩⟩

theorem steady_timer_cancel_of_no_pending (h : Nat) (waits : List Wait)
    (hn : ∀ w ∈ waits, w.handle = h → w.status ≠ WaitStatus.pending) :
    steady_timer_cancel h waits = waits := by
  unfold steady_timer_cancel
  conv_rhs => rw [← List.map_id waits]
  apply List.map_congr_left
  intro w hw
  have : ¬ (w.handle = h ∧ w.status = WaitStatus.pending) := fun c => hn w hw c.1 c.2
  simp [this]

theorem steady_timer_cancel_idem (h : Nat) (waits : List Wait) :
    steady_timer_cancel h (steady_timer_cancel h waits) = steady_timer_cancel h waits := by
  apply steady_timer_cancel_of_no_pending
  intro w hw he hp
  obtain ⟨v, _, hvh, _, hv⟩ := steady_timer_cancel_mem hw
  exact (hv hp).2 (hvh.trans he)

theorem filter_pending_eq_nil {waits : List Wait}
    (hn : ∀ w ∈ waits, w.status ≠ WaitStatus.pending) :
    waits.filter (fun w => w.status = WaitStatus.pending) = [] := by
  rw [List.filter_eq_nil_iff]
  intro w hw
  simpa using hn w hw

/-! ## Timer: well-formedness is kept by every member function -/

theorem Timer.WF.no_pending_of_stopped {t : Timer} (hwf : t.WF) (hs : t._timer = none) :
    ∀ w ∈ t.waits, w.status ≠ WaitStatus.pending := by
  intro w hw hp
  have := hwf.2.2 w hw hp
  rw [hs] at this
  exact Option.noConfusion this

theorem Timer.WF.pending_waits_of_stopped {t : Timer} (hwf : t.WF) (hs : t._timer = none) :
    t.pending_waits = [] :=
  filter_pending_eq_nil (hwf.no_pending_of_stopped hs)

theorem Timer.WF.create (config : TimerConfig) : (Timer.create config).WF := by
  simp [Timer.WF, Timer.create]

theorem Timer.WF.lock {t : Timer} (hwf : t.WF) : t.lock.WF := hwf

theorem Timer.WF.unlock {t : Timer} (hwf : t.WF) : t.unlock.WF := hwf

theorem Timer.WF.timer_async_wait {t : Timer} (hwf : t.WF) (b : Bool) :
    (t.timer_async_wait b).WF := by
  unfold Timer.timer_async_wait
  cases ht : t._timer with
  | none => simpa using hwf
  | some h =>
    have hlt : h < t.next_handle := hwf.2.1 h ht
    refine ⟨?_, ?_, ?_⟩
    · intro w hw
      simp only [List.mem_append, List.mem_singleton] at hw
      rcases hw with hw | rfl
      · obtain ⟨v, hv, hvh, _⟩ := steady_timer_cancel_mem hw
        exact hvh ▸ hwf.1 v hv
      · exact hlt
    · intro k hk
      exact hwf.2.1 k (ht ▸ hk)
    · intro w hw hp
      simp only [List.mem_append, List.mem_singleton] at hw
      rcases hw with hw | rfl
      · obtain ⟨v, hv, hvh, _, hvp⟩ := steady_timer_cancel_mem hw
        have h1 := hwf.2.2 v hv (hvp hp).1
        rw [ht] at h1
        exact absurd (Option.some.inj h1).symm (hvp hp).2
      · rfl

theorem Timer.WF.reset_timer {t : Timer} (hwf : t.WF) : t.reset_timer.WF := by
  unfold Timer.reset_timer
  cases ht : t._timer with
  | none => simpa using hwf
  | some h =>
    refine ⟨?_, ?_, ?_⟩
    · intro w hw
      obtain ⟨v, hv, hvh, _⟩ := steady_timer_cancel_mem hw
      exact hvh ▸ hwf.1 v hv
    · intro k hk
      exact Option.noConfusion hk
    · intro w hw hp
      obtain ⟨v, hv, hvh, _, hvp⟩ := steady_timer_cancel_mem hw
      have h1 := hwf.2.2 v hv (hvp hp).1
      rw [ht] at h1
      exact absurd (Option.some.inj h1).symm (hvp hp).2

theorem Timer.stop_no_lock_eq_reset_timer (t : Timer) : t.stop_no_lock = t.reset_timer := by
  unfold Timer.stop_no_lock Timer.reset_timer
  cases ht : t._timer with
  | none => rfl
  | some h => simp [steady_timer_cancel_idem]

theorem Timer.WF.stop_no_lock {t : Timer} (hwf : t.WF) : t.stop_no_lock.WF := by
  rw [Timer.stop_no_lock_eq_reset_timer]
  exact hwf.reset_timer

theorem Timer.WF.start_noLock {t : Timer} (hwf : t.WF) : t.start_noLock.WF := by
  unfold Timer.start_noLock
  cases ht : t._timer with
  | some h => simpa using hwf
  | none =>
    simp only [Option.isNone_none, if_true]
    apply Timer.WF.timer_async_wait
    refine ⟨?_, ?_, ?_⟩
    · intro w hw
      exact Nat.lt_succ_of_lt (hwf.1 w hw)
    · intro k hk
      have : t.next_handle = k := Option.some.inj hk
      exact this ▸ Nat.lt_succ_self _
    · intro w hw hp
      exact absurd hp (hwf.no_pending_of_stopped ht w hw)

theorem Timer.WF.start {t : Timer} (hwf : t.WF) : t.start.WF :=
  hwf.lock.start_noLock.unlock

theorem Timer.WF.stop {t : Timer} (hwf : t.WF) : t.stop.WF :=
  hwf.lock.stop_no_lock.unlock

theorem Timer.WF.restart {t : Timer} (hwf : t.WF) : t.restart.WF :=
  hwf.lock.stop_no_lock.start_noLock.unlock

theorem Timer.WF.with_config {t : Timer} (hwf : t.WF) (cb : Option Nat) (s p : Int) :
    Timer.WF { t with _callback := cb, _start_interval_msec := s, _periodic_interval_msec := p } :=
  hwf

theorem Timer.WF.restart_with {t : Timer} (hwf : t.WF) (cb : Option Nat) (s p : Int) :
    (t.restart_with cb s p).WF :=
  (hwf.lock.stop_no_lock.with_config cb s p).start_noLock.unlock

theorem Timer.WF.call {t : Timer} (hwf : t.WF) (c : TimerCall) : (t.call c).WF := by
  cases c with
  | start => exact hwf.start
  | stop => exact hwf.stop
  | restart => exact hwf.restart
  | restart_with cb s p => exact hwf.restart_with cb s p
  | set_start_interval_msec m => exact hwf
  | set_periodic_interval_msec m => exact hwf
  | set_callback cb => exact hwf

theorem Timer.WF.run_body (body : List TimerCall) :
    ∀ {t : Timer}, t.WF → (t.run_body body).WF := by
  induction body with
  | nil => intro t hwf; exact hwf
  | cons c rest ih => intro t hwf; exact ih (hwf.call c)

theorem Timer.WF.with_trace {t : Timer} (hwf : t.WF) (tr : List TimerEvent) :
    Timer.WF { t with trace := tr } :=
  hwf

theorem Timer.WF.call_callback {t : Timer} (hwf : t.WF) (code : Nat → List TimerCall) :
    (t.call_callback code).WF := by
  unfold Timer.call_callback
  cases t._callback with
  | none => exact hwf
  | some cb =>
    apply Timer.WF.run_body
    exact hwf

theorem Timer.WF.timer_callback {t : Timer} (hwf : t.WF) (code : Nat → List TimerCall)
    (ec : error_code) : (t.timer_callback code ec).WF := by
  unfold Timer.timer_callback
  simp only
  split_ifs
  · exact (hwf.lock.with_trace _).unlock
  · exact (((hwf.lock.with_trace _).call_callback code).timer_async_wait false).unlock
  · exact ((hwf.lock.with_trace _).call_callback code).reset_timer.unlock
  · exact ((hwf.lock.with_trace _).with_trace _).unlock
  · exact ((hwf.lock.call_callback code).timer_async_wait false).unlock
  · exact (hwf.lock.call_callback code).reset_timer.unlock
  · exact (hwf.lock.with_trace _).unlock

theorem Timer.WF.expire {t : Timer} (hwf : t.WF) (i : Nat) : (t.expire i).WF := by
  unfold Timer.expire
  cases hg : t.waits.get? i with
  | none => exact hwf
  | some w =>
    simp only
    split_ifs with hp
    · have hw : w ∈ t.waits := List.get?_mem hg
      refine ⟨?_, hwf.2.1, ?_⟩
      · intro v hv
        rcases List.mem_or_eq_of_mem_set hv with h | h
        · exact hwf.1 v h
        · rw [h]; exact hwf.1 w hw
      · intro v hv hvp
        rcases List.mem_or_eq_of_mem_set hv with h | h
        · exact hwf.2.2 v h hvp
        · rw [h] at hvp
          exact WaitStatus.noConfusion hvp
    · exact hwf

theorem Timer.WF.erase_wait {t : Timer} (hwf : t.WF) (i : Nat) :
    Timer.WF { t with waits := t.waits.eraseIdx i } :=
  ⟨fun w hw => hwf.1 w (List.mem_of_mem_eraseIdx hw), hwf.2.1,
    fun w hw => hwf.2.2 w (List.mem_of_mem_eraseIdx hw)⟩

theorem Timer.WF.complete {t : Timer} (hwf : t.WF) (code : Nat → List TimerCall) (i : Nat) :
    (t.complete code i).WF := by
  unfold Timer.complete
  cases hg : t.waits.get? i with
  | none => exact hwf
  | some w =>
    simp only
    cases w.status with
    | pending => exact hwf
    | expired => exact (hwf.erase_wait i).timer_callback code 0
    | aborted => exact (hwf.erase_wait i).timer_callback code operation_aborted

/-- Every state outside a fire is well-formed. -/
theorem Timer.Reachable.wf {code : Nat → List TimerCall} {t : Timer}
    (h : Timer.Reachable code t) : t.WF := by
  induction h with
  | create config => exact Timer.WF.create config
  | call c _ ih => exact ih.call c
  | expire i _ ih => exact ih.expire i
  | complete i _ ih => exact ih.complete code i

/-! ## Timer: start, stop, restart -/

theorem Timer.start_of_stopped {t : Timer} (hwf : t.WF) (hs : t._timer = none) :
    t.start =
      { t with _timer := some t.next_handle, next_handle := t.next_handle + 1,
               waits := t.waits ++ [⟨t.next_handle, t._start_interval_msec, WaitStatus.pending⟩],
               trace := t.trace ++
                 [TimerEvent.async_wait t.next_handle t._start_interval_msec] } := by
  have hc : steady_timer_cancel t.next_handle t.waits = t.waits := by
    apply steady_timer_cancel_of_no_pending
    intro w hw he
    exact absurd he (Nat.ne_of_lt (hwf.1 w hw))
  simp [Timer.start, Timer.lock, Timer.unlock, Timer.start_noLock, Timer.timer_async_wait, hs, hc]

theorem Timer.start_of_started {t : Timer} (hs : t._timer ≠ none) : t.start = t := by
  obtain ⟨cb, s, p, tm, m, n, w, tr⟩ := t
  cases tm with
  | none => exact absurd rfl hs
  | some h => simp [Timer.start, Timer.lock, Timer.unlock, Timer.start_noLock]

theorem Timer.stop_eq (t : Timer) :
    t.stop =
      { t with _timer := none,
               waits := match t._timer with
                 | some h => steady_timer_cancel h t.waits
                 | none => t.waits } := by
  obtain ⟨cb, s, p, tm, m, n, w, tr⟩ := t
  cases tm with
  | none => simp [Timer.stop, Timer.lock, Timer.unlock, Timer.stop_no_lock]
  | some h =>
    simp [Timer.stop, Timer.lock, Timer.unlock, Timer.stop_no_lock, Timer.reset_timer,
      steady_timer_cancel_idem]

/-- C2: for every timer configuration, `start()` followed by `stop()` with no
fire in between leaves the timer Stopped with its one wait aborted and no
callback invoked; the completion of that wait does not invoke the callback
(nor does the wait handler run with any error code, success included, on the
stopped timer), and when the wait had already expired at the time of `stop()`,
so that its completion arrives with a success code, the handler finds no
handle and does not invoke the callback either. The timer stays Stopped and
no wait is left. -/
theorem start_then_stop_never_fires (config : TimerConfig) (code : Nat → List TimerCall) :
    (Timer.create config).start.stop.is_started = false ∧
    (Timer.create config).start.stop.waits =
      [⟨0, config.start_interval_msec, WaitStatus.aborted⟩] ∧
    callbacks_invoked (Timer.create config).start.stop.trace = [] ∧
    callbacks_invoked ((Timer.create config).start.stop.complete code 0).trace = [] ∧
    ((Timer.create config).start.stop.complete code 0).is_started = false ∧
    ((Timer.create config).start.stop.complete code 0).waits = [] ∧
    (∀ ec : error_code,
      callbacks_invoked ((Timer.create config).start.stop.timer_callback code ec).trace = [] ∧
      ((Timer.create config).start.stop.timer_callback code ec).is_started = false ∧
      ((Timer.create config).start.stop.timer_callback code ec).waits =
        (Timer.create config).start.stop.waits) ∧
    ((Timer.create config).start.expire 0).stop.is_started = false ∧
    ((Timer.create config).start.expire 0).stop.waits =
      [⟨0, config.start_interval_msec, WaitStatus.expired⟩] ∧
    callbacks_invoked (((Timer.create config).start.expire 0).stop.complete code 0).trace = [] ∧
    (((Timer.create config).start.expire 0).stop.complete code 0).is_started = false ∧
    (((Timer.create config).start.expire 0).stop.complete code 0).waits = [] := by
  have hstart : (Timer.create config).start =
      { Timer.create config with
        _timer := some 0, next_handle := 1,
        waits := [⟨0, config.start_interval_msec, WaitStatus.pending⟩],
        trace := [TimerEvent.async_wait 0 config.start_interval_msec] } := by
    rw [Timer.start_of_stopped (Timer.WF.create config) rfl]
    simp [Timer.create]
  rw [hstart]
  refine ⟨?_, ?_, ?_, ?_, ?_, ?_, ?_, ?_, ?_, ?_, ?_, ?_⟩
  · simp [Timer.stop_eq, Timer.is_started]
  · simp [Timer.stop_eq, steady_timer_cancel]
  · simp [Timer.stop_eq, callbacks_invoked]
  · simp [Timer.stop_eq, steady_timer_cancel, Timer.complete, Timer.timer_callback,
      operation_aborted, Timer.lock, Timer.unlock, callbacks_invoked]
  · simp [Timer.stop_eq, steady_timer_cancel, Timer.complete, Timer.timer_callback,
      operation_aborted, Timer.lock, Timer.unlock, Timer.is_started]
  · simp [Timer.stop_eq, steady_timer_cancel, Timer.complete, Timer.timer_callback,
      operation_aborted, Timer.lock, Timer.unlock]
  · intro ec
    simp only [Timer.stop_eq, Timer.timer_callback, Timer.lock, Timer.unlock, Timer.is_started]
    split_ifs <;> simp_all [callbacks_invoked]
  · simp [Timer.stop_eq, Timer.expire, Timer.is_started]
  · simp [Timer.stop_eq, Timer.expire, steady_timer_cancel]
  · simp [Timer.stop_eq, Timer.expire, steady_timer_cancel, Timer.complete, Timer.timer_callback,
      Timer.lock, Timer.unlock, callbacks_invoked]
  · simp [Timer.stop_eq, Timer.expire, steady_timer_cancel, Timer.complete, Timer.timer_callback,
      Timer.lock, Timer.unlock, Timer.is_started]
  · simp [Timer.stop_eq, Timer.expire, steady_timer_cancel, Timer.complete, Timer.timer_callback,
      Timer.lock, Timer.unlock]

/-- C4: `start()` on a Stopped (well-formed) timer creates the wait handle (a
fresh one) and issues exactly one wait, pending and scheduled with the
configured start-delay, so that `is_started()` becomes true, while callback
and intervals stay as they are; `start()` on an Armed timer changes nothing at
all: no wait is issued, the outstanding waits, the callback and the intervals
are the same. -/
theorem start_arms_a_stopped_timer_only (t : Timer) :
    (t._timer = none → t.WF →
      t.start._timer = some t.next_handle ∧
      t.start.is_started = true ∧
      t.start.waits =
        t.waits ++ [⟨t.next_handle, t._start_interval_msec, WaitStatus.pending⟩] ∧
      t.start.pending_waits = [⟨t.next_handle, t._start_interval_msec, WaitStatus.pending⟩] ∧
      t.start.trace =
        t.trace ++ [TimerEvent.async_wait t.next_handle t._start_interval_msec] ∧
      t.start._callback = t._callback ∧
      t.start._start_interval_msec = t._start_interval_msec ∧
      t.start._periodic_interval_msec = t._periodic_interval_msec ∧
      t.start._mutex = t._mutex) ∧
    (t._timer ≠ none → t.is_started = true ∧ t.start = t) := by
  constructor
  · intro hs hwf
    rw [Timer.start_of_stopped hwf hs]
    refine ⟨rfl, rfl, rfl, ?_, rfl, rfl, rfl, rfl, rfl⟩
    have := hwf.pending_waits_of_stopped hs
    unfold Timer.pending_waits at this ⊢
    simp [List.filter_append, this]
  · intro hs
    refine ⟨?_, Timer.start_of_started hs⟩
    cases ht : t._timer with
    | none => exact absurd ht hs
    | some h => simp [Timer.is_started, ht]

/-- Witness of C4: a newly created timer is started, then started again. -/
theorem start_arms_a_stopped_timer_only_witness :
    ((Timer.create ⟨some 0, 10, 100⟩).start._timer = some 0 ∧
      (Timer.create ⟨some 0, 10, 100⟩).start.is_started = true ∧
      (Timer.create ⟨some 0, 10, 100⟩).start.waits = [⟨0, 10, WaitStatus.pending⟩]) ∧
    (Timer.create ⟨some 0, 10, 100⟩).start.start = (Timer.create ⟨some 0, 10, 100⟩).start := by
  have h1 := (start_arms_a_stopped_timer_only (Timer.create ⟨some 0, 10, 100⟩)).1 rfl
    (Timer.WF.create _)
  have h2 := (start_arms_a_stopped_timer_only (Timer.create ⟨some 0, 10, 100⟩).start).2
    (by rw [h1.1]; exact Option.noConfusion)
  exact ⟨⟨h1.1, h1.2.1, h1.2.2.1⟩, h2.2⟩

theorem callbacks_invoked_append (a b : List TimerEvent) :
    callbacks_invoked (a ++ b) = callbacks_invoked a ++ callbacks_invoked b := by
  induction a with
  | nil => rfl
  | cons e rest ih => cases e <;> simp [callbacks_invoked, ih]

theorem waits_issued_append (a b : List TimerEvent) :
    waits_issued (a ++ b) = waits_issued a ++ waits_issued b := by
  induction a with
  | nil => rfl
  | cons e rest ih => cases e <;> simp [waits_issued, ih]

theorem Timer.restart_eq_stop_start (t : Timer) : t.restart = t.stop.start := by
  obtain ⟨cb, s, p, tm, m, n, w, tr⟩ := t
  cases tm <;>
    simp [Timer.restart, Timer.stop, Timer.start, Timer.lock, Timer.unlock, Timer.stop_no_lock,
      Timer.reset_timer, Timer.start_noLock, Timer.timer_async_wait]

theorem Timer.restart_with_eq (t : Timer) (cb : Option Nat) (s p : Int) :
    t.restart_with cb s p =
      (((t.stop.set_callback cb).set_start_interval_msec s).set_periodic_interval_msec p).start := by
  obtain ⟨cb0, s0, p0, tm, m, n, w, tr⟩ := t
  cases tm <;>
    simp [Timer.restart_with, Timer.stop, Timer.start, Timer.lock, Timer.unlock,
      Timer.stop_no_lock, Timer.reset_timer, Timer.start_noLock, Timer.timer_async_wait,
      Timer.set_callback, Timer.set_start_interval_msec, Timer.set_periodic_interval_msec]

theorem Timer.stop_stopped (t : Timer) : t.stop._timer = none := by
  rw [Timer.stop_eq]

theorem Timer.WF.cancelled_mem {t : Timer} (hwf : t.WF) {w : Wait} (hw : w ∈ t.waits)
    (hp : w.status = WaitStatus.pending) :
    { w with status := WaitStatus.aborted } ∈ t.stop.waits := by
  have ht := hwf.2.2 w hw hp
  rw [Timer.stop_eq]
  simp only [ht, steady_timer_cancel, List.mem_map]
  exact ⟨w, hw, by simp [hp]⟩

/-- C5: in every timer state `restart()` gives the same state as `stop()`
followed by `start()`, and `restart(cb, s, p)` the same state as `stop()`,
`set_callback(cb)`, `set_start_interval_msec(s)`, `set_periodic_interval_msec(p)`,
`start()`. On a well-formed state (every state outside a fire is) the result
is Armed on a fresh handle, every wait that was pending has been aborted, and
exactly one wait is pending, the newly issued one, scheduled with the
start-delay (the new one `s` for the second form, with `cb`, `s`, `p` stored). -/
theorem restart_is_stop_then_start (t : Timer) (cb : Option Nat) (s p : Int) :
    t.restart = t.stop.start ∧
    t.restart_with cb s p =
      (((t.stop.set_callback cb).set_start_interval_msec s).set_periodic_interval_msec p).start ∧
    (t.WF →
      (t.restart.is_started = true ∧
        t.restart._timer = some t.next_handle ∧
        (∀ w ∈ t.waits, w.status = WaitStatus.pending →
          { w with status := WaitStatus.aborted } ∈ t.restart.waits) ∧
        t.restart.waits =
          t.stop.waits ++ [⟨t.next_handle, t._start_interval_msec, WaitStatus.pending⟩] ∧
        t.restart.pending_waits =
          [⟨t.next_handle, t._start_interval_msec, WaitStatus.pending⟩] ∧
        waits_issued t.restart.trace =
          waits_issued t.trace ++ [(t.next_handle, t._start_interval_msec)]) ∧
      ((t.restart_with cb s p).is_started = true ∧
        (t.restart_with cb s p)._timer = some t.next_handle ∧
        (∀ w ∈ t.waits, w.status = WaitStatus.pending →
          { w with status := WaitStatus.aborted } ∈ (t.restart_with cb s p).waits) ∧
        (t.restart_with cb s p).waits =
          t.stop.waits ++ [⟨t.next_handle, s, WaitStatus.pending⟩] ∧
        (t.restart_with cb s p).pending_waits = [⟨t.next_handle, s, WaitStatus.pending⟩] ∧
        waits_issued (t.restart_with cb s p).trace =
          waits_issued t.trace ++ [(t.next_handle, s)] ∧
        (t.restart_with cb s p)._callback = cb ∧
        (t.restart_with cb s p)._start_interval_msec = s ∧
        (t.restart_with cb s p)._periodic_interval_msec = p)) := by
  refine ⟨Timer.restart_eq_stop_start t, Timer.restart_with_eq t cb s p, ?_⟩
  intro hwf
  have hstop : t.stop.pending_waits = [] := hwf.stop.pending_waits_of_stopped t.stop_stopped
  have hn : t.stop.next_handle = t.next_handle := by rw [Timer.stop_eq]
  have htr : t.stop.trace = t.trace := by rw [Timer.stop_eq]
  have hsi : t.stop._start_interval_msec = t._start_interval_msec := by rw [Timer.stop_eq]
  constructor
  · rw [Timer.restart_eq_stop_start, Timer.start_of_stopped hwf.stop t.stop_stopped]
    refine ⟨rfl, ?_, ?_, ?_, ?_, ?_⟩
    · simp [hn]
    · intro w hw hp
      exact List.mem_append_left _ (hwf.cancelled_mem hw hp)
    · simp [hn, hsi]
    · unfold Timer.pending_waits at hstop ⊢
      simp [List.filter_append, hstop, hn, hsi]
    · simp [waits_issued_append, waits_issued, hn, hsi, htr]
  · have hwf2 : Timer.WF (((t.stop.set_callback cb).set_start_interval_msec s).set_periodic_interval_msec p) :=
      hwf.stop
    rw [Timer.restart_with_eq, Timer.start_of_stopped hwf2 t.stop_stopped]
    refine ⟨rfl, ?_, ?_, ?_, ?_, ?_, rfl, rfl, rfl⟩
    · simp [Timer.set_callback, Timer.set_start_interval_msec,
        Timer.set_periodic_interval_msec, Timer.lock, Timer.unlock, hn]
    · intro w hw hp
      exact List.mem_append_left _ (hwf.cancelled_mem hw hp)
    · simp [Timer.set_callback, Timer.set_start_interval_msec,
        Timer.set_periodic_interval_msec, Timer.lock, Timer.unlock, hn]
    · unfold Timer.pending_waits at hstop ⊢
      simp [Timer.set_callback, Timer.set_start_interval_msec,
        Timer.set_periodic_interval_msec, Timer.lock, Timer.unlock, List.filter_append, hstop, hn]
    · simp [Timer.set_callback, Timer.set_start_interval_msec,
        Timer.set_periodic_interval_msec, Timer.lock, Timer.unlock, waits_issued_append,
        waits_issued, hn, htr]

/-- Witness of C5: both forms of `restart` on a started timer. -/
theorem restart_is_stop_then_start_witness :
    (Timer.create ⟨some 0, 10, 100⟩).start.restart.pending_waits =
      [⟨1, 10, WaitStatus.pending⟩] ∧
    ((Timer.create ⟨some 0, 10, 100⟩).start.restart_with (some 1) 20 0).pending_waits =
      [⟨1, 20, WaitStatus.pending⟩] ∧
    (⟨0, 10, WaitStatus.aborted⟩ : Wait) ∈ (Timer.create ⟨some 0, 10, 100⟩).start.restart.waits := by
  have h := (restart_is_stop_then_start (Timer.create ⟨some 0, 10, 100⟩).start (some 1) 20 0).2.2
    (Timer.WF.create _).start
  have hn : (Timer.create ⟨some 0, 10, 100⟩).start.next_handle = 1 := by decide
  have hs : (Timer.create ⟨some 0, 10, 100⟩).start._start_interval_msec = 10 := by decide
  refine ⟨?_, ?_, ?_⟩
  · rw [h.1.2.2.2.2.1, hn, hs]
  · rw [h.2.2.2.2.2.1, hn]
  · exact h.1.2.2.1 ⟨0, 10, WaitStatus.pending⟩ (by decide) rfl

/-! ## Timer: the fire handler -/

theorem Timer.timer_callback_fire (code : Nat → List TimerCall) (t : Timer) (ec : error_code)
    (hh : t._timer ≠ none) (hec : ec ≠ operation_aborted) :
    t.timer_callback code ec =
      if (t.fire_callback_state code ec)._periodic_interval_msec > 0 ∧
          (t.fire_callback_state code ec)._timer.isSome then
        ((t.fire_callback_state code ec).timer_async_wait false).unlock
      else (t.fire_callback_state code ec).reset_timer.unlock := by
  obtain ⟨cb, s, p, tm, m, n, w, tr⟩ := t
  cases tm with
  | none => exact absurd rfl hh
  | some h =>
    unfold Timer.timer_callback Timer.fire_callback_state
    by_cases h0 : ec = 0
    · simp [h0, Timer.lock, operation_aborted]
    · simp [h0, hec, Timer.lock]

theorem Timer.reset_timer_stopped (t : Timer) : t.reset_timer._timer = none := by
  unfold Timer.reset_timer
  cases ht : t._timer <;> simp [ht]

theorem Timer.call_callbacks_invoked (t : Timer) (c : TimerCall) :
    callbacks_invoked (t.call c).trace = callbacks_invoked t.trace := by
  obtain ⟨cb, s, p, tm, m, n, w, tr⟩ := t
  cases c <;> cases tm <;>
    simp [Timer.call, Timer.start, Timer.stop, Timer.restart, Timer.restart_with,
      Timer.set_callback, Timer.set_start_interval_msec, Timer.set_periodic_interval_msec,
      Timer.lock, Timer.unlock, Timer.start_noLock, Timer.stop_no_lock, Timer.reset_timer,
      Timer.timer_async_wait, callbacks_invoked_append, callbacks_invoked]

theorem Timer.run_body_callbacks_invoked (body : List TimerCall) :
    ∀ t : Timer, callbacks_invoked (t.run_body body).trace = callbacks_invoked t.trace := by
  induction body with
  | nil => intro t; rfl
  | cons c rest ih =>
    intro t
    exact (ih (t.call c)).trans (t.call_callbacks_invoked c)

theorem Timer.call_mutex (t : Timer) (c : TimerCall) : (t.call c)._mutex = t._mutex := by
  obtain ⟨cb, s, p, tm, m, n, w, tr⟩ := t
  cases c <;> cases tm <;>
    simp [Timer.call, Timer.start, Timer.stop, Timer.restart, Timer.restart_with,
      Timer.set_callback, Timer.set_start_interval_msec, Timer.set_periodic_interval_msec,
      Timer.lock, Timer.unlock, Timer.start_noLock, Timer.stop_no_lock, Timer.reset_timer,
      Timer.timer_async_wait]

theorem Timer.run_body_mutex (body : List TimerCall) :
    ∀ t : Timer, (t.run_body body)._mutex = t._mutex := by
  induction body with
  | nil => intro t; rfl
  | cons c rest ih =>
    intro t
    exact (ih (t.call c)).trans (t.call_mutex c)

theorem Timer.fire_callback_state_callbacks (code : Nat → List TimerCall) (ec : error_code)
    (t : Timer) :
    callbacks_invoked (t.fire_callback_state code ec).trace =
      callbacks_invoked t.trace ++ t._callback.toList := by
  unfold Timer.fire_callback_state Timer.call_callback
  obtain ⟨cb, s, p, tm, m, n, w, tr⟩ := t
  cases cb with
  | none =>
    by_cases h0 : ec = 0 <;>
      simp [h0, Timer.lock, callbacks_invoked_append, callbacks_invoked]
  | some c =>
    by_cases h0 : ec = 0 <;>
      simp [h0, Timer.lock, Timer.run_body_callbacks_invoked, callbacks_invoked_append,
        callbacks_invoked]

theorem Timer.fire_callback_state_mutex (code : Nat → List TimerCall) (ec : error_code)
    (t : Timer) : (t.fire_callback_state code ec)._mutex = t._mutex + 1 := by
  unfold Timer.fire_callback_state Timer.call_callback
  obtain ⟨cb, s, p, tm, m, n, w, tr⟩ := t
  cases cb with
  | none => by_cases h0 : ec = 0 <;> simp [h0, Timer.lock]
  | some c => by_cases h0 : ec = 0 <;> simp [h0, Timer.lock, Timer.run_body_mutex]

theorem Timer.WF.fire_callback_state {t : Timer} (hwf : t.WF) (code : Nat → List TimerCall)
    (ec : error_code) : (t.fire_callback_state code ec).WF := by
  unfold Timer.fire_callback_state
  simp only
  split_ifs
  · exact (hwf.lock.with_trace _).call_callback code
  · exact hwf.lock.call_callback code

theorem Timer.WF.cancel_no_pending {t : Timer} (hwf : t.WF) {h : Nat} (ht : t._timer = some h) :
    ∀ w ∈ steady_timer_cancel h t.waits, w.status ≠ WaitStatus.pending := by
  intro w hw hp
  obtain ⟨v, hv, _, _, hvp⟩ := steady_timer_cancel_mem hw
  have h1 := hwf.2.2 v hv (hvp hp).1
  rw [ht] at h1
  exact (hvp hp).2 (Option.some.inj h1).symm

/-- The rescheduling branch of the fire handler. -/
theorem Timer.timer_callback_rearm (code : Nat → List TimerCall) (t : Timer) (ec : error_code)
    (hh : t._timer ≠ none) (hec : ec ≠ operation_aborted) (hwf : t.WF) (h : Nat)
    (hp : (t.fire_callback_state code ec)._periodic_interval_msec > 0)
    (ht : (t.fire_callback_state code ec)._timer = some h) :
    (t.timer_callback code ec)._timer = some h ∧
    (t.timer_callback code ec).is_started = true ∧
    waits_issued (t.timer_callback code ec).trace =
      waits_issued (t.fire_callback_state code ec).trace ++
        [(h, (t.fire_callback_state code ec)._periodic_interval_msec)] ∧
    (t.timer_callback code ec).pending_waits =
      [⟨h, (t.fire_callback_state code ec)._periodic_interval_msec, WaitStatus.pending⟩] ∧
    (t.timer_callback code ec)._mutex = t._mutex := by
  have hm := Timer.fire_callback_state_mutex code ec t
  have hnp := filter_pending_eq_nil ((hwf.fire_callback_state code ec).cancel_no_pending ht)
  rw [Timer.timer_callback_fire code t ec hh hec, if_pos ⟨hp, by rw [ht]; rfl⟩]
  unfold Timer.timer_async_wait
  simp only [ht]
  refine ⟨rfl, ?_, ?_, ?_, ?_⟩
  · simp [Timer.is_started, Timer.unlock]
  · simp [Timer.unlock, waits_issued_append, waits_issued]
  · simp [Timer.pending_waits, Timer.unlock, List.filter_append, hnp]
  · simp [Timer.unlock, hm]

/-- The discarding branch of the fire handler. -/
theorem Timer.timer_callback_discard (code : Nat → List TimerCall) (t : Timer) (ec : error_code)
    (hh : t._timer ≠ none) (hec : ec ≠ operation_aborted) (hwf : t.WF)
    (hn : ¬ ((t.fire_callback_state code ec)._periodic_interval_msec > 0 ∧
      (t.fire_callback_state code ec)._timer ≠ none)) :
    (t.timer_callback code ec)._timer = none ∧
    (t.timer_callback code ec).is_started = false ∧
    (t.timer_callback code ec).pending_waits = [] ∧
    waits_issued (t.timer_callback code ec).trace =
      waits_issued (t.fire_callback_state code ec).trace ∧
    (t.timer_callback code ec)._mutex = t._mutex := by
  have hm := Timer.fire_callback_state_mutex code ec t
  have hwf2 := hwf.timer_callback code ec
  have hn2 : ¬ ((t.fire_callback_state code ec)._periodic_interval_msec > 0 ∧
      (t.fire_callback_state code ec)._timer.isSome) := by
    intro c
    exact hn ⟨c.1, fun e => by rw [e] at c; exact absurd c.2 (by simp)⟩
  have e := Timer.timer_callback_fire code t ec hh hec
  rw [if_neg hn2] at e
  have hs : (t.timer_callback code ec)._timer = none := by
    rw [e]
    exact Timer.reset_timer_stopped _
  refine ⟨hs, ?_, hwf2.pending_waits_of_stopped hs, ?_, ?_⟩
  · simp [Timer.is_started, hs]
  · rw [e]
    unfold Timer.reset_timer
    cases (t.fire_callback_state code ec)._timer <;> rfl
  · rw [e]
    unfold Timer.reset_timer
    cases (t.fire_callback_state code ec)._timer <;> simp [Timer.unlock, hm]

theorem Timer.fire_callback_state_idle (code : Nat → List TimerCall) (ec : error_code) (t : Timer)
    (hc : ∀ cb, t._callback = some cb → code cb = []) :
    (t.fire_callback_state code ec)._periodic_interval_msec = t._periodic_interval_msec ∧
    (t.fire_callback_state code ec)._timer = t._timer ∧
    waits_issued (t.fire_callback_state code ec).trace = waits_issued t.trace := by
  unfold Timer.fire_callback_state Timer.call_callback
  obtain ⟨cb, s, p, tm, m, n, w, tr⟩ := t
  cases cb with
  | none =>
    by_cases h0 : ec = 0 <;> simp [h0, Timer.lock, waits_issued_append, waits_issued]
  | some c =>
    have := hc c rfl
    by_cases h0 : ec = 0 <;>
      simp [h0, Timer.lock, this, Timer.run_body, waits_issued_append, waits_issued]

theorem Timer.fire_callback_state_stop (code : Nat → List TimerCall) (ec : error_code) (t : Timer)
    (cb : Nat) (hcb : t._callback = some cb) (hc : code cb = [TimerCall.stop]) :
    (t.fire_callback_state code ec)._timer = none := by
  unfold Timer.fire_callback_state Timer.call_callback
  obtain ⟨cb0, s, p, tm, m, n, w, tr⟩ := t
  simp only at hcb
  subst hcb
  by_cases h0 : ec = 0 <;>
    simp [h0, Timer.lock, hc, Timer.run_body, Timer.call, Timer.stop_stopped]

/-- C6, as amended: for every (well-formed) timer whose handle is present, a
wait completion without cancellation invokes the callback exactly once when a
callback is set, and invokes none when the callback is empty. Then, on the
state the callback leaves: if the periodic interval is greater than zero and
the handle is present, exactly one new wait is issued on it, scheduled with
the periodic interval, it is the only pending wait and the timer stays Armed;
otherwise no wait is issued, the handle is discarded, the timer is Stopped and
no wait is pending. In particular, with a callback that leaves the timer
alone, a one-shot timer (period not above zero) is not started afterwards and
a periodic one is rescheduled on its handle, and a callback that calls
`stop()` leaves the timer Stopped with no wait pending. The mutex is released
in every case. -/
theorem fire_invokes_callback_then_rearms_or_stops (code : Nat → List TimerCall) (t : Timer)
    (ec : error_code) (hh : t._timer ≠ none) (hec : ec ≠ operation_aborted) (hwf : t.WF) :
    callbacks_invoked (t.timer_callback code ec).trace =
      callbacks_invoked t.trace ++ t._callback.toList ∧
    (t.timer_callback code ec)._mutex = t._mutex ∧
    (∀ h, (t.fire_callback_state code ec)._periodic_interval_msec > 0 →
      (t.fire_callback_state code ec)._timer = some h →
        (t.timer_callback code ec)._timer = some h ∧
        (t.timer_callback code ec).is_started = true ∧
        waits_issued (t.timer_callback code ec).trace =
          waits_issued (t.fire_callback_state code ec).trace ++
            [(h, (t.fire_callback_state code ec)._periodic_interval_msec)] ∧
        (t.timer_callback code ec).pending_waits =
          [⟨h, (t.fire_callback_state code ec)._periodic_interval_msec, WaitStatus.pending⟩]) ∧
    (¬ ((t.fire_callback_state code ec)._periodic_interval_msec > 0 ∧
        (t.fire_callback_state code ec)._timer ≠ none) →
        (t.timer_callback code ec)._timer = none ∧
        (t.timer_callback code ec).is_started = false ∧
        (t.timer_callback code ec).pending_waits = [] ∧
        waits_issued (t.timer_callback code ec).trace =
          waits_issued (t.fire_callback_state code ec).trace) ∧
    ((∀ cb, t._callback = some cb → code cb = []) → t._periodic_interval_msec ≤ 0 →
        (t.timer_callback code ec).is_started = false ∧
        (t.timer_callback code ec).pending_waits = [] ∧
        waits_issued (t.timer_callback code ec).trace = waits_issued t.trace) ∧
    ((∀ cb, t._callback = some cb → code cb = []) → t._periodic_interval_msec > 0 →
      ∀ h, t._timer = some h →
        (t.timer_callback code ec)._timer = some h ∧
        (t.timer_callback code ec).pending_waits =
          [⟨h, t._periodic_interval_msec, WaitStatus.pending⟩] ∧
        waits_issued (t.timer_callback code ec).trace =
          waits_issued t.trace ++ [(h, t._periodic_interval_msec)]) ∧
    (∀ cb, t._callback = some cb → code cb = [TimerCall.stop] →
        (t.timer_callback code ec).is_started = false ∧
        (t.timer_callback code ec).pending_waits = []) := by
  have hcases : (t.timer_callback code ec)._mutex = t._mutex := by
    by_cases c : (t.fire_callback_state code ec)._periodic_interval_msec > 0 ∧
        (t.fire_callback_state code ec)._timer ≠ none
    · obtain ⟨h, hs⟩ := Option.ne_none_iff_exists'.mp c.2
      exact (Timer.timer_callback_rearm code t ec hh hec hwf h c.1 hs).2.2.2.2
    · exact (Timer.timer_callback_discard code t ec hh hec hwf c).2.2.2.2
  have hinv : callbacks_invoked (t.timer_callback code ec).trace =
      callbacks_invoked t.trace ++ t._callback.toList := by
    rw [← Timer.fire_callback_state_callbacks code ec t, Timer.timer_callback_fire code t ec hh hec]
    split_ifs
    · unfold Timer.timer_async_wait
      cases (t.fire_callback_state code ec)._timer <;>
        simp [Timer.unlock, callbacks_invoked_append, callbacks_invoked]
    · unfold Timer.reset_timer
      cases (t.fire_callback_state code ec)._timer <;> simp [Timer.unlock]
  refine ⟨hinv, hcases, ?_, ?_, ?_, ?_, ?_⟩
  · intro h hp hs
    have r := Timer.timer_callback_rearm code t ec hh hec hwf h hp hs
    exact ⟨r.1, r.2.1, r.2.2.1, r.2.2.2.1⟩
  · intro hn
    have r := Timer.timer_callback_discard code t ec hh hec hwf hn
    exact ⟨r.1, r.2.1, r.2.2.1, r.2.2.2.1⟩
  · intro hc hp
    have i := Timer.fire_callback_state_idle code ec t hc
    have r := Timer.timer_callback_discard code t ec hh hec hwf
      (fun c => by rw [i.1] at c; omega)
    exact ⟨r.2.1, r.2.2.1, r.2.2.2.1.trans i.2.2⟩
  · intro hc hp h hs
    have i := Timer.fire_callback_state_idle code ec t hc
    have r := Timer.timer_callback_rearm code t ec hh hec hwf h (by rw [i.1]; exact hp)
      (by rw [i.2.1]; exact hs)
    rw [i.1, i.2.2] at r
    exact ⟨r.1, r.2.2.2.1, r.2.2.1⟩
  · intro cb hcb hc
    have i := Timer.fire_callback_state_stop code ec t cb hcb hc
    have r := Timer.timer_callback_discard code t ec hh hec hwf (fun c => c.2 i)
    exact ⟨r.2.1, r.2.2.1⟩

/-- Witness of C6: a periodic timer, a one-shot timer and a timer whose
callback calls `stop()`, each started and then fired. -/
theorem fire_invokes_callback_then_rearms_or_stops_witness :
    callbacks_invoked ((Timer.create ⟨some 0, 10, 100⟩).start.timer_callback (fun _ => []) 0).trace
      = [0] ∧
    ((Timer.create ⟨some 0, 10, 100⟩).start.timer_callback (fun _ => []) 0).is_started = true ∧
    ((Timer.create ⟨some 0, 10, 100⟩).start.timer_callback (fun _ => []) 0).pending_waits =
      [⟨0, 100, WaitStatus.pending⟩] ∧
    ((Timer.create ⟨some 0, 10, 0⟩).start.timer_callback (fun _ => []) 0).is_started = false ∧
    ((Timer.create ⟨some 0, 10, 100⟩).start.timer_callback
      (fun _ => [TimerCall.stop]) 0).is_started = false := by
  have hp := fire_invokes_callback_then_rearms_or_stops (fun _ => [])
    (Timer.create ⟨some 0, 10, 100⟩).start 0 (by decide) (by decide) (Timer.WF.create _).start
  have ho := fire_invokes_callback_then_rearms_or_stops (fun _ => [])
    (Timer.create ⟨some 0, 10, 0⟩).start 0 (by decide) (by decide) (Timer.WF.create _).start
  have hs := fire_invokes_callback_then_rearms_or_stops (fun _ => [TimerCall.stop])
    (Timer.create ⟨some 0, 10, 100⟩).start 0 (by decide) (by decide) (Timer.WF.create _).start
  refine ⟨hp.1, (hp.2.2.1 0 (by decide) (by decide)).2.1, ?_, ?_, ?_⟩
  · exact (hp.2.2.2.2.2.1 (fun _ _ => rfl) (by decide) 0 (by decide)).2.1
  · exact (ho.2.2.2.2.1 (fun _ _ => rfl) (by decide)).1
  · exact (hs.2.2.2.2.2.2 0 (by decide) rfl).1

/-- C6, the claim as stated fails: a timer created without a callback (the
default `TimerConfig`), started, whose wait expires and completes without
cancellation, has its handle present at the completion and invokes no
callback at all; the handler logs a warning and discards the handle. -/
theorem fire_with_empty_callback_invokes_nothing :
    ((Timer.create ⟨none, 10, 0⟩).start.expire 0)._timer ≠ none ∧
    (callbacks_invoked
      (((Timer.create ⟨none, 10, 0⟩).start.expire 0).complete (fun _ => []) 0).trace).length = 0 ∧
    (((Timer.create ⟨none, 10, 0⟩).start.expire 0).complete (fun _ => []) 0).trace =
      [TimerEvent.async_wait 0 10, TimerEvent.log LogLevel.WARN] ∧
    ¬ (∀ (code : Nat → List TimerCall) (t : Timer) (ec : error_code),
        t._timer ≠ none → ec ≠ operation_aborted → t.WF →
        (callbacks_invoked (t.timer_callback code ec).trace).length =
          (callbacks_invoked t.trace).length + 1) := by
  refine ⟨by decide, by decide, by decide, ?_⟩
  intro h
  have := h (fun _ => []) (Timer.create ⟨none, 10, 0⟩).start 0 (by decide) (by decide)
    (Timer.WF.create _).start
  revert this
  decide

/-! ## Timer: `restart` from inside the fire callback -/

theorem Timer.restart_with_spec {t : Timer} (hwf : t.WF) (cb : Option Nat) (s p : Int) :
    t.restart_with cb s p =
      { t with _callback := cb, _start_interval_msec := s, _periodic_interval_msec := p,
               _timer := some t.next_handle, next_handle := t.next_handle + 1,
               waits := t.stop.waits ++ [⟨t.next_handle, s, WaitStatus.pending⟩],
               trace := t.trace ++ [TimerEvent.async_wait t.next_handle s] } := by
  have hwf2 : Timer.WF
      (((t.stop.set_callback cb).set_start_interval_msec s).set_periodic_interval_msec p) :=
    hwf.stop
  rw [Timer.restart_with_eq, Timer.start_of_stopped hwf2 t.stop_stopped]
  obtain ⟨cb0, s0, p0, tm, m, n, w, tr⟩ := t
  simp [Timer.set_callback, Timer.set_start_interval_msec, Timer.set_periodic_interval_msec,
    Timer.lock, Timer.unlock, Timer.stop_eq]

/-- What the fire handler does when the callback calls `restart(c', s', p')`:
it returns with the mutex released and the new configuration stored. With
`p' > 0` the timer is Armed on the new handle and its one pending wait is
scheduled with the period `p'` (the wait that `restart` scheduled with `s'` is
cancelled by the rescheduling). With `p' ≤ 0` the handler discards the handle
that `restart` has just created: the timer is Stopped and no wait is pending. -/
theorem Timer.restart_inside_fire (code : Nat → List TimerCall) (t : Timer) (ec : error_code)
    (hh : t._timer ≠ none) (hec : ec ≠ operation_aborted) (hwf : t.WF)
    (cb : Nat) (hcb : t._callback = some cb) (c' : Option Nat) (s' p' : Int)
    (hc : code cb = [TimerCall.restart_with c' s' p']) :
    (t.timer_callback code ec)._mutex = t._mutex ∧
    callbacks_invoked (t.timer_callback code ec).trace = callbacks_invoked t.trace ++ [cb] ∧
    (t.timer_callback code ec)._callback = c' ∧
    (t.timer_callback code ec)._start_interval_msec = s' ∧
    (t.timer_callback code ec)._periodic_interval_msec = p' ∧
    (p' > 0 →
      (t.timer_callback code ec)._timer = some t.next_handle ∧
      (t.timer_callback code ec).pending_waits = [⟨t.next_handle, p', WaitStatus.pending⟩]) ∧
    (p' ≤ 0 →
      (t.timer_callback code ec)._timer = none ∧
      (t.timer_callback code ec).pending_waits = []) := by
  have hm : (t.fire_callback_state code ec)._callback = c' ∧
      (t.fire_callback_state code ec)._start_interval_msec = s' ∧
      (t.fire_callback_state code ec)._periodic_interval_msec = p' ∧
      (t.fire_callback_state code ec)._timer = some t.next_handle := by
    obtain ⟨cb0, s0, p0, tm, m, n, w, tr⟩ := t
    simp only at hcb
    subst hcb
    by_cases h0 : ec = 0
    · have e : Timer.fire_callback_state code ec ⟨some cb, s0, p0, tm, m, n, w, tr⟩ =
          Timer.restart_with c' s' p'
            ⟨some cb, s0, p0, tm, m + 1, n, w, tr ++ [TimerEvent.callback cb]⟩ := by
        simp [Timer.fire_callback_state, Timer.call_callback, h0, Timer.lock, hc, Timer.run_body,
          Timer.call]
      rw [e, Timer.restart_with_spec (by exact hwf)]
      exact ⟨rfl, rfl, rfl, rfl⟩
    · have e : Timer.fire_callback_state code ec ⟨some cb, s0, p0, tm, m, n, w, tr⟩ =
          Timer.restart_with c' s' p'
            ⟨some cb, s0, p0, tm, m + 1, n, w,
              tr ++ [TimerEvent.log LogLevel.ERROR] ++ [TimerEvent.callback cb]⟩ := by
        simp [Timer.fire_callback_state, Timer.call_callback, h0, Timer.lock, hc, Timer.run_body,
          Timer.call]
      rw [e, Timer.restart_with_spec (by exact hwf)]
      exact ⟨rfl, rfl, rfl, rfl⟩
  have hinv : callbacks_invoked (t.timer_callback code ec).trace =
      callbacks_invoked t.trace ++ [cb] := by
    rw [Timer.timer_callback_fire code t ec hh hec]
    have := Timer.fire_callback_state_callbacks code ec t
    rw [hcb] at this
    split_ifs
    · unfold Timer.timer_async_wait
      cases (t.fire_callback_state code ec)._timer <;>
        simpa [Timer.unlock, callbacks_invoked_append, callbacks_invoked] using this
    · unfold Timer.reset_timer
      cases (t.fire_callback_state code ec)._timer <;> simpa [Timer.unlock] using this
  have hcfg : (t.timer_callback code ec)._callback = c' ∧
      (t.timer_callback code ec)._start_interval_msec = s' ∧
      (t.timer_callback code ec)._periodic_interval_msec = p' := by
    rw [Timer.timer_callback_fire code t ec hh hec]
    split_ifs
    · unfold Timer.timer_async_wait
      cases (t.fire_callback_state code ec)._timer <;>
        exact ⟨hm.1, hm.2.1, hm.2.2.1⟩
    · unfold Timer.reset_timer
      cases (t.fire_callback_state code ec)._timer <;>
        exact ⟨hm.1, hm.2.1, hm.2.2.1⟩
  by_cases hp : p' > 0
  · have r := Timer.timer_callback_rearm code t ec hh hec hwf t.next_handle
      (by rw [hm.2.2.1]; exact hp) hm.2.2.2
    rw [hm.2.2.1] at r
    exact ⟨r.2.2.2.2, hinv, hcfg.1, hcfg.2.1, hcfg.2.2, fun _ => ⟨r.1, r.2.2.2.1⟩,
      fun h => absurd hp (by omega)⟩
  · have r := Timer.timer_callback_discard code t ec hh hec hwf
      (fun c => by rw [hm.2.2.1] at c; exact hp c.1)
    exact ⟨r.2.2.2.2, hinv, hcfg.1, hcfg.2.1, hcfg.2.2, fun h => absurd h hp,
      fun _ => ⟨r.1, r.2.2.1⟩⟩

/-- C3, the code at the failing input: a one-shot timer whose callback `0`
calls `restart(1, 20, 0)` (callback `1`, start delay 20 ms, one-shot) fires.
The handler returns with the mutex released and callback `0` invoked once,
but the timer is Stopped, not Armed: the wait that `restart` issued on the
new handle has been aborted by the handler's `_timer = nullptr`, no wait is
pending, and when the aborted wait completes callback `1` is not invoked and
no wait is left, so the new configuration never fires. -/
theorem restart_one_shot_inside_fire_is_discarded :
    (((Timer.create ⟨some 0, 10, 0⟩).start.expire 0).complete
      (fun cb => if cb = 0 then [TimerCall.restart_with (some 1) 20 0] else []) 0) =
      { _callback := some 1, _start_interval_msec := 20, _periodic_interval_msec := 0,
        _timer := none, _mutex := 0, next_handle := 2,
        waits := [⟨1, 20, WaitStatus.aborted⟩],
        trace := [TimerEvent.async_wait 0 10, TimerEvent.callback 0,
          TimerEvent.async_wait 1 20] } ∧
    ((((Timer.create ⟨some 0, 10, 0⟩).start.expire 0).complete
      (fun cb => if cb = 0 then [TimerCall.restart_with (some 1) 20 0] else []) 0).complete
      (fun cb => if cb = 0 then [TimerCall.restart_with (some 1) 20 0] else []) 0) =
      { _callback := some 1, _start_interval_msec := 20, _periodic_interval_msec := 0,
        _timer := none, _mutex := 0, next_handle := 2,
        waits := [],
        trace := [TimerEvent.async_wait 0 10, TimerEvent.callback 0,
          TimerEvent.async_wait 1 20, TimerEvent.log LogLevel.ERROR] } := by
  constructor <;> decide

/-! ## UDP adapter -/

theorem udp_callbacks_invoked_append (a b : List UdpEvent) :
    udp_callbacks_invoked (a ++ b) = udp_callbacks_invoked a ++ udp_callbacks_invoked b := by
  induction a with
  | nil => rfl
  | cons e rest ih => cases e <;> simp [udp_callbacks_invoked, ih]

theorem data_handlers_invoked_append (a b : List UdpEvent) :
    data_handlers_invoked (a ++ b) = data_handlers_invoked a ++ data_handlers_invoked b := by
  induction a with
  | nil => rfl
  | cons e rest ih => cases e <;> simp [data_handlers_invoked, ih]

theorem receives_issued_append (a b : List UdpEvent) :
    receives_issued (a ++ b) = receives_issued a + receives_issued b := by
  induction a with
  | nil => simp [receives_issued]
  | cons e rest ih => cases e <;> simp [receives_issued, ih]; omega

theorem UdpClientImpl.receive_handler_oversize
    (behave : Nat → List Nat → Nat → List Nat × Outcome) (u : UdpClientImpl) (n : Nat)
    (recv_error : error_code) (hn : n > MAX_MESSAGE_SIZE) :
    UdpClientImpl.receive_handler behave 0 n recv_error u =
      ({ u with receives := u.receives + 1,
                trace := u.trace ++ [UdpEvent.log LogLevel.ERROR, UdpEvent.async_receive_from] },
        false) := by
  have h0 : n ≠ 0 := by unfold MAX_MESSAGE_SIZE at hn; omega
  simp [UdpClientImpl.receive_handler, operation_aborted, h0, hn, UdpClientImpl.log,
    UdpClientImpl.receive_loop]

/-- C7: for every registry of callbacks (and every state of the client), a
peek completion without error that reports a size above `MAX_MESSAGE_SIZE`
(2048) makes `receive_handler` log one error and issue exactly one new
asynchronous receive: no registered callback is invoked, the handler is not
left by an exception, and registry and socket queue are as before. -/
theorem oversize_datagram_is_not_delivered
    (behave : Nat → List Nat → Nat → List Nat × Outcome) (u : UdpClientImpl) (n : Nat)
    (recv_error : error_code) (hn : n > MAX_MESSAGE_SIZE) :
    MAX_MESSAGE_SIZE = 2048 ∧
    (UdpClientImpl.receive_handler behave 0 n recv_error u).2 = false ∧
    udp_callbacks_invoked (UdpClientImpl.receive_handler behave 0 n recv_error u).1.trace =
      udp_callbacks_invoked u.trace ∧
    (UdpClientImpl.receive_handler behave 0 n recv_error u).1.trace =
      u.trace ++ [UdpEvent.log LogLevel.ERROR, UdpEvent.async_receive_from] ∧
    receives_issued (UdpClientImpl.receive_handler behave 0 n recv_error u).1.trace =
      receives_issued u.trace + 1 ∧
    (UdpClientImpl.receive_handler behave 0 n recv_error u).1.receives = u.receives + 1 ∧
    (UdpClientImpl.receive_handler behave 0 n recv_error u).1._callbacks = u._callbacks ∧
    (UdpClientImpl.receive_handler behave 0 n recv_error u).1.socket = u.socket := by
  rw [UdpClientImpl.receive_handler_oversize behave u n recv_error hn]
  refine ⟨rfl, rfl, ?_, rfl, ?_, rfl, rfl, rfl⟩
  · simp [udp_callbacks_invoked_append, udp_callbacks_invoked]
  · simp [receives_issued_append, receives_issued]

/-- Witness of C7: a peek that reports `MAX_MESSAGE_SIZE + 1` bytes, two
callbacks registered. -/
theorem oversize_datagram_is_not_delivered_witness :
    (UdpClientImpl.receive_handler (fun _ buf _ => (buf, Outcome.returned)) 0
      (MAX_MESSAGE_SIZE + 1) 0
      { UdpClientImpl.create with _callbacks := [("a", 0), ("b", 1)] }).2 = false ∧
    udp_callbacks_invoked (UdpClientImpl.receive_handler (fun _ buf _ => (buf, Outcome.returned)) 0
      (MAX_MESSAGE_SIZE + 1) 0
      { UdpClientImpl.create with _callbacks := [("a", 0), ("b", 1)] }).1.trace = [] ∧
    (UdpClientImpl.receive_handler (fun _ buf _ => (buf, Outcome.returned)) 0
      (MAX_MESSAGE_SIZE + 1) 0
      { UdpClientImpl.create with _callbacks := [("a", 0), ("b", 1)] }).1.receives = 2 := by
  have h := oversize_datagram_is_not_delivered (fun _ buf _ => (buf, Outcome.returned))
    { UdpClientImpl.create with _callbacks := [("a", 0), ("b", 1)] } (MAX_MESSAGE_SIZE + 1) 0
    (Nat.lt_succ_self _)
  exact ⟨h.2.1, h.2.2.1, h.2.2.2.2.2.1⟩

theorem UdpClientImpl.complete_receive_oversize
    (behave : Nat → List Nat → Nat → List Nat × Outcome) (u : UdpClientImpl)
    (d : List Nat) (rest : List (List Nat)) (hr : u.receives = 1) (hq : u.socket = d :: rest)
    (hd : d.length > MAX_MESSAGE_SIZE) :
    UdpClientImpl.complete_receive behave 0 u =
      ({ u with _rcv_buf := copy_into d u._rcv_buf,
                trace := u.trace ++ [UdpEvent.log LogLevel.ERROR, UdpEvent.async_receive_from] },
        false) := by
  unfold UdpClientImpl.complete_receive
  simp only [hr, hq, Nat.one_ne_zero, if_false]
  rw [UdpClientImpl.receive_handler_oversize behave _ _ _ hd]

/-- C8, the code on the queue `[oversize, valid]`: with the receive loop armed
and a datagram of `MAX_MESSAGE_SIZE + 1` bytes at the head of the queue,
however many peek completions are handled, the queue still holds both
datagrams, the oversize one at the head, no registered callback has been
invoked and the loop is armed again: the handler only logs, it never issues
the consuming receive that would remove the oversize datagram, so the valid
datagram behind it is never reached. -/
theorem oversize_datagram_is_never_consumed
    (behave : Nat → List Nat → Nat → List Nat × Outcome) (callbacks : List (String × Nat))
    (valid : List Nat) (n : Nat) :
    (UdpClientImpl.run_receive_loop behave n
      { UdpClientImpl.create with
        _callbacks := callbacks,
        socket := [List.replicate (MAX_MESSAGE_SIZE + 1) 0, valid] }).2 = false ∧
    (UdpClientImpl.run_receive_loop behave n
      { UdpClientImpl.create with
        _callbacks := callbacks,
        socket := [List.replicate (MAX_MESSAGE_SIZE + 1) 0, valid] }).1.socket =
      [List.replicate (MAX_MESSAGE_SIZE + 1) 0, valid] ∧
    udp_callbacks_invoked (UdpClientImpl.run_receive_loop behave n
      { UdpClientImpl.create with
        _callbacks := callbacks,
        socket := [List.replicate (MAX_MESSAGE_SIZE + 1) 0, valid] }).1.trace = [] ∧
    (UdpClientImpl.run_receive_loop behave n
      { UdpClientImpl.create with
        _callbacks := callbacks,
        socket := [List.replicate (MAX_MESSAGE_SIZE + 1) 0, valid] }).1.receives = 1 ∧
    receives_issued (UdpClientImpl.run_receive_loop behave n
      { UdpClientImpl.create with
        _callbacks := callbacks,
        socket := [List.replicate (MAX_MESSAGE_SIZE + 1) 0, valid] }).1.trace = n + 1 := by
  have key : ∀ (k : Nat) (u : UdpClientImpl), u.receives = 1 →
      u.socket = [List.replicate (MAX_MESSAGE_SIZE + 1) 0, valid] →
      (UdpClientImpl.run_receive_loop behave k u).2 = false ∧
      (UdpClientImpl.run_receive_loop behave k u).1.socket =
        [List.replicate (MAX_MESSAGE_SIZE + 1) 0, valid] ∧
      udp_callbacks_invoked (UdpClientImpl.run_receive_loop behave k u).1.trace =
        udp_callbacks_invoked u.trace ∧
      (UdpClientImpl.run_receive_loop behave k u).1.receives = 1 ∧
      receives_issued (UdpClientImpl.run_receive_loop behave k u).1.trace =
        receives_issued u.trace + k := by
    intro k
    induction k with
    | zero => intro u hr hq; exact ⟨rfl, hq, rfl, hr, rfl⟩
    | succ k ih =>
      intro u hr hq
      have e := UdpClientImpl.complete_receive_oversize behave u _ _ hr hq
        (by simp [List.length_replicate])
      unfold UdpClientImpl.run_receive_loop
      simp only [e, Bool.false_eq_true, if_false]
      have r := ih { u with _rcv_buf := copy_into (List.replicate (MAX_MESSAGE_SIZE + 1) 0) u._rcv_buf,
                            trace := u.trace ++
                              [UdpEvent.log LogLevel.ERROR, UdpEvent.async_receive_from] } hr hq
      refine ⟨r.1, r.2.1, ?_, r.2.2.2.1, ?_⟩
      · rw [r.2.2.1]
        simp [udp_callbacks_invoked_append, udp_callbacks_invoked]
      · rw [r.2.2.2.2]
        simp [receives_issued_append, receives_issued]
        omega
  have r := key n { UdpClientImpl.create with
        _callbacks := callbacks,
        socket := [List.replicate (MAX_MESSAGE_SIZE + 1) 0, valid] } rfl rfl
  refine ⟨r.1, r.2.1, ?_, r.2.2.2.1, ?_⟩
  · rw [r.2.2.1]; rfl
  · rw [r.2.2.2.2]
    simp [UdpClientImpl.create, UdpClientImpl.receive_loop, receives_issued]
    omega

/-- C10, the code at the failing input: `async_send` with non-null data
returns 0 and issues a single write, whatever handler is passed, but the
callable it binds to the write is `handle_send`, not the handler: when the
write completes, with whatever code, neither the caller's handler nor the
stub is invoked (the completion only logs, and only on error). -/
theorem async_send_never_invokes_the_handler (u : UdpClientImpl) (d : List Nat) (size : Nat)
    (handler : data_handler_t) (error : error_code) (n : Nat) :
    (u.async_send (some d) size handler).2 = 0 ∧
    (u.async_send (some d) size handler).1.sends =
      u.sends ++ [⟨d, size, SendCompletion.handle_send⟩] ∧
    (u.async_send (some d) size handler).1.trace = u.trace ++ [UdpEvent.async_send_to d size] ∧
    ((u.async_send (some d) size handler).1.complete_send u.sends.length error n).sends =
      u.sends ∧
    ((u.async_send (some d) size handler).1.complete_send u.sends.length error n).trace =
      u.trace ++ [UdpEvent.async_send_to d size] ++
        (if error ≠ 0 then [UdpEvent.log LogLevel.ERROR] else []) ∧
    data_handlers_invoked
      ((u.async_send (some d) size handler).1.complete_send u.sends.length error n).trace =
      data_handlers_invoked u.trace ∧
    UdpEvent.stub_handler ∉
      ((u.async_send (some d) size (data_handler_t.null)).1.complete_send
        u.sends.length error n).trace.drop u.trace.length ∧
    data_handlers_invoked
      (((UdpClientImpl.create).async_send (some [1, 2, 3]) 3 (data_handler_t.user 7)).1.complete_send
        0 0 3).trace = [] := by
  have hs : ((u.async_send (some d) size handler).1.complete_send u.sends.length error n) =
      { u with trace := u.trace ++ [UdpEvent.async_send_to d size] ++
        (if error ≠ 0 then [UdpEvent.log LogLevel.ERROR] else []) } := by
    by_cases he : error = 0 <;>
      simp [UdpClientImpl.async_send, UdpClientImpl.complete_send, UdpClientImpl.handle_send,
        UdpClientImpl.log, he, List.getElem?_append_right, List.eraseIdx_append_of_length_le]
  have hs0 : ((u.async_send (some d) size data_handler_t.null).1.complete_send
      u.sends.length error n) =
      { u with trace := u.trace ++ [UdpEvent.async_send_to d size] ++
        (if error ≠ 0 then [UdpEvent.log LogLevel.ERROR] else []) } := by
    by_cases he : error = 0 <;>
      simp [UdpClientImpl.async_send, UdpClientImpl.complete_send, UdpClientImpl.handle_send,
        UdpClientImpl.log, he, List.getElem?_append_right, List.eraseIdx_append_of_length_le]
  rw [hs, hs0]
  refine ⟨rfl, rfl, rfl, rfl, rfl, ?_, ?_, by decide⟩
  · by_cases he : error = 0 <;>
      simp [he, data_handlers_invoked_append, data_handlers_invoked]
  · by_cases he : error = 0 <;> simp [he]

theorem vector_resize_length (n : Nat) (v : List Nat) : (vector_resize n v).length = n := by
  simp [vector_resize]
  omega

theorem copy_into_resized (d : List Nat) (v : List Nat) :
    copy_into d (vector_resize d.length v) = d := by
  unfold copy_into
  rw [vector_resize_length]
  have : (vector_resize d.length v).drop d.length = [] := by
    apply List.drop_eq_nil_of_le
    rw [vector_resize_length]
  simp [this]

theorem UdpClientImpl.dispatch_spec (behave : Nat → List Nat → Nat → List Nat × Outcome)
    (n : Nat) :
    ∀ (cbs : List (String × Nat)) (u : UdpClientImpl),
      (∀ e ∈ cbs, ∀ buf, (behave e.2 buf n).2 ≠ Outcome.threw_other) →
      (UdpClientImpl.dispatch behave n cbs u).2 = false ∧
      (UdpClientImpl.dispatch behave n cbs u).1.receives = u.receives ∧
      (UdpClientImpl.dispatch behave n cbs u).1.socket = u.socket ∧
      (UdpClientImpl.dispatch behave n cbs u).1._callbacks = u._callbacks ∧
      (UdpClientImpl.dispatch behave n cbs u).1.sends = u.sends ∧
      receives_issued (UdpClientImpl.dispatch behave n cbs u).1.trace =
        receives_issued u.trace ∧
      ∃ calls : List (String × Nat × List Nat × Nat),
        udp_callbacks_invoked (UdpClientImpl.dispatch behave n cbs u).1.trace =
          udp_callbacks_invoked u.trace ++ calls ∧
        calls.map (fun c => (c.1, c.2.1, c.2.2.2)) = cbs.map (fun e => (e.1, e.2, n)) ∧
        calls.head? = cbs.head?.map (fun e => (e.1, e.2, u._rcv_buf, n)) ∧
        ((∀ cb buf k, (behave cb buf k).1 = buf) →
          calls = cbs.map (fun e => (e.1, e.2, u._rcv_buf, n))) := by
  intro cbs
  induction cbs with
  | nil =>
    intro u _
    exact ⟨rfl, rfl, rfl, rfl, rfl, rfl, [], by simp [UdpClientImpl.dispatch], rfl, rfl,
      fun _ => rfl⟩
  | cons e rest ih =>
    intro u hstd
    obtain ⟨key, cb⟩ := e
    have hrest : ∀ e ∈ rest, ∀ buf, (behave e.2 buf n).2 ≠ Outcome.threw_other :=
      fun e he => hstd e (List.mem_cons_of_mem _ he)
    have hhead := hstd (key, cb) (List.mem_cons_self _ _) u._rcv_buf
    simp only at hhead
    rw [UdpClientImpl.dispatch]
    cases ho : (behave cb u._rcv_buf n).2 with
    | threw_other => exact absurd ho hhead
    | returned =>
      simp only [ho]
      obtain ⟨h1, h2, h3, h4, h5, h6, calls, hc1, hc2, _, hc4⟩ :=
        ih { u with _rcv_buf := (behave cb u._rcv_buf n).1,
                    trace := u.trace ++ [UdpEvent.callback key cb u._rcv_buf n] } hrest
      refine ⟨h1, h2, h3, h4, h5, ?_, (key, cb, u._rcv_buf, n) :: calls, ?_, ?_, rfl, ?_⟩
      · rw [h6]; simp [receives_issued_append, receives_issued]
      · rw [hc1]; simp [udp_callbacks_invoked_append, udp_callbacks_invoked]
      · simp [hc2]
      · intro hb
        rw [hc4 hb]
        simp [hb]
    | threw_std_exception =>
      simp only [ho]
      obtain ⟨h1, h2, h3, h4, h5, h6, calls, hc1, hc2, _, hc4⟩ :=
        ih (UdpClientImpl.log LogLevel.ERROR
              { u with _rcv_buf := (behave cb u._rcv_buf n).1,
                       trace := u.trace ++ [UdpEvent.callback key cb u._rcv_buf n] }) hrest
      refine ⟨h1, h2, h3, h4, h5, ?_, (key, cb, u._rcv_buf, n) :: calls, ?_, ?_, rfl, ?_⟩
      · rw [h6]; simp [UdpClientImpl.log, receives_issued_append, receives_issued]
      · rw [hc1]; simp [UdpClientImpl.log, udp_callbacks_invoked_append, udp_callbacks_invoked]
      · simp [hc2]
      · intro hb
        rw [hc4 hb]
        simp [hb, UdpClientImpl.log]

theorem count_eq_one_of_nodup {α : Type} [BEq α] [LawfulBEq α] :
    ∀ (l : List α) (a : α), l.Nodup → a ∈ l → l.count a = 1
  | [], _, _, hmem => absurd hmem (List.not_mem_nil _)
  | x :: l, a, hnd, hmem => by
    rw [List.nodup_cons] at hnd
    rw [List.count_cons]
    by_cases h : x = a
    · subst h
      simp [List.count_eq_zero_of_not_mem hnd.1]
    · have hx : (x == a) = false := by simpa using h
      rcases List.mem_cons.mp hmem with e | hm
      · exact absurd e.symm h
      · simp [hx, count_eq_one_of_nodup l a hnd.2 hm]

theorem count_registered_eq_one (cbs : List (String × Nat)) (n : Nat)
    (hnd : (cbs.map Prod.fst).Nodup) (e : String × Nat) (he : e ∈ cbs) :
    (cbs.map (fun e => (e.1, e.2, n))).count (e.1, e.2, n) = 1 := by
  have hnd2 : (cbs.map (fun e : String × Nat => (e.1, e.2, n))).Nodup := by
    have h1 : cbs.Nodup := List.Nodup.of_map _ hnd
    apply h1.map
    intro a b hab
    simp only [Prod.mk.injEq] at hab
    exact Prod.ext hab.1 hab.2.1
  exact count_eq_one_of_nodup _ _ hnd2 (List.mem_map_of_mem _ he)

/-- C9, as amended: for every non-empty registry of callbacks under distinct
ids, none of which throws anything that is not a `std::exception`, and every
datagram of size `n` with `1 <= n <= MAX_MESSAGE_SIZE` at the head of the
queue that the handler reads without error, `receive_handler` takes the
datagram from the queue and calls every registered callback exactly once, in
map order, with size `n` and with the receive buffer: the first call is made
with the datagram's bytes, and so is every call when the callbacks leave the
buffer (passed by reference) as it is. Callbacks that throw a
`std::exception` do not change this. The handler is not left by an exception
and issues exactly one new asynchronous receive. -/
theorem datagram_is_delivered_to_every_callback
    (behave : Nat → List Nat → Nat → List Nat × Outcome) (u : UdpClientImpl)
    (d : List Nat) (rest : List (List Nat))
    (hne : u._callbacks ≠ []) (hnd : (u._callbacks.map Prod.fst).Nodup)
    (hq : u.socket = d :: rest) (h1 : 1 ≤ d.length) (h2 : d.length ≤ MAX_MESSAGE_SIZE)
    (hstd : ∀ e ∈ u._callbacks, ∀ buf, (behave e.2 buf d.length).2 ≠ Outcome.threw_other) :
    (UdpClientImpl.receive_handler behave 0 d.length 0 u).2 = false ∧
    (UdpClientImpl.receive_handler behave 0 d.length 0 u).1.socket = rest ∧
    (UdpClientImpl.receive_handler behave 0 d.length 0 u).1._callbacks = u._callbacks ∧
    (UdpClientImpl.receive_handler behave 0 d.length 0 u).1.receives = u.receives + 1 ∧
    receives_issued (UdpClientImpl.receive_handler behave 0 d.length 0 u).1.trace =
      receives_issued u.trace + 1 ∧
    ∃ calls : List (String × Nat × List Nat × Nat),
      udp_callbacks_invoked (UdpClientImpl.receive_handler behave 0 d.length 0 u).1.trace =
        udp_callbacks_invoked u.trace ++ calls ∧
      calls.map (fun c => (c.1, c.2.1, c.2.2.2)) =
        u._callbacks.map (fun e => (e.1, e.2, d.length)) ∧
      (∀ e ∈ u._callbacks,
        (calls.map (fun c => (c.1, c.2.1, c.2.2.2))).count (e.1, e.2, d.length) = 1) ∧
      calls.length = u._callbacks.length ∧
      calls.head? = u._callbacks.head?.map (fun e => (e.1, e.2, d, d.length)) ∧
      ((∀ cb buf k, (behave cb buf k).1 = buf) →
        calls = u._callbacks.map (fun e => (e.1, e.2, d, d.length))) := by
  have hn0 : d.length ≠ 0 := by omega
  have hmax : ¬ d.length > MAX_MESSAGE_SIZE := by omega
  have hemp : u._callbacks.isEmpty = false := by
    cases hc : u._callbacks with
    | nil => exact absurd hc hne
    | cons a b => rfl
  obtain ⟨g1, g2, g3, g4, _, g6, calls, c1, c2, c3, c4⟩ :=
    UdpClientImpl.dispatch_spec behave d.length u._callbacks
      (UdpClientImpl.log LogLevel.TRACE
        { u with socket := rest, _rcv_buf := d }) hstd
  have e : UdpClientImpl.receive_handler behave 0 d.length 0 u =
      ((UdpClientImpl.dispatch behave d.length u._callbacks
        (UdpClientImpl.log LogLevel.TRACE
          { u with socket := rest, _rcv_buf := d })).1.receive_loop, false) := by
    have g1' : (UdpClientImpl.dispatch behave d.length u._callbacks
        { u with socket := rest, _rcv_buf := d,
                 trace := u.trace ++ [UdpEvent.log LogLevel.TRACE] }).2 = false := g1
    unfold UdpClientImpl.receive_handler UdpClientImpl.socket_receive
    simp [operation_aborted, hn0, hmax, hq, hemp, copy_into_resized, UdpClientImpl.log, g1']
  rw [e]
  refine ⟨rfl, ?_, ?_, ?_, ?_, calls, ?_, c2, ?_, ?_, c3, c4⟩
  · simpa [UdpClientImpl.receive_loop] using g3
  · simpa [UdpClientImpl.receive_loop] using g4
  · simpa [UdpClientImpl.receive_loop, UdpClientImpl.log] using g2
  · simp only [UdpClientImpl.receive_loop, receives_issued_append, g6]
    simp [UdpClientImpl.log, receives_issued_append, receives_issued]
  · simp only [UdpClientImpl.receive_loop, udp_callbacks_invoked_append, c1]
    simp [UdpClientImpl.log, udp_callbacks_invoked_append, udp_callbacks_invoked]
  · intro e he
    rw [c2]
    exact count_registered_eq_one u._callbacks d.length hnd e he
  · have := congrArg List.length c2
    simpa using this

/-- Witness of C9: two callbacks, the first of which throws a
`std::exception`, and a datagram of two bytes. -/
theorem datagram_is_delivered_to_every_callback_witness :
    udp_callbacks_invoked (UdpClientImpl.receive_handler
      (fun cb buf _ => (buf, if cb = 0 then Outcome.threw_std_exception else Outcome.returned))
      0 2 0
      { UdpClientImpl.create with _callbacks := [("a", 0), ("b", 1)], socket := [[7, 8]] }).1.trace
      = [("a", 0, [7, 8], 2), ("b", 1, [7, 8], 2)] ∧
    (UdpClientImpl.receive_handler
      (fun cb buf _ => (buf, if cb = 0 then Outcome.threw_std_exception else Outcome.returned))
      0 2 0
      { UdpClientImpl.create with _callbacks := [("a", 0), ("b", 1)], socket := [[7, 8]] }).2
      = false := by
  have h := datagram_is_delivered_to_every_callback
    (fun cb buf _ => (buf, if cb = 0 then Outcome.threw_std_exception else Outcome.returned))
    { UdpClientImpl.create with _callbacks := [("a", 0), ("b", 1)], socket := [[7, 8]] }
    [7, 8] [] (by simp) (by decide) rfl (by decide) (by decide)
    (by intro e _ buf; by_cases c : e.2 = 0 <;> simp [c])
  obtain ⟨h1, _, _, _, _, calls, hc, _, _, _, _, hall⟩ := h
  refine ⟨hc.trans ?_, h1⟩
  rw [hall (fun _ _ _ => rfl)]
  rfl

/-- C9, the claim as stated fails: with callbacks `a` and `b` registered and
a one-byte datagram read without error, when `a` throws an object that is
not a `std::exception` the `catch (std::exception&)` clause does not catch
it: `b` is not invoked, the handler is left by the exception and the receive
loop is not re-armed (no receive is outstanding, none has been issued after
the one of the constructor). -/
theorem uncaught_exception_stops_the_fan_out :
    (UdpClientImpl.complete_receive
      (fun cb buf _ => (buf, if cb = 0 then Outcome.threw_other else Outcome.returned)) 0
      { UdpClientImpl.create with _callbacks := [("a", 0), ("b", 1)], socket := [[7]] }).2
      = true ∧
    udp_callbacks_invoked (UdpClientImpl.complete_receive
      (fun cb buf _ => (buf, if cb = 0 then Outcome.threw_other else Outcome.returned)) 0
      { UdpClientImpl.create with _callbacks := [("a", 0), ("b", 1)], socket := [[7]] }).1.trace
      = [("a", 0, [7], 1)] ∧
    (UdpClientImpl.complete_receive
      (fun cb buf _ => (buf, if cb = 0 then Outcome.threw_other else Outcome.returned)) 0
      { UdpClientImpl.create with _callbacks := [("a", 0), ("b", 1)], socket := [[7]] }).1.receives
      = 0 ∧
    receives_issued (UdpClientImpl.complete_receive
      (fun cb buf _ => (buf, if cb = 0 then Outcome.threw_other else Outcome.returned)) 0
      { UdpClientImpl.create with _callbacks := [("a", 0), ("b", 1)], socket := [[7]] }).1.trace
      = 1 := by
  have hb : ∀ v : List Nat, copy_into [7] (vector_resize 1 v) = [7] :=
    fun v => copy_into_resized [7] v
  refine ⟨?_, ?_, ?_, ?_⟩ <;>
    simp [UdpClientImpl.complete_receive, UdpClientImpl.receive_handler,
      UdpClientImpl.socket_receive, UdpClientImpl.dispatch, UdpClientImpl.create,
      UdpClientImpl.receive_loop, UdpClientImpl.log, operation_aborted, MAX_MESSAGE_SIZE,
      hb, udp_callbacks_invoked, receives_issued]

/-! ## Timer: a cancelled wait -/

/-- C20: for every timer state, the wait handler run with `operation_aborted`
only appends one log line: no callback is invoked, no wait is issued, and the
handle, the outstanding waits, the callback, both intervals and the mutex are
as before. -/
theorem aborted_completion_is_a_no_op (code : Nat → List TimerCall) (t : Timer) :
    t.timer_callback code operation_aborted =
      { t with trace := t.trace ++ [TimerEvent.log LogLevel.ERROR] } ∧
    callbacks_invoked (t.timer_callback code operation_aborted).trace =
      callbacks_invoked t.trace ∧
    waits_issued (t.timer_callback code operation_aborted).trace = waits_issued t.trace ∧
    (t.timer_callback code operation_aborted)._timer = t._timer ∧
    (t.timer_callback code operation_aborted).is_started = t.is_started ∧
    (t.timer_callback code operation_aborted).waits = t.waits ∧
    (t.timer_callback code operation_aborted)._callback = t._callback ∧
    (t.timer_callback code operation_aborted)._start_interval_msec = t._start_interval_msec ∧
    (t.timer_callback code operation_aborted)._periodic_interval_msec =
      t._periodic_interval_msec := by
  have e : t.timer_callback code operation_aborted =
      { t with trace := t.trace ++ [TimerEvent.log LogLevel.ERROR] } := by
    simp [Timer.timer_callback, Timer.lock, Timer.unlock, operation_aborted]
  rw [e]
  refine ⟨rfl, ?_, ?_, rfl, rfl, rfl, rfl, rfl, rfl⟩
  · simp [callbacks_invoked_append, callbacks_invoked]
  · simp [waits_issued_append, waits_issued]

/-! ## Reactor: the worker loop -/

theorem worker_errors_logged_append (a b : List WorkerEvent) :
    worker_errors_logged (a ++ b) = worker_errors_logged a + worker_errors_logged b := by
  induction a with
  | nil => simp [worker_errors_logged]
  | cons e rest ih =>
    cases e with
    | run => simp [worker_errors_logged, ih]
    | log l =>
      cases l <;> simp [worker_errors_logged, ih]
      omega

theorem Worker.loop_failing_runs (k : Nat) (tail : List Outcome) :
    ∀ w : Worker,
      Worker.loop (List.replicate k Outcome.threw_std_exception ++ tail) w =
        Worker.loop tail
          { w with runs := w.runs + k,
                   trace := w.trace ++
                     (List.replicate k [WorkerEvent.run, WorkerEvent.log LogLevel.ERROR]).flatten } := by
  induction k with
  | zero => intro w; simp
  | succ k ih =>
    intro w
    rw [List.replicate_succ, List.cons_append, Worker.loop, ih]
    congr 1
    simp [List.replicate_succ, Nat.add_assoc, Nat.add_comm 1 k]

theorem worker_errors_logged_failing_runs (k : Nat) :
    worker_errors_logged
      (List.replicate k [WorkerEvent.run, WorkerEvent.log LogLevel.ERROR]).flatten = k := by
  induction k with
  | zero => rfl
  | succ k ih =>
    simp only [List.replicate_succ, List.flatten_cons, worker_errors_logged_append, ih]
    simp [worker_errors_logged]
    omega

/-- C18, as amended: a worker whose first `k` calls of `run()` end with an
exception derived from `std::exception` logs an error for each and calls
`run()` again: after these `k` runs it is inside its `(k + 1)`-th call, alive,
and when that call returns normally the worker has made exactly `k + 1` calls,
has logged exactly `k` errors, and finishes, its last action being the log
line after the loop. -/
theorem worker_reenters_after_std_exception (k : Nat) :
    Worker.start (List.replicate k Outcome.threw_std_exception ++ [Outcome.returned]) =
      { runs := k + 1, status := WorkerStatus.finished,
        trace := [WorkerEvent.log LogLevel.INFO] ++
          (List.replicate k [WorkerEvent.run, WorkerEvent.log LogLevel.ERROR]).flatten ++
          [WorkerEvent.run, WorkerEvent.log LogLevel.DEBUG] } ∧
    worker_errors_logged
      (Worker.start (List.replicate k Outcome.threw_std_exception ++ [Outcome.returned])).trace
      = k ∧
    (Worker.start (List.replicate k Outcome.threw_std_exception)).status =
      WorkerStatus.running ∧
    (Worker.start (List.replicate k Outcome.threw_std_exception)).runs = k + 1 ∧
    worker_errors_logged (Worker.start (List.replicate k Outcome.threw_std_exception)).trace
      = k := by
  have e1 : Worker.start (List.replicate k Outcome.threw_std_exception ++ [Outcome.returned]) =
      { runs := k + 1, status := WorkerStatus.finished,
        trace := [WorkerEvent.log LogLevel.INFO] ++
          (List.replicate k [WorkerEvent.run, WorkerEvent.log LogLevel.ERROR]).flatten ++
          [WorkerEvent.run, WorkerEvent.log LogLevel.DEBUG] } := by
    unfold Worker.start
    rw [Worker.loop_failing_runs]
    simp [Worker.loop]
  have e2 : Worker.start (List.replicate k Outcome.threw_std_exception) =
      { runs := k + 1, status := WorkerStatus.running,
        trace := [WorkerEvent.log LogLevel.INFO] ++
          (List.replicate k [WorkerEvent.run, WorkerEvent.log LogLevel.ERROR]).flatten ++
          [WorkerEvent.run] } := by
    unfold Worker.start
    have := Worker.loop_failing_runs k []
    simp only [List.append_nil] at this
    rw [this]
    simp [Worker.loop]
  rw [e1, e2]
  refine ⟨rfl, ?_, rfl, rfl, ?_⟩
  · simp only [worker_errors_logged_append, worker_errors_logged_failing_runs]
    simp [worker_errors_logged]
  · simp only [worker_errors_logged_append, worker_errors_logged_failing_runs]
    simp [worker_errors_logged]

/-- C18, the claim as stated fails: when the first call of `run()` ends with
an exception that is not a `std::exception`, the `catch (const std::exception&)`
clause does not catch it: the worker makes no second call of `run()`, logs no
error and is terminated by the exception, although the next run would have
returned normally. -/
theorem worker_is_lost_on_other_exception :
    Worker.start [Outcome.threw_other, Outcome.returned] =
      { runs := 1, status := WorkerStatus.terminated,
        trace := [WorkerEvent.log LogLevel.INFO, WorkerEvent.run] } ∧
    (Worker.start [Outcome.threw_other, Outcome.returned]).runs ≠ 2 ∧
    worker_errors_logged (Worker.start [Outcome.threw_other, Outcome.returned]).trace = 0 := by
  decide

/-! ## MQTT adapter: publish -/

theorem library_calls_append (a b : List MqttEvent) :
    library_calls (a ++ b) = library_calls a + library_calls b := by
  induction a with
  | nil => simp [library_calls]
  | cons e rest ih => cases e <;> simp [library_calls, ih] <;> omega

theorem publishes_called_append (a b : List MqttEvent) :
    publishes_called (a ++ b) = publishes_called a ++ publishes_called b := by
  induction a with
  | nil => rfl
  | cons e rest ih => cases e <;> simp [publishes_called, ih]

/-- C11: `publish_data` with non-null `topic` and `buf`, `len > 0` and `qos`
in `0..2` calls `mosquitto_publish` exactly once, with these arguments; when
that call succeeds it schedules one write-ready cycle and returns 0, when it
fails it logs, schedules nothing and returns `-1`. With a null `topic`, a null
`buf`, `len == 0` or `qos` outside `0..2` it logs, returns `-1`, calls nothing
of the library and schedules nothing. -/
theorem publish_data_validates_then_publishes (m : MqttClientImpl) (topic : Option String)
    (buf : Option (List Nat)) (len qos : Int) (retain : Bool) (rc : Int) :
    (∀ t b, topic = some t → buf = some b → len > 0 → 0 ≤ qos → qos ≤ 2 →
      rc = MOSQ_ERR_SUCCESS →
        (m.publish_data topic buf len qos retain rc).2 = 0 ∧
        (m.publish_data topic buf len qos retain rc).1 =
          { m with tx_scheduled := m.tx_scheduled + 1,
                   trace := m.trace ++ [MqttEvent.mosquitto_publish t len b qos retain,
                     MqttEvent.async_write_some] } ∧
        library_calls (m.publish_data topic buf len qos retain rc).1.trace =
          library_calls m.trace + 1 ∧
        publishes_called (m.publish_data topic buf len qos retain rc).1.trace =
          publishes_called m.trace ++ [(t, len, b, qos, retain)]) ∧
    ((topic = none ∨ buf = none ∨ len = 0 ∨ qos < 0 ∨ qos > 2) →
        (m.publish_data topic buf len qos retain rc).2 = -1 ∧
        (m.publish_data topic buf len qos retain rc).2 < 0 ∧
        (m.publish_data topic buf len qos retain rc).1 =
          { m with trace := m.trace ++ [MqttEvent.log LogLevel.ERROR] } ∧
        library_calls (m.publish_data topic buf len qos retain rc).1.trace =
          library_calls m.trace ∧
        (m.publish_data topic buf len qos retain rc).1.tx_scheduled = m.tx_scheduled) ∧
    (∀ t b, topic = some t → buf = some b → len > 0 → 0 ≤ qos → qos ≤ 2 →
      rc ≠ MOSQ_ERR_SUCCESS →
        (m.publish_data topic buf len qos retain rc).2 = -1 ∧
        (m.publish_data topic buf len qos retain rc).2 < 0 ∧
        (m.publish_data topic buf len qos retain rc).1 =
          { m with trace := m.trace ++ [MqttEvent.mosquitto_publish t len b qos retain,
                     MqttEvent.log LogLevel.ERROR] } ∧
        library_calls (m.publish_data topic buf len qos retain rc).1.trace =
          library_calls m.trace + 1 ∧
        (m.publish_data topic buf len qos retain rc).1.tx_scheduled = m.tx_scheduled) := by
  refine ⟨?_, ?_, ?_⟩
  · intro t b ht hb hlen hq0 hq2 hrc
    have hv : ¬ (topic = none ∨ buf = none ∨ len = 0 ∨ qos < MqttQosMin ∨ qos > MqttQosMax) := by
      unfold MqttQosMin MqttQosMax
      rw [ht, hb]
      simp
      omega
    have e : m.publish_data topic buf len qos retain rc =
        ({ m with tx_scheduled := m.tx_scheduled + 1,
                  trace := m.trace ++ [MqttEvent.mosquitto_publish t len b qos retain,
                     MqttEvent.async_write_some] }, 0) := by
      unfold MqttClientImpl.publish_data
      rw [if_neg hv]
      simp [hrc, ht, hb, MqttClientImpl.emit, MqttClientImpl.schedule_mqtt_tx]
    rw [e]
    refine ⟨rfl, rfl, ?_, ?_⟩
    · simp [library_calls_append, library_calls]
    · simp [publishes_called_append, publishes_called]
  · intro hinv
    have hv : topic = none ∨ buf = none ∨ len = 0 ∨ qos < MqttQosMin ∨ qos > MqttQosMax := hinv
    have e : m.publish_data topic buf len qos retain rc =
        ({ m with trace := m.trace ++ [MqttEvent.log LogLevel.ERROR] }, -1) := by
      unfold MqttClientImpl.publish_data
      rw [if_pos hv]
      rfl
    rw [e]
    refine ⟨rfl, by simp, rfl, ?_, rfl⟩
    simp [library_calls_append, library_calls]
  · intro t b ht hb hlen hq0 hq2 hrc
    have hv : ¬ (topic = none ∨ buf = none ∨ len = 0 ∨ qos < MqttQosMin ∨ qos > MqttQosMax) := by
      unfold MqttQosMin MqttQosMax
      rw [ht, hb]
      simp
      omega
    have e : m.publish_data topic buf len qos retain rc =
        ({ m with trace := m.trace ++ [MqttEvent.mosquitto_publish t len b qos retain,
                     MqttEvent.log LogLevel.ERROR] }, -1) := by
      unfold MqttClientImpl.publish_data
      rw [if_neg hv]
      simp [hrc, ht, hb, MqttClientImpl.emit, MqttClientImpl.log]
    rw [e]
    refine ⟨rfl, by simp, rfl, ?_, rfl⟩
    simp [library_calls_append, library_calls]

/-- Witness of C11: a publish with valid arguments that succeeds, one with
`len == 0`, one with `qos == 3`, and one that the library refuses. -/
theorem publish_data_validates_then_publishes_witness :
    ((MqttClientImpl.create 5).publish_data (some "t") (some [1, 2]) 2 1 false 0).2 = 0 ∧
    ((MqttClientImpl.create 5).publish_data (some "t") (some [1, 2]) 0 1 false 0).2 = -1 ∧
    ((MqttClientImpl.create 5).publish_data (some "t") (some [1, 2]) 2 3 false 0).2 = -1 ∧
    ((MqttClientImpl.create 5).publish_data (some "t") (some [1, 2]) 2 1 false 14).2 = -1 := by
  refine ⟨?_, ?_, ?_, ?_⟩
  · exact ((publish_data_validates_then_publishes (MqttClientImpl.create 5) (some "t")
      (some [1, 2]) 2 1 false 0).1 "t" [1, 2] rfl rfl (by decide) (by decide) (by decide) rfl).1
  · exact ((publish_data_validates_then_publishes (MqttClientImpl.create 5) (some "t")
      (some [1, 2]) 0 1 false 0).2.1 (Or.inr (Or.inr (Or.inl rfl)))).1
  · exact ((publish_data_validates_then_publishes (MqttClientImpl.create 5) (some "t")
      (some [1, 2]) 2 3 false 0).2.1 (Or.inr (Or.inr (Or.inr (Or.inr (by decide)))))).1
  · exact ((publish_data_validates_then_publishes (MqttClientImpl.create 5) (some "t")
      (some [1, 2]) 2 1 false 14).2.2 "t" [1, 2] rfl rfl (by decide) (by decide) (by decide)
      (by decide)).1

/-! ## MQTT adapter: reconnect -/

theorem subscribes_called_append (a b : List MqttEvent) :
    subscribes_called (a ++ b) = subscribes_called a ++ subscribes_called b := by
  induction a with
  | nil => rfl
  | cons e rest ih => cases e <;> simp [subscribes_called, ih]

theorem MqttClientImpl.resubscribe_spec (subscribe_rc : Nat → Int) :
    ∀ (topics : List String) (i : Nat) (rc : Int) (m : MqttClientImpl),
      ∃ loop : List MqttEvent,
        (MqttClientImpl.resubscribe subscribe_rc topics i rc m).1 =
          { m with trace := m.trace ++ loop } ∧
        subscribes_called loop = topics ∧
        MqttEvent.connection_status true ∉ loop ∧
        (MqttClientImpl.resubscribe subscribe_rc topics i rc m).2 =
          if topics = [] then rc else subscribe_rc (i + topics.length - 1) := by
  intro topics
  induction topics with
  | nil =>
    intro i rc m
    exact ⟨[], by simp [MqttClientImpl.resubscribe], rfl, by simp, by simp [MqttClientImpl.resubscribe]⟩
  | cons t rest ih =>
    intro i rc m
    have hlast : (if rest = [] then subscribe_rc i else subscribe_rc (i + 1 + rest.length - 1)) =
        if t :: rest = [] then rc else subscribe_rc (i + (t :: rest).length - 1) := by
      by_cases hr : rest = []
      · simp [hr]
      · simp only [hr, if_false, List.length_cons, List.cons_ne_nil]
        congr 1
        omega
    by_cases hrc : subscribe_rc i ≠ MOSQ_ERR_SUCCESS
    · have e : MqttClientImpl.resubscribe subscribe_rc (t :: rest) i rc m =
          MqttClientImpl.resubscribe subscribe_rc rest (i + 1) (subscribe_rc i)
            ((m.emit (MqttEvent.mosquitto_subscribe t)).log LogLevel.ERROR) := by
        rw [MqttClientImpl.resubscribe]
        simp [hrc]
      obtain ⟨loop, h1, h2, h3, h4⟩ := ih (i + 1) (subscribe_rc i)
        ((m.emit (MqttEvent.mosquitto_subscribe t)).log LogLevel.ERROR)
      refine ⟨[MqttEvent.mosquitto_subscribe t, MqttEvent.log LogLevel.ERROR] ++ loop,
        ?_, ?_, ?_, ?_⟩
      · rw [e, h1]
        simp [MqttClientImpl.emit, MqttClientImpl.log]
      · simp [subscribes_called, h2]
      · simp [h3]
      · rw [e, h4, hlast]
    · have e : MqttClientImpl.resubscribe subscribe_rc (t :: rest) i rc m =
          MqttClientImpl.resubscribe subscribe_rc rest (i + 1) (subscribe_rc i)
            (m.emit (MqttEvent.mosquitto_subscribe t)) := by
        rw [MqttClientImpl.resubscribe]
        simp [hrc]
      obtain ⟨loop, h1, h2, h3, h4⟩ := ih (i + 1) (subscribe_rc i)
        (m.emit (MqttEvent.mosquitto_subscribe t))
      refine ⟨[MqttEvent.mosquitto_subscribe t] ++ loop, ?_, ?_, ?_, ?_⟩
      · rw [e, h1]
        simp [MqttClientImpl.emit]
      · simp [subscribes_called, h2]
      · simp [h3]
      · rw [e, h4, hlast]

/-- The reconnect handler on a disconnected client whose `mosquitto_connect`
succeeds: every topic is resubscribed, then the `rc` of the last
`mosquitto_subscribe` (`MOSQ_ERR_UNKNOWN` when there was none) decides. -/
theorem MqttClientImpl.connection_timer_handler_reconnect (m : MqttClientImpl)
    (subscribe_rc : Nat → Int) (fd : Int) (hd : m._connection_status = false) :
    ∃ loop : List MqttEvent,
      subscribes_called loop = m._subscribed_topics ∧
      MqttEvent.connection_status true ∉ loop ∧
      (((if m._subscribed_topics = [] then MOSQ_ERR_UNKNOWN
          else subscribe_rc (m._subscribed_topics.length - 1)) = MOSQ_ERR_SUCCESS) →
        m.connection_timer_handler MOSQ_ERR_SUCCESS subscribe_rc fd =
          MqttClientImpl.stop_connection_timer
            (MqttClientImpl.emit (MqttEvent.connection_status true)
              { (MqttClientImpl.setup_mqtt_communicator fd
                  { m with trace := m.trace ++
                      [MqttEvent.log LogLevel.TRACE, MqttEvent.mosquitto_connect] ++ loop }).1
                with _connection_status := true })) ∧
      (((if m._subscribed_topics = [] then MOSQ_ERR_UNKNOWN
          else subscribe_rc (m._subscribed_topics.length - 1)) ≠ MOSQ_ERR_SUCCESS) →
        m.connection_timer_handler MOSQ_ERR_SUCCESS subscribe_rc fd =
          { m with trace := m.trace ++
              [MqttEvent.log LogLevel.TRACE, MqttEvent.mosquitto_connect] ++ loop }) := by
  obtain ⟨loop, h1, h2, h3, h4⟩ := MqttClientImpl.resubscribe_spec subscribe_rc
    m._subscribed_topics 0 MOSQ_ERR_UNKNOWN
    ((m.log LogLevel.TRACE).emit MqttEvent.mosquitto_connect)
  have h1' : (MqttClientImpl.resubscribe subscribe_rc m._subscribed_topics 0 MOSQ_ERR_UNKNOWN
      ((m.log LogLevel.TRACE).emit MqttEvent.mosquitto_connect)).1 =
      { m with trace := m.trace ++
          [MqttEvent.log LogLevel.TRACE, MqttEvent.mosquitto_connect] ++ loop } := by
    rw [h1]
    simp [MqttClientImpl.emit, MqttClientImpl.log]
  have h4' : (MqttClientImpl.resubscribe subscribe_rc m._subscribed_topics 0 MOSQ_ERR_UNKNOWN
      ((m.log LogLevel.TRACE).emit MqttEvent.mosquitto_connect)).2 =
      if m._subscribed_topics = [] then MOSQ_ERR_UNKNOWN
      else subscribe_rc (m._subscribed_topics.length - 1) := by
    rw [h4]
    simp
  have hu : m.connection_timer_handler MOSQ_ERR_SUCCESS subscribe_rc fd =
      if (MqttClientImpl.resubscribe subscribe_rc m._subscribed_topics 0 MOSQ_ERR_UNKNOWN
          ((m.log LogLevel.TRACE).emit MqttEvent.mosquitto_connect)).2 = MOSQ_ERR_SUCCESS then
        MqttClientImpl.stop_connection_timer
          (MqttClientImpl.emit (MqttEvent.connection_status true)
            { (MqttClientImpl.setup_mqtt_communicator fd
                (MqttClientImpl.resubscribe subscribe_rc m._subscribed_topics 0 MOSQ_ERR_UNKNOWN
                  ((m.log LogLevel.TRACE).emit MqttEvent.mosquitto_connect)).1).1
              with _connection_status := true })
      else
        (MqttClientImpl.resubscribe subscribe_rc m._subscribed_topics 0 MOSQ_ERR_UNKNOWN
          ((m.log LogLevel.TRACE).emit MqttEvent.mosquitto_connect)).1 := by
    unfold MqttClientImpl.connection_timer_handler
    simp [MqttClientImpl.log, MqttClientImpl.emit, hd]
  refine ⟨loop, h2, h3, ?_, ?_⟩
  · intro hs
    rw [hu, h4', if_pos hs, h1']
  · intro hs
    rw [hu, h4', if_neg hs, h1']

theorem MqttClientImpl.setup_mqtt_communicator_trace (fd : Int) (m : MqttClientImpl) :
    ∃ tail : List MqttEvent,
      (m.setup_mqtt_communicator fd).1.trace = m.trace ++ tail ∧
      subscribes_called tail = [] ∧
      (m.setup_mqtt_communicator fd).1._connection_status_timer = m._connection_status_timer ∧
      (m.setup_mqtt_communicator fd).1._subscribed_topics = m._subscribed_topics := by
  unfold MqttClientImpl.setup_mqtt_communicator
  by_cases hf : -1 = fd
  · exact ⟨[MqttEvent.mosquitto_socket, MqttEvent.log LogLevel.ERROR],
      by simp [hf, MqttClientImpl.emit, MqttClientImpl.log],
      by simp [subscribes_called],
      by simp [hf, MqttClientImpl.emit, MqttClientImpl.log],
      by simp [hf, MqttClientImpl.emit, MqttClientImpl.log]⟩
  · exact ⟨[MqttEvent.mosquitto_socket, MqttEvent.log LogLevel.INFO, MqttEvent.async_read_some],
      by simp [hf, MqttClientImpl.emit, MqttClientImpl.log, MqttClientImpl.schedule_mqtt_rx],
      by simp [subscribes_called],
      by simp [hf, MqttClientImpl.emit, MqttClientImpl.log, MqttClientImpl.schedule_mqtt_rx],
      by simp [hf, MqttClientImpl.emit, MqttClientImpl.log, MqttClientImpl.schedule_mqtt_rx]⟩

/-- C12: in the reconnect timer handler on a disconnected client, when
`mosquitto_connect` succeeds `mosquitto_subscribe` is called exactly once for
each entry of `_subscribed_topics`, in list order; the handler's trace is the
connect, then the loop with all these calls, in which connection-status is
not set, then a tail without any subscribe, and if the handler leaves
connection-status connected it has set it in that tail, after the last
subscribe. When `mosquitto_connect` fails, no subscribe is called and
connection-status stays disconnected. -/
theorem reconnect_resubscribes_every_topic_in_order (m : MqttClientImpl) (connect_rc : Int)
    (subscribe_rc : Nat → Int) (fd : Int) (hd : m._connection_status = false) :
    (connect_rc = MOSQ_ERR_SUCCESS →
      subscribes_called (m.connection_timer_handler connect_rc subscribe_rc fd).trace =
        subscribes_called m.trace ++ m._subscribed_topics ∧
      ∃ loop tail : List MqttEvent,
        (m.connection_timer_handler connect_rc subscribe_rc fd).trace =
          m.trace ++ [MqttEvent.log LogLevel.TRACE, MqttEvent.mosquitto_connect] ++ loop ++ tail ∧
        subscribes_called loop = m._subscribed_topics ∧
        MqttEvent.connection_status true ∉ loop ∧
        subscribes_called tail = [] ∧
        ((m.connection_timer_handler connect_rc subscribe_rc fd)._connection_status = true →
          MqttEvent.connection_status true ∈ tail)) ∧
    (connect_rc ≠ MOSQ_ERR_SUCCESS →
      (m.connection_timer_handler connect_rc subscribe_rc fd).trace =
        m.trace ++ [MqttEvent.log LogLevel.TRACE, MqttEvent.mosquitto_connect,
          MqttEvent.log LogLevel.ERROR] ∧
      subscribes_called (m.connection_timer_handler connect_rc subscribe_rc fd).trace =
        subscribes_called m.trace ∧
      (m.connection_timer_handler connect_rc subscribe_rc fd)._connection_status = false) := by
  constructor
  · intro hc
    subst hc
    obtain ⟨loop, h1, h2, hs, hf⟩ :=
      MqttClientImpl.connection_timer_handler_reconnect m subscribe_rc fd hd
    have key : ∃ tail : List MqttEvent,
        (m.connection_timer_handler MOSQ_ERR_SUCCESS subscribe_rc fd).trace =
          m.trace ++ [MqttEvent.log LogLevel.TRACE, MqttEvent.mosquitto_connect] ++ loop ++ tail ∧
        subscribes_called tail = [] ∧
        ((m.connection_timer_handler MOSQ_ERR_SUCCESS subscribe_rc fd)._connection_status = true →
          MqttEvent.connection_status true ∈ tail) := by
      by_cases hl : (if m._subscribed_topics = [] then MOSQ_ERR_UNKNOWN
          else subscribe_rc (m._subscribed_topics.length - 1)) = MOSQ_ERR_SUCCESS
      · obtain ⟨tail, t1, t2, _, _⟩ := MqttClientImpl.setup_mqtt_communicator_trace fd
          { m with trace := m.trace ++
              [MqttEvent.log LogLevel.TRACE, MqttEvent.mosquitto_connect] ++ loop }
        refine ⟨tail ++ [MqttEvent.connection_status true], ?_, ?_, ?_⟩
        · rw [hs hl]
          simp only [MqttClientImpl.stop_connection_timer, MqttClientImpl.emit, t1]
          simp
        · simp [subscribes_called_append, t2, subscribes_called]
        · intro _
          simp
      · refine ⟨[], ?_, rfl, ?_⟩
        · rw [hf hl]
          simp
        · rw [hf hl]
          intro h
          rw [hd] at h
          exact absurd h (by decide)
    obtain ⟨tail, k1, k2, k3⟩ := key
    refine ⟨?_, loop, tail, k1, h1, h2, k2, k3⟩
    rw [k1]
    simp [subscribes_called_append, subscribes_called, h1, k2]
  · intro hc
    have hc' : MOSQ_ERR_SUCCESS ≠ connect_rc := fun e => hc e.symm
    have e : m.connection_timer_handler connect_rc subscribe_rc fd =
        { m with trace := m.trace ++ [MqttEvent.log LogLevel.TRACE, MqttEvent.mosquitto_connect,
          MqttEvent.log LogLevel.ERROR] } := by
      unfold MqttClientImpl.connection_timer_handler
      simp [MqttClientImpl.log, MqttClientImpl.emit, hd, hc']
    rw [e]
    refine ⟨rfl, ?_, hd⟩
    simp [subscribes_called_append, subscribes_called]

/-- Witness of C12: a client that has subscribed `a` and `b` and has been
disconnected; the connect of the tick succeeds, or fails. -/
theorem reconnect_resubscribes_every_topic_in_order_witness :
    subscribes_called
      (((((MqttClientImpl.create 5).subscribe_topic (some "a") 0).1.subscribe_topic
        (some "b") 0).1.on_disconnect).connection_timer_handler 0 (fun _ => 0) 5).trace =
      ["a", "b", "a", "b"] ∧
    (((((MqttClientImpl.create 5).subscribe_topic (some "a") 0).1.subscribe_topic
        (some "b") 0).1.on_disconnect).connection_timer_handler 14 (fun _ => 0)
          5)._connection_status = false := by
  have h := reconnect_resubscribes_every_topic_in_order
    ((((MqttClientImpl.create 5).subscribe_topic (some "a") 0).1.subscribe_topic
        (some "b") 0).1.on_disconnect) 0 (fun _ => 0) 5 (by decide)
  have h' := reconnect_resubscribes_every_topic_in_order
    ((((MqttClientImpl.create 5).subscribe_topic (some "a") 0).1.subscribe_topic
        (some "b") 0).1.on_disconnect) 14 (fun _ => 0) 5 (by decide)
  refine ⟨?_, (h'.2 (by decide)).2.2⟩
  rw [(h.1 rfl).1]
  decide

/-- C13, as amended: for every non-empty subscribed-topics list, a reconnect
timer tick that finds connection-status disconnected and whose
`mosquitto_connect` succeeds attempts every resubscription and then, when the
last `mosquitto_subscribe` has succeeded, ends with connection-status
connected and the reconnect timer stopped; when the last one has failed it
ends with connection-status still disconnected and the reconnect timer as it
was, so that the next tick tries again. -/
theorem reconnect_ends_connected_when_last_resubscription_succeeds (m : MqttClientImpl)
    (subscribe_rc : Nat → Int) (fd : Int) (t : Timer) (hd : m._connection_status = false)
    (hne : m._subscribed_topics ≠ []) (ht : m._connection_status_timer = some t) :
    subscribes_called (m.connection_timer_handler MOSQ_ERR_SUCCESS subscribe_rc fd).trace =
      subscribes_called m.trace ++ m._subscribed_topics ∧
    (subscribe_rc (m._subscribed_topics.length - 1) = MOSQ_ERR_SUCCESS →
      (m.connection_timer_handler MOSQ_ERR_SUCCESS subscribe_rc fd)._connection_status = true ∧
      (m.connection_timer_handler MOSQ_ERR_SUCCESS subscribe_rc fd)._connection_status_timer =
        some t.stop ∧
      t.stop.is_started = false) ∧
    (subscribe_rc (m._subscribed_topics.length - 1) ≠ MOSQ_ERR_SUCCESS →
      (m.connection_timer_handler MOSQ_ERR_SUCCESS subscribe_rc fd)._connection_status = false ∧
      (m.connection_timer_handler MOSQ_ERR_SUCCESS subscribe_rc fd)._connection_status_timer =
        some t) := by
  obtain ⟨loop, h1, _, hs, hf⟩ :=
    MqttClientImpl.connection_timer_handler_reconnect m subscribe_rc fd hd
  simp only [hne, if_false] at hs hf
  obtain ⟨tail, t1, t2, t3, _⟩ := MqttClientImpl.setup_mqtt_communicator_trace fd
    { m with trace := m.trace ++
        [MqttEvent.log LogLevel.TRACE, MqttEvent.mosquitto_connect] ++ loop }
  refine ⟨?_, ?_, ?_⟩
  · by_cases hl : subscribe_rc (m._subscribed_topics.length - 1) = MOSQ_ERR_SUCCESS
    · rw [hs hl]
      simp only [MqttClientImpl.stop_connection_timer, MqttClientImpl.emit, t1]
      simp [subscribes_called_append, subscribes_called, h1, t2]
    · rw [hf hl]
      simp [subscribes_called_append, subscribes_called, h1]
  · intro hl
    rw [hs hl]
    refine ⟨rfl, ?_, ?_⟩
    · simp only [MqttClientImpl.stop_connection_timer, MqttClientImpl.emit]
      rw [t3, ht]
      rfl
    · simp [Timer.is_started, Timer.stop_stopped]
  · intro hl
    rw [hf hl]
    exact ⟨hd, ht⟩

/-- Witness of C13: a client that has subscribed `a` and has been
disconnected; the resubscription of the tick succeeds, or fails. -/
theorem reconnect_ends_connected_when_last_resubscription_succeeds_witness :
    ((((MqttClientImpl.create 5).subscribe_topic (some "a") 0).1.on_disconnect
        ).connection_timer_handler MOSQ_ERR_SUCCESS (fun _ => 0) 5)._connection_status = true ∧
    ((((MqttClientImpl.create 5).subscribe_topic (some "a") 0).1.on_disconnect
        ).connection_timer_handler MOSQ_ERR_SUCCESS (fun _ => 14) 5)._connection_status
      = false := by
  have h := reconnect_ends_connected_when_last_resubscription_succeeds
    (((MqttClientImpl.create 5).subscribe_topic (some "a") 0).1.on_disconnect) (fun _ => 0) 5
    (Timer.create ⟨some connection_timer_callback, CONNECTION_POLL_INTERVAL,
      CONNECTION_POLL_INTERVAL⟩).start (by decide) (by decide) (by decide)
  have h' := reconnect_ends_connected_when_last_resubscription_succeeds
    (((MqttClientImpl.create 5).subscribe_topic (some "a") 0).1.on_disconnect) (fun _ => 14) 5
    (Timer.create ⟨some connection_timer_callback, CONNECTION_POLL_INTERVAL,
      CONNECTION_POLL_INTERVAL⟩).start (by decide) (by decide) (by decide)
  exact ⟨(h.2.1 (by decide)).1, (h'.2.2 (by decide)).1⟩

/-- C13, the claim as stated fails: a disconnected client whose reconnect
tick connects and attempts every resubscription does not always end
connected with the timer stopped. With one topic whose resubscription fails
the handler leaves connection-status disconnected and the timer running; and
with no topic at all `rc` keeps its initial `MOSQ_ERR_UNKNOWN`, so that the
handler leaves connection-status disconnected and the timer running as well. -/
theorem reconnect_can_end_disconnected :
    ((((MqttClientImpl.create 5).subscribe_topic (some "a") 0).1.on_disconnect
        ).connection_timer_handler MOSQ_ERR_SUCCESS (fun _ => 14) 5)._connection_status
      = false ∧
    ((((MqttClientImpl.create 5).subscribe_topic (some "a") 0).1.on_disconnect
        ).connection_timer_handler MOSQ_ERR_SUCCESS (fun _ => 14)
          5)._connection_status_timer.map Timer.is_started = some true ∧
    ((MqttClientImpl.create 5).on_disconnect.connection_timer_handler MOSQ_ERR_SUCCESS
      (fun _ => MOSQ_ERR_SUCCESS) 5)._connection_status = false ∧
    ((MqttClientImpl.create 5).on_disconnect.connection_timer_handler MOSQ_ERR_SUCCESS
      (fun _ => MOSQ_ERR_SUCCESS) 5)._connection_status_timer.map Timer.is_started
      = some true ∧
    ((MqttClientImpl.create 5).on_disconnect.connection_timer_handler MOSQ_ERR_SUCCESS
      (fun _ => MOSQ_ERR_SUCCESS) 5).trace =
      (MqttClientImpl.create 5).on_disconnect.trace ++
        [MqttEvent.log LogLevel.TRACE, MqttEvent.mosquitto_connect] := by
  decide

/-! ## The `std::map` operations -/

theorem map_wf_cons {k : String} {v : Nat} {m : List (String × Nat)} :
    map_wf ((k, v) :: m) ↔ (∀ e ∈ m, k < e.1) ∧ map_wf m := by
  unfold map_wf
  simp [List.pairwise_cons]

theorem map_wf_nodup {m : List (String × Nat)} (h : map_wf m) : (m.map Prod.fst).Nodup := by
  unfold map_wf at h
  exact h.imp (fun hab => ne_of_lt hab)

theorem map_insert_of_mem (key : String) (value : Nat) :
    ∀ m : List (String × Nat), map_wf m → key ∈ m.map Prod.fst →
      map_insert key value m = (m, false) := by
  intro m
  induction m with
  | nil => intro _ h; simp at h
  | cons e rest ih =>
    obtain ⟨k, v⟩ := e
    intro hwf hmem
    rw [map_wf_cons] at hwf
    have hnlt : ¬ key < k := by
      intro hlt
      simp only [List.map_cons, List.mem_cons, List.mem_map] at hmem
      rcases hmem with h | ⟨e, he, hek⟩
      · exact absurd hlt (h ▸ lt_irrefl _)
      · have := hwf.1 e he
        rw [hek] at this
        exact absurd hlt (lt_asymm this)
    unfold map_insert
    by_cases hk : key = k
    · simp [hnlt, hk]
    · have hin : key ∈ rest.map Prod.fst := by
        simp only [List.map_cons, List.mem_cons] at hmem
        rcases hmem with h | h
        · exact absurd h hk
        · exact h
      simp [hnlt, hk, ih hwf.2 hin]

theorem map_insert_of_not_mem (key : String) (value : Nat) :
    ∀ m : List (String × Nat), map_wf m → key ∉ m.map Prod.fst →
      (map_insert key value m).2 = true ∧
      map_wf (map_insert key value m).1 ∧
      (∀ e, e ∈ (map_insert key value m).1 ↔ e = (key, value) ∨ e ∈ m) ∧
      (map_insert key value m).1.length = m.length + 1 := by
  intro m
  induction m with
  | nil =>
    intro _ _
    simp [map_insert, map_wf]
  | cons e rest ih =>
    obtain ⟨k, v⟩ := e
    intro hwf hmem
    have hwf' := map_wf_cons.mp hwf
    have hk : ¬ key = k := by
      intro h
      exact hmem (by simp [h])
    have hin : key ∉ rest.map Prod.fst := by
      intro h
      exact hmem (by simp only [List.map_cons, List.mem_cons]; exact Or.inr h)
    unfold map_insert
    by_cases hlt : key < k
    · simp only [hlt, if_true]
      refine ⟨by trivial, ?_, ?_, by simp⟩
      · rw [map_wf_cons]
        refine ⟨?_, hwf⟩
        intro e he
        rcases List.mem_cons.mp he with h | h
        · rw [h]; exact hlt
        · exact lt_trans hlt (hwf'.1 e h)
      · intro e
        simp
    · simp only [hlt, hk, if_false]
      obtain ⟨i1, i2, i3, i4⟩ := ih hwf'.2 hin
      refine ⟨i1, ?_, ?_, by simp [i4]⟩
      · rw [map_wf_cons]
        refine ⟨?_, i2⟩
        intro e he
        rcases (i3 e).mp he with h | h
        · rw [h]
          rcases lt_trichotomy key k with h1 | h1 | h1
          · exact absurd h1 hlt
          · exact absurd h1 hk
          · exact h1
        · exact hwf'.1 e h
      · intro e
        simp only [List.mem_cons, i3]
        tauto

theorem map_erase_of_not_mem (key : String) :
    ∀ m : List (String × Nat), key ∉ m.map Prod.fst → map_erase key m = (m, 0) := by
  intro m
  induction m with
  | nil => intro _; rfl
  | cons e rest ih =>
    obtain ⟨k, v⟩ := e
    intro hmem
    have hk : ¬ key = k := by
      intro h
      exact hmem (by simp [h])
    have hin : key ∉ rest.map Prod.fst := by
      intro h
      exact hmem (by simp only [List.map_cons, List.mem_cons]; exact Or.inr h)
    simp [map_erase, hk, ih hin]

theorem map_erase_of_mem (key : String) :
    ∀ m : List (String × Nat), (m.map Prod.fst).Nodup → key ∈ m.map Prod.fst →
      (map_erase key m).2 = 1 ∧
      (map_erase key m).1 = m.filter (fun e => ¬ e.1 = key) := by
  intro m
  induction m with
  | nil => intro _ h; simp at h
  | cons e rest ih =>
    obtain ⟨k, v⟩ := e
    intro hnd hmem
    simp only [List.map_cons, List.nodup_cons] at hnd
    by_cases hk : key = k
    · subst hk
      simp [map_erase]
      symm
      rw [List.filter_eq_self]
      intro e he
      have : e.1 ≠ key := fun h => hnd.1 (h ▸ List.mem_map_of_mem Prod.fst he)
      simpa using this
    · have hin : key ∈ rest.map Prod.fst := by
        simp only [List.map_cons, List.mem_cons] at hmem
        rcases hmem with h | h
        · exact absurd h hk
        · exact h
      obtain ⟨i1, i2⟩ := ih hnd.2 hin
      have hk' : ¬ k = key := fun h => hk h.symm
      simp [map_erase, hk, hk', i1, i2]

theorem map_wf_filter {m : List (String × Nat)} (h : map_wf m) (p : String × Nat → Bool) :
    map_wf (m.filter p) := by
  unfold map_wf at h ⊢
  exact h.sublist ((List.filter_sublist m).map Prod.fst)

theorem map_find_of_mem (key : String) (value : Nat) :
    ∀ m : List (String × Nat), (m.map Prod.fst).Nodup → (key, value) ∈ m →
      map_find key m = some value := by
  intro m
  induction m with
  | nil => intro _ h; simp at h
  | cons e rest ih =>
    obtain ⟨k, v⟩ := e
    intro hnd hmem
    simp only [List.map_cons, List.nodup_cons] at hnd
    rcases List.mem_cons.mp hmem with h | h
    · simp only [Prod.mk.injEq] at h
      simp [map_find, h.1, h.2]
    · have hk : ¬ key = k := by
        intro hk
        exact hnd.1 (hk ▸ List.mem_map_of_mem Prod.fst h)
      simp [map_find, hk, ih hnd.2 h]

theorem map_find_of_not_mem (key : String) :
    ∀ m : List (String × Nat), key ∉ m.map Prod.fst → map_find key m = none := by
  intro m
  induction m with
  | nil => intro _; rfl
  | cons e rest ih =>
    obtain ⟨k, v⟩ := e
    intro hmem
    have hk : ¬ key = k := by
      intro h
      exact hmem (by simp [h])
    have hin : key ∉ rest.map Prod.fst := by
      intro h
      exact hmem (by simp only [List.map_cons, List.mem_cons]; exact Or.inr h)
    simp [map_find, hk, ih hin]

/-! ## UDP adapter: the callback registry -/

/-- C19: on a registry that is a `std::map` (keys strictly increasing, so
unique), `register_callback(id, cb)` with a non-null `cb` returns 0 and adds
the entry `(id, cb)`, keeping all others, when `id` is not registered, and
returns 1 and leaves the whole client as it is when `id` is registered; the
registry stays a map in both cases. With a null `cb` it returns `EINVAL` and
leaves the registry as it is. `unregister_callback(id)` returns 0 and removes
the entry of `id` and no other when `id` is registered, and returns `ENOENT`
and leaves the whole client as it is otherwise. -/
theorem udp_registry_register_unregister (u : UdpClientImpl) (id : String) (cb : Nat)
    (hwf : map_wf u._callbacks) :
    (id ∉ u._callbacks.map Prod.fst →
      (u.register_callback id (some cb)).2 = 0 ∧
      (∀ e, e ∈ (u.register_callback id (some cb)).1._callbacks ↔
        e = (id, cb) ∨ e ∈ u._callbacks) ∧
      (u.register_callback id (some cb)).1._callbacks.length = u._callbacks.length + 1 ∧
      map_wf (u.register_callback id (some cb)).1._callbacks ∧
      ((u.register_callback id (some cb)).1._callbacks.map Prod.fst).Nodup) ∧
    (id ∈ u._callbacks.map Prod.fst →
      (u.register_callback id (some cb)).2 = 1 ∧
      (u.register_callback id (some cb)).2 ≠ 0 ∧
      (u.register_callback id (some cb)).1 = u) ∧
    ((u.register_callback id none).2 = EINVAL ∧
      (u.register_callback id none).1._callbacks = u._callbacks) ∧
    (id ∈ u._callbacks.map Prod.fst →
      (u.unregister_callback id).2 = 0 ∧
      (u.unregister_callback id).1._callbacks = u._callbacks.filter (fun e => ¬ e.1 = id) ∧
      (∀ e, e ∈ (u.unregister_callback id).1._callbacks ↔ e ∈ u._callbacks ∧ e.1 ≠ id) ∧
      id ∉ (u.unregister_callback id).1._callbacks.map Prod.fst ∧
      map_wf (u.unregister_callback id).1._callbacks) ∧
    (id ∉ u._callbacks.map Prod.fst →
      (u.unregister_callback id).2 = ENOENT ∧
      (u.unregister_callback id).1 = u) := by
  refine ⟨?_, ?_, ⟨rfl, rfl⟩, ?_, ?_⟩
  · intro hn
    obtain ⟨i1, i2, i3, i4⟩ := map_insert_of_not_mem id cb u._callbacks hwf hn
    refine ⟨?_, i3, i4, i2, map_wf_nodup i2⟩
    simp [UdpClientImpl.register_callback, i1]
  · intro hm
    have e := map_insert_of_mem id cb u._callbacks hwf hm
    have e2 : u.register_callback id (some cb) = (u, 1) := by
      simp [UdpClientImpl.register_callback, e]
    rw [e2]
    exact ⟨rfl, by simp, rfl⟩
  · intro hm
    obtain ⟨i1, i2⟩ := map_erase_of_mem id u._callbacks (map_wf_nodup hwf) hm
    have e2 : (u.unregister_callback id).1._callbacks =
        u._callbacks.filter (fun e => ¬ e.1 = id) := i2
    refine ⟨?_, e2, ?_, ?_, ?_⟩
    · simp [UdpClientImpl.unregister_callback, i1]
    · intro e
      rw [e2]
      simp [List.mem_filter]
    · rw [e2]
      simp [List.mem_filter]
    · rw [e2]
      exact map_wf_filter hwf _
  · intro hn
    have e := map_erase_of_not_mem id u._callbacks hn
    have e2 : u.unregister_callback id = (u, ENOENT) := by
      simp [UdpClientImpl.unregister_callback, e, ENOENT]
    rw [e2]
    exact ⟨rfl, rfl⟩

/-- Witness of C19: `a` is registered on a new client, registered again, and
unregistered twice. -/
theorem udp_registry_register_unregister_witness :
    ((UdpClientImpl.create).register_callback "a" (some 7)).2 = 0 ∧
    (((UdpClientImpl.create).register_callback "a" (some 7)).1.register_callback
      "a" (some 8)).2 = 1 ∧
    (((UdpClientImpl.create).register_callback "a" (some 7)).1.unregister_callback "a").2 = 0 ∧
    ((UdpClientImpl.create).unregister_callback "a").2 = ENOENT := by
  have hwf0 : map_wf (UdpClientImpl.create)._callbacks := by
    simp [map_wf, UdpClientImpl.create, UdpClientImpl.receive_loop]
  have h0 := udp_registry_register_unregister UdpClientImpl.create "a" 7 hwf0
  have hn : "a" ∉ (UdpClientImpl.create)._callbacks.map Prod.fst := by
    simp [UdpClientImpl.create, UdpClientImpl.receive_loop]
  have r := h0.1 hn
  have hm : "a" ∈ ((UdpClientImpl.create).register_callback "a" (some 7)).1._callbacks.map
      Prod.fst := List.mem_map_of_mem Prod.fst ((r.2.1 ("a", 7)).mpr (Or.inl rfl))
  have h1 := udp_registry_register_unregister
    ((UdpClientImpl.create).register_callback "a" (some 7)).1 "a" 8 r.2.2.2.1
  exact ⟨r.1, (h1.2.1 hm).1, (h1.2.2.2.1 hm).1, (h0.2.2.2.2 hn).1⟩

/-! ## MQTT adapter: message dispatch -/

theorem message_callbacks_invoked_append (a b : List MqttEvent) :
    message_callbacks_invoked (a ++ b) =
      message_callbacks_invoked a ++ message_callbacks_invoked b := by
  induction a with
  | nil => rfl
  | cons e rest ih => cases e <;> simp [message_callbacks_invoked, ih]

/-- C14: for every incoming message on topic `t`, with the topic registry a
`std::map`: when a handler is registered for `t`, `on_message` invokes that
handler, once, with the message's topic, payload and payload length, and
nothing else (the global handler is not invoked); when none is registered for
`t` and a global handler is, it invokes the global handler, once, with the
same arguments; when neither is registered it invokes nothing. In every case
at most one handler is invoked. A handler registered for `t` by
`register_topic_callback` is the one invoked. -/
theorem message_goes_to_topic_handler_else_global (m : MqttClientImpl) (topic : String)
    (payload : List Nat) (payloadlen : Int) (hwf : map_wf m._mqtt_topic_data_received_cb) :
    (∀ cb, (topic, cb) ∈ m._mqtt_topic_data_received_cb →
      m.on_message topic payload payloadlen =
        { m with trace := m.trace ++ [MqttEvent.message_callback cb topic payload payloadlen] } ∧
      message_callbacks_invoked (m.on_message topic payload payloadlen).trace =
        message_callbacks_invoked m.trace ++ [(cb, topic, payload, payloadlen)]) ∧
    (topic ∉ m._mqtt_topic_data_received_cb.map Prod.fst →
      ∀ g, m._mqtt_data_received_cb = some g →
        m.on_message topic payload payloadlen =
          { m with trace := m.trace ++ [MqttEvent.message_callback g topic payload payloadlen] } ∧
        message_callbacks_invoked (m.on_message topic payload payloadlen).trace =
          message_callbacks_invoked m.trace ++ [(g, topic, payload, payloadlen)]) ∧
    (topic ∉ m._mqtt_topic_data_received_cb.map Prod.fst → m._mqtt_data_received_cb = none →
      m.on_message topic payload payloadlen = m) ∧
    (message_callbacks_invoked (m.on_message topic payload payloadlen).trace).length ≤
      (message_callbacks_invoked m.trace).length + 1 ∧
    (∀ cb, topic ∉ m._mqtt_topic_data_received_cb.map Prod.fst →
      (m.register_topic_callback topic (some cb)).2 = 0 ∧
      message_callbacks_invoked
        ((m.register_topic_callback topic (some cb)).1.on_message topic payload payloadlen).trace =
        message_callbacks_invoked m.trace ++ [(cb, topic, payload, payloadlen)]) := by
  refine ⟨?_, ?_, ?_, ?_, ?_⟩
  · intro cb hmem
    have hf := map_find_of_mem topic cb _ (map_wf_nodup hwf) hmem
    have e : m.on_message topic payload payloadlen =
        { m with trace := m.trace ++
          [MqttEvent.message_callback cb topic payload payloadlen] } := by
      simp [MqttClientImpl.on_message, hf, MqttClientImpl.emit]
    rw [e]
    exact ⟨rfl, by simp [message_callbacks_invoked_append, message_callbacks_invoked]⟩
  · intro hn g hg
    have hf := map_find_of_not_mem topic _ hn
    have e : m.on_message topic payload payloadlen =
        { m with trace := m.trace ++
          [MqttEvent.message_callback g topic payload payloadlen] } := by
      simp [MqttClientImpl.on_message, hf, hg, MqttClientImpl.emit]
    rw [e]
    exact ⟨rfl, by simp [message_callbacks_invoked_append, message_callbacks_invoked]⟩
  · intro hn hg
    have hf := map_find_of_not_mem topic _ hn
    simp [MqttClientImpl.on_message, hf, hg]
  · unfold MqttClientImpl.on_message
    cases map_find topic m._mqtt_topic_data_received_cb with
    | some cb =>
      simp [MqttClientImpl.emit, message_callbacks_invoked_append, message_callbacks_invoked]
    | none =>
      cases m._mqtt_data_received_cb with
      | some g =>
        simp [MqttClientImpl.emit, message_callbacks_invoked_append, message_callbacks_invoked]
      | none => simp
  · intro cb hn
    have hf := map_find_of_not_mem topic _ hn
    obtain ⟨_, i2, i3, _⟩ := map_insert_of_not_mem topic cb _ hwf hn
    have e : m.register_topic_callback topic (some cb) =
        ({ m with _mqtt_topic_data_received_cb :=
            (map_insert topic cb m._mqtt_topic_data_received_cb).1 }, 0) := by
      simp [MqttClientImpl.register_topic_callback, hf]
    have hf2 := map_find_of_mem topic cb _ (map_wf_nodup i2) ((i3 (topic, cb)).mpr (Or.inl rfl))
    rw [e]
    refine ⟨rfl, ?_⟩
    simp [MqttClientImpl.on_message, hf2, MqttClientImpl.emit, message_callbacks_invoked_append,
      message_callbacks_invoked]

/-- Witness of C14: a client with a global handler and a handler for topic
`a` receives a message on `a`, and one on `b`. -/
theorem message_goes_to_topic_handler_else_global_witness :
    message_callbacks_invoked
      ((((MqttClientImpl.create 5).register_callback (some 1)).1.register_topic_callback
        "a" (some 2)).1.on_message "a" [9] 1).trace = [(2, "a", [9], 1)] ∧
    message_callbacks_invoked
      ((((MqttClientImpl.create 5).register_callback (some 1)).1.register_topic_callback
        "a" (some 2)).1.on_message "b" [9] 1).trace = [(1, "b", [9], 1)] := by
  have hwf : map_wf (((MqttClientImpl.create 5).register_callback (some 1)).1.register_topic_callback
      "a" (some 2)).1._mqtt_topic_data_received_cb := by
    simp [map_wf, MqttClientImpl.register_topic_callback, MqttClientImpl.register_callback,
      MqttClientImpl.create, MqttClientImpl.setup_mqtt_communicator, MqttClientImpl.log,
      MqttClientImpl.emit, MqttClientImpl.schedule_mqtt_rx, map_find, map_insert]
  have ha := message_goes_to_topic_handler_else_global
    (((MqttClientImpl.create 5).register_callback (some 1)).1.register_topic_callback
      "a" (some 2)).1 "a" [9] 1 hwf
  have hb := message_goes_to_topic_handler_else_global
    (((MqttClientImpl.create 5).register_callback (some 1)).1.register_topic_callback
      "a" (some 2)).1 "b" [9] 1 hwf
  refine ⟨?_, ?_⟩
  · rw [(ha.1 2 (by decide)).2]
    decide
  · rw [(hb.2.1 (by decide) 1 (by decide)).2]
    decide

/-! ## CAN adapter -/

theorem read_handlers_invoked_append (a b : List CanEvent) :
    read_handlers_invoked (a ++ b) = read_handlers_invoked a ++ read_handlers_invoked b := by
  induction a with
  | nil => rfl
  | cons e rest ih => cases e <;> simp [read_handlers_invoked, ih]

theorem reads_issued_append (a b : List CanEvent) :
    reads_issued (a ++ b) = reads_issued a + reads_issued b := by
  induction a with
  | nil => simp [reads_issued]
  | cons e rest ih =>
    cases e <;> simp [reads_issued, ih]
    omega

theorem CanImpl.handle_read_repeat_canceled (behave : Nat → List Nat → Outcome) (c : CanImpl)
    (bytes_transferred : Nat) (frame : List Nat) (h : Option Nat) :
    c.handle_read_repeat behave operation_canceled bytes_transferred frame h =
      ({ c with reads := c.reads ++ [⟨ReadLambda.repeating, false⟩],
                trace := c.trace ++ [CanEvent.log LogLevel.WARN, CanEvent.async_read] },
        Outcome.returned) := by
  simp [CanImpl.handle_read_repeat, CanImpl.handle_read, operation_canceled, CanImpl.log,
    CanImpl.async_read_internal]

theorem CanImpl.handle_read_repeat_error (behave : Nat → List Nat → Outcome) (c : CanImpl)
    (err : error_code) (bytes_transferred : Nat) (frame : List Nat) (h : Option Nat)
    (h0 : err ≠ 0) (hc : err ≠ operation_canceled) :
    c.handle_read_repeat behave err bytes_transferred frame h =
      ({ c with reads := c.reads ++ [⟨ReadLambda.repeating, false⟩],
                trace := c.trace ++
                  (if bytes_transferred < sizeof_canfd_frame then
                    [CanEvent.log LogLevel.WARN, CanEvent.log LogLevel.WARN]
                  else [CanEvent.log LogLevel.WARN]) ++ [CanEvent.async_read] },
        Outcome.returned) := by
  by_cases hb : bytes_transferred < sizeof_canfd_frame <;>
    simp [CanImpl.handle_read_repeat, CanImpl.handle_read, h0, hc, hb, CanImpl.log,
      CanImpl.async_read_internal]

/-- C15, the code at the failing input: when a repeating CAN read completes
with `operation_canceled`, `handle_read_repeat` invokes no user handler (it
logs a warning) but issues the next asynchronous read all the same: one more
read is outstanding afterwards. The UDP receive handler, run with
`operation_aborted`, returns at once: no callback, no new receive. -/
theorem cancelled_can_read_is_rearmed (behave : Nat → List Nat → Outcome) (c : CanImpl)
    (bytes_transferred : Nat) (frame : List Nat) (h : Option Nat)
    (udp_behave : Nat → List Nat → Nat → List Nat × Outcome) (u : UdpClientImpl) (n : Nat)
    (recv_error : error_code) :
    (c.handle_read_repeat behave operation_canceled bytes_transferred frame h).2 =
      Outcome.returned ∧
    read_handlers_invoked
      (c.handle_read_repeat behave operation_canceled bytes_transferred frame h).1.trace =
      read_handlers_invoked c.trace ∧
    (c.handle_read_repeat behave operation_canceled bytes_transferred frame h).1.trace =
      c.trace ++ [CanEvent.log LogLevel.WARN, CanEvent.async_read] ∧
    reads_issued
      (c.handle_read_repeat behave operation_canceled bytes_transferred frame h).1.trace =
      reads_issued c.trace + 1 ∧
    (c.handle_read_repeat behave operation_canceled bytes_transferred frame h).1.reads =
      c.reads ++ [⟨ReadLambda.repeating, false⟩] ∧
    UdpClientImpl.receive_handler udp_behave operation_aborted n recv_error u = (u, false) ∧
    (CanImpl.handle_read_repeat (fun _ _ => Outcome.returned) operation_canceled 0 [] (some 1)
      (CanImpl.create.register_read_callback (some 1))).1.reads.length = 2 := by
  rw [CanImpl.handle_read_repeat_canceled]
  refine ⟨rfl, ?_, rfl, ?_, rfl, ?_, by decide⟩
  · simp [read_handlers_invoked_append, read_handlers_invoked]
  · simp [reads_issued_append, reads_issued]
  · simp [UdpClientImpl.receive_handler]

/-- C16: a completion that carries an error other than cancellation makes the
CAN adapter's repeating read handler log (one warning, and a second one when
fewer bytes than a frame were read), invoke no user handler and issue exactly
one new asynchronous read, and makes the UDP receive handler log one error,
invoke no registered callback and issue exactly one new asynchronous receive;
neither handler is left by an exception. -/
theorem failed_read_is_logged_and_rearmed (behave : Nat → List Nat → Outcome) (c : CanImpl)
    (bytes_transferred : Nat) (frame : List Nat) (h : Option Nat)
    (udp_behave : Nat → List Nat → Nat → List Nat × Outcome) (u : UdpClientImpl) (n : Nat)
    (recv_error : error_code) (err : error_code) (h0 : err ≠ 0)
    (hc : err ≠ operation_aborted) :
    operation_canceled = operation_aborted ∧
    (c.handle_read_repeat behave err bytes_transferred frame h).2 = Outcome.returned ∧
    read_handlers_invoked (c.handle_read_repeat behave err bytes_transferred frame h).1.trace =
      read_handlers_invoked c.trace ∧
    reads_issued (c.handle_read_repeat behave err bytes_transferred frame h).1.trace =
      reads_issued c.trace + 1 ∧
    (c.handle_read_repeat behave err bytes_transferred frame h).1.reads =
      c.reads ++ [⟨ReadLambda.repeating, false⟩] ∧
    UdpClientImpl.receive_handler udp_behave err n recv_error u =
      ({ u with receives := u.receives + 1,
                trace := u.trace ++ [UdpEvent.log LogLevel.ERROR, UdpEvent.async_receive_from] },
        false) ∧
    udp_callbacks_invoked (UdpClientImpl.receive_handler udp_behave err n recv_error u).1.trace =
      udp_callbacks_invoked u.trace ∧
    receives_issued (UdpClientImpl.receive_handler udp_behave err n recv_error u).1.trace =
      receives_issued u.trace + 1 := by
  have hu : UdpClientImpl.receive_handler udp_behave err n recv_error u =
      ({ u with receives := u.receives + 1,
                trace := u.trace ++ [UdpEvent.log LogLevel.ERROR, UdpEvent.async_receive_from] },
        false) := by
    simp [UdpClientImpl.receive_handler, h0, hc, UdpClientImpl.log, UdpClientImpl.receive_loop]
  rw [CanImpl.handle_read_repeat_error behave c err bytes_transferred frame h h0 hc, hu]
  refine ⟨rfl, rfl, ?_, ?_, rfl, rfl, ?_, ?_⟩
  · by_cases hb : bytes_transferred < sizeof_canfd_frame <;>
      simp [hb, read_handlers_invoked_append, read_handlers_invoked]
  · by_cases hb : bytes_transferred < sizeof_canfd_frame <;>
      simp [hb, reads_issued_append, reads_issued]
  · simp [udp_callbacks_invoked_append, udp_callbacks_invoked]
  · simp [receives_issued_append, receives_issued]

/-- Witness of C16: a read that fails with `EIO` (5) on a CAN adapter with a
registered callback, and on a UDP client. -/
theorem failed_read_is_logged_and_rearmed_witness :
    reads_issued (CanImpl.handle_read_repeat (fun _ _ => Outcome.returned) 5 0 [] (some 1)
      (CanImpl.create.register_read_callback (some 1))).1.trace = 2 ∧
    read_handlers_invoked (CanImpl.handle_read_repeat (fun _ _ => Outcome.returned) 5 0 []
      (some 1) (CanImpl.create.register_read_callback (some 1))).1.trace = [] ∧
    (UdpClientImpl.receive_handler (fun _ buf _ => (buf, Outcome.returned)) 5 0 0
      UdpClientImpl.create).2 = false := by
  have h := failed_read_is_logged_and_rearmed (fun _ _ => Outcome.returned)
    (CanImpl.create.register_read_callback (some 1)) 0 [] (some 1)
    (fun _ buf _ => (buf, Outcome.returned)) UdpClientImpl.create 0 0 5 (by decide) (by decide)
  refine ⟨h.2.2.2.1, h.2.2.1, ?_⟩
  rw [h.2.2.2.2.2.1]

theorem CanImpl.handle_read_repeat_success (behave : Nat → List Nat → Outcome) (c : CanImpl)
    (bytes_transferred : Nat) (frame : List Nat) (h : Nat) :
    (c.handle_read_repeat behave 0 bytes_transferred frame (some h)).1.trace =
      c.trace ++ [CanEvent.read_handler h frame] ++
        (if behave h frame = Outcome.returned then [CanEvent.async_read] else []) ∧
    (c.handle_read_repeat behave 0 bytes_transferred frame (some h)).1.reads =
      c.reads ++
        (if behave h frame = Outcome.returned then [⟨ReadLambda.repeating, false⟩] else []) ∧
    (c.handle_read_repeat behave 0 bytes_transferred frame (some h)).1._can_read_cb =
      c._can_read_cb ∧
    (c.handle_read_repeat behave 0 bytes_transferred frame (some h)).2 = behave h frame := by
  unfold CanImpl.handle_read_repeat CanImpl.handle_read
  cases hb : behave h frame <;> simp [hb, CanImpl.async_read_internal]

/-- What one completion of a repeating read does when the registered callback
is `h`: the calls of read handlers it makes are calls of `h`, the callback
stays registered, and any read it issues is a repeating one. -/
theorem CanImpl.handle_read_repeat_step (behave : Nat → List Nat → Outcome) (c : CanImpl)
    (err : error_code) (bytes_transferred : Nat) (frame : List Nat) (h : Nat) :
    ∃ l : List CanEvent,
      (c.handle_read_repeat behave err bytes_transferred frame (some h)).1.trace = c.trace ++ l ∧
      (∀ x ∈ read_handlers_invoked l, x.1 = h) ∧
      (c.handle_read_repeat behave err bytes_transferred frame (some h)).1._can_read_cb =
        c._can_read_cb ∧
      (∀ op ∈ (c.handle_read_repeat behave err bytes_transferred frame (some h)).1.reads,
        op ∈ c.reads ∨ op.lambda = ReadLambda.repeating) := by
  by_cases h0 : err = 0
  · subst h0
    obtain ⟨s1, s2, s3, _⟩ := CanImpl.handle_read_repeat_success behave c bytes_transferred frame h
    refine ⟨[CanEvent.read_handler h frame] ++
        (if behave h frame = Outcome.returned then [CanEvent.async_read] else []), ?_, ?_, s3, ?_⟩
    · rw [s1, List.append_assoc]
    · intro x hx
      by_cases hb : behave h frame = Outcome.returned <;>
        simp [hb, read_handlers_invoked] at hx <;> simp [hx]
    · intro op hop
      rw [s2] at hop
      by_cases hb : behave h frame = Outcome.returned
      · simp only [hb, if_true, List.mem_append, List.mem_singleton] at hop
        rcases hop with hop | hop
        · exact Or.inl hop
        · exact Or.inr (by rw [hop])
      · simp only [hb, if_false, List.append_nil] at hop
        exact Or.inl hop
  · by_cases hc : err = operation_canceled
    · subst hc
      rw [CanImpl.handle_read_repeat_canceled]
      refine ⟨[CanEvent.log LogLevel.WARN, CanEvent.async_read], rfl, ?_, rfl, ?_⟩
      · simp [read_handlers_invoked]
      · intro op hop
        simp only [List.mem_append, List.mem_singleton] at hop
        rcases hop with hop | hop
        · exact Or.inl hop
        · exact Or.inr (by rw [hop])
    · rw [CanImpl.handle_read_repeat_error behave c err bytes_transferred frame (some h) h0 hc]
      refine ⟨(if bytes_transferred < sizeof_canfd_frame then
          [CanEvent.log LogLevel.WARN, CanEvent.log LogLevel.WARN]
        else [CanEvent.log LogLevel.WARN]) ++ [CanEvent.async_read], ?_, ?_, rfl, ?_⟩
      · simp
      · by_cases hb : bytes_transferred < sizeof_canfd_frame <;>
          simp [hb, read_handlers_invoked_append, read_handlers_invoked]
      · intro op hop
        simp only [List.mem_append, List.mem_singleton] at hop
        rcases hop with hop | hop
        · exact Or.inl hop
        · exact Or.inr (by rw [hop])

theorem CanImpl.complete_read_step (behave : Nat → List Nat → Outcome) (c : CanImpl) (h : Nat)
    (i : Nat) (err : error_code) (bytes_transferred : Nat) (frame : List Nat)
    (hcb : c._can_read_cb = some h) (hrep : ∀ op ∈ c.reads, op.lambda = ReadLambda.repeating) :
    ∃ l : List CanEvent,
      (c.complete_read behave i err bytes_transferred frame).1.trace = c.trace ++ l ∧
      (∀ x ∈ read_handlers_invoked l, x.1 = h) ∧
      (c.complete_read behave i err bytes_transferred frame).1._can_read_cb = some h ∧
      (∀ op ∈ (c.complete_read behave i err bytes_transferred frame).1.reads,
        op.lambda = ReadLambda.repeating) := by
  unfold CanImpl.complete_read
  cases hg : c.reads.get? i with
  | none => exact ⟨[], by simp, by simp [read_handlers_invoked], hcb, hrep⟩
  | some op =>
    have hop : op.lambda = ReadLambda.repeating := hrep op (List.get?_mem hg)
    simp only [hop, hcb]
    obtain ⟨l, l1, l2, l3, l4⟩ := CanImpl.handle_read_repeat_step behave
      ⟨some h, c.reads.eraseIdx i, c.writes, c.trace⟩
      (if op.cancelled then operation_canceled else err) bytes_transferred frame h
    refine ⟨l, l1, l2, l3, ?_⟩
    intro o ho
    rcases l4 o ho with h1 | h1
    · exact hrep o (List.mem_of_mem_eraseIdx h1)
    · exact h1

theorem CanImpl.run_reads_step (behave : Nat → List Nat → Outcome) (h : Nat) :
    ∀ (cs : List (Nat × error_code × Nat × List Nat)) (c : CanImpl),
      c._can_read_cb = some h → (∀ op ∈ c.reads, op.lambda = ReadLambda.repeating) →
      ∃ l : List CanEvent,
        (CanImpl.run_reads behave cs c).1.trace = c.trace ++ l ∧
        (∀ x ∈ read_handlers_invoked l, x.1 = h) ∧
        (CanImpl.run_reads behave cs c).1._can_read_cb = some h ∧
        (∀ op ∈ (CanImpl.run_reads behave cs c).1.reads, op.lambda = ReadLambda.repeating) := by
  intro cs
  induction cs with
  | nil => intro c hcb hrep; exact ⟨[], by simp [CanImpl.run_reads], by simp [read_handlers_invoked], hcb, hrep⟩
  | cons x rest ih =>
    obtain ⟨i, err, n, frame⟩ := x
    intro c hcb hrep
    obtain ⟨l, l1, l2, l3, l4⟩ := CanImpl.complete_read_step behave c h i err n frame hcb hrep
    rw [CanImpl.run_reads]
    cases ho : (c.complete_read behave i err n frame).2 with
    | returned =>
      simp only [ho]
      obtain ⟨l', k1, k2, k3, k4⟩ := ih (c.complete_read behave i err n frame).1 l3 l4
      refine ⟨l ++ l', ?_, ?_, k3, k4⟩
      · rw [k1, l1, List.append_assoc]
      · intro y hy
        rw [read_handlers_invoked_append, List.mem_append] at hy
        rcases hy with hy | hy
        · exact l2 y hy
        · exact k2 y hy
    | threw_std_exception =>
      simp only [ho]
      exact ⟨l, l1, l2, l3, l4⟩
    | threw_other =>
      simp only [ho]
      exact ⟨l, l1, l2, l3, l4⟩

theorem CanImpl.register_twice (c : CanImpl) (h1 h2 : Option Nat) :
    (c.register_read_callback h1).register_read_callback h2 =
      { _can_read_cb := h2,
        reads := c.reads.map (fun r => { r with cancelled := true }) ++
          [⟨ReadLambda.repeating, true⟩, ⟨ReadLambda.repeating, false⟩],
        writes := c.writes,
        trace := c.trace ++ [CanEvent.cancel, CanEvent.async_read, CanEvent.cancel,
          CanEvent.async_read] } := by
  simp [CanImpl.register_read_callback, CanImpl.cancel, CanImpl.async_read_internal,
    Function.comp_def]

/-- C17: after `register_read_callback(h1)` followed by
`register_read_callback(h2)` the registered callback is `h2`, and it stays
`h2` whatever read completions follow. The repeating read handler run with
success, and so every repeating read that then completes successfully,
delivers its frame exactly once, to `h2`; and when no one-shot
read was outstanding at the first call, every call of a read handler made by
the completions that follow the two calls is a call of `h2`, so none goes to
`h1`. -/
theorem last_registered_read_callback_wins (behave : Nat → List Nat → Outcome) (c : CanImpl)
    (h1 : Option Nat) (h2 : Nat) :
    ((c.register_read_callback h1).register_read_callback (some h2))._can_read_cb = some h2 ∧
    (∀ cs, (CanImpl.run_reads behave cs
      ((c.register_read_callback h1).register_read_callback (some h2))).1._can_read_cb
        = some h2) ∧
    (∀ cs n frame,
      read_handlers_invoked
        ((CanImpl.run_reads behave cs
          ((c.register_read_callback h1).register_read_callback (some h2))).1.handle_read_repeat
            behave 0 n frame
            (CanImpl.run_reads behave cs
              ((c.register_read_callback h1).register_read_callback
                (some h2))).1._can_read_cb).1.trace =
        read_handlers_invoked (CanImpl.run_reads behave cs
          ((c.register_read_callback h1).register_read_callback (some h2))).1.trace ++
          [(h2, frame)]) ∧
    (∀ cs i n frame,
      (CanImpl.run_reads behave cs
        ((c.register_read_callback h1).register_read_callback (some h2))).1.reads.get? i =
          some ⟨ReadLambda.repeating, false⟩ →
      read_handlers_invoked
        ((CanImpl.run_reads behave cs
          ((c.register_read_callback h1).register_read_callback (some h2))).1.complete_read
            behave i 0 n frame).1.trace =
        read_handlers_invoked (CanImpl.run_reads behave cs
          ((c.register_read_callback h1).register_read_callback (some h2))).1.trace ++
          [(h2, frame)]) ∧
    ((∀ op ∈ c.reads, op.lambda = ReadLambda.repeating) →
      ∀ cs, ∀ x ∈ (read_handlers_invoked (CanImpl.run_reads behave cs
        ((c.register_read_callback h1).register_read_callback (some h2))).1.trace).drop
          (read_handlers_invoked c.trace).length, x.1 = h2) := by
  have hcb : ((c.register_read_callback h1).register_read_callback (some h2))._can_read_cb
      = some h2 := by
    rw [CanImpl.register_twice]
  have hkeep : ∀ (cs : List (Nat × error_code × Nat × List Nat)) (d : CanImpl),
      d._can_read_cb = some h2 → (CanImpl.run_reads behave cs d).1._can_read_cb = some h2 := by
    intro cs
    induction cs with
    | nil => intro d hd; exact hd
    | cons x rest ih =>
      obtain ⟨i, err, n, frame⟩ := x
      intro d hd
      have hstep : (d.complete_read behave i err n frame).1._can_read_cb = some h2 := by
        unfold CanImpl.complete_read
        cases hg : d.reads.get? i with
        | none => exact hd
        | some op =>
          simp only
          cases hl : op.lambda with
          | once h =>
            simp only
            unfold CanImpl.handle_read
            split_ifs <;> first | exact hd | (cases h <;> exact hd)
          | repeating =>
            simp only [hd]
            exact (CanImpl.handle_read_repeat_step behave _ _ n frame h2).choose_spec.2.2.1
      rw [CanImpl.run_reads]
      cases ho : (d.complete_read behave i err n frame).2 with
      | returned => simp only [ho]; exact ih _ hstep
      | threw_std_exception => simp only [ho]; exact hstep
      | threw_other => simp only [ho]; exact hstep
  refine ⟨hcb, fun cs => hkeep cs _ hcb, ?_, ?_, ?_⟩
  · intro cs n frame
    rw [hkeep cs _ hcb, (CanImpl.handle_read_repeat_success behave _ n frame h2).1]
    by_cases hb : behave h2 frame = Outcome.returned <;>
      simp [hb, read_handlers_invoked_append, read_handlers_invoked]
  · intro cs i n frame hg
    have hk := hkeep cs _ hcb
    unfold CanImpl.complete_read
    simp only [hg, hk, Bool.false_eq_true, if_false]
    rw [(CanImpl.handle_read_repeat_success behave _ n frame h2).1]
    by_cases hb : behave h2 frame = Outcome.returned <;>
      simp [hb, read_handlers_invoked_append, read_handlers_invoked]
  · intro hrep cs x hx
    have hrep2 : ∀ op ∈ ((c.register_read_callback h1).register_read_callback (some h2)).reads,
        op.lambda = ReadLambda.repeating := by
      rw [CanImpl.register_twice]
      intro op hop
      simp only [List.mem_append, List.mem_map, List.mem_cons, List.mem_singleton,
        List.not_mem_nil, or_false] at hop
      rcases hop with ⟨r, hr, rfl⟩ | rfl | rfl
      · exact hrep r hr
      · rfl
      · rfl
    obtain ⟨l, l1, l2, _, _⟩ := CanImpl.run_reads_step behave h2 cs _ hcb hrep2
    rw [l1, CanImpl.register_twice] at hx
    simp only [read_handlers_invoked_append, read_handlers_invoked, List.append_nil,
      List.drop_left] at hx
    exact l2 x hx

/-- Witness of C17: callbacks 1 and then 2 are registered on a new adapter;
the cancelled first read completes, then the second read completes with a
frame. -/
theorem last_registered_read_callback_wins_witness :
    read_handlers_invoked
      ((CanImpl.run_reads (fun _ _ => Outcome.returned) [(0, 0, 0, [])]
        ((CanImpl.create.register_read_callback (some 1)).register_read_callback
          (some 2))).1.complete_read (fun _ _ => Outcome.returned) 0 0 72 [4, 2]).1.trace =
      [(2, [4, 2])] := by
  have h := (last_registered_read_callback_wins (fun _ _ => Outcome.returned) CanImpl.create
    (some 1) 2).2.2.2.1 [(0, 0, 0, [])] 0 72 [4, 2] (by decide)
  rw [h]
  decide

/-! ## MQTT adapter: the subscribed-topics list -/

/-- C23: a `subscribe_topic(t)` whose library call succeeds returns 0 and
leaves `_subscribed_topics` as the previous list with `t` appended at the
end; one that is rejected (null topic) or whose library call fails returns
`-1` and leaves the list as it is. An `unsubscribe_topic(t)` whose library
call succeeds returns 0 and leaves the previous list without its entries
equal to `t`, the others all kept, in their order; one that is rejected or
whose library call fails returns `-1` and leaves the list as it is. -/
theorem subscribed_topics_record_subscribe_order (m : MqttClientImpl) (topic : Option String)
    (rc : Int) :
    (∀ t, topic = some t → rc = MOSQ_ERR_SUCCESS →
      (m.subscribe_topic topic rc).2 = 0 ∧
      (m.subscribe_topic topic rc).1._subscribed_topics = m._subscribed_topics ++ [t]) ∧
    (topic = none ∨ rc ≠ MOSQ_ERR_SUCCESS →
      (m.subscribe_topic topic rc).2 = -1 ∧
      (m.subscribe_topic topic rc).1._subscribed_topics = m._subscribed_topics) ∧
    (∀ t, topic = some t → rc = MOSQ_ERR_SUCCESS →
      (m.unsubscribe_topic topic rc).2 = 0 ∧
      (m.unsubscribe_topic topic rc).1._subscribed_topics =
        m._subscribed_topics.filter (fun s => ¬ s = t) ∧
      t ∉ (m.unsubscribe_topic topic rc).1._subscribed_topics ∧
      (∀ s, s ≠ t →
        (s ∈ (m.unsubscribe_topic topic rc).1._subscribed_topics ↔ s ∈ m._subscribed_topics)) ∧
      ((m.unsubscribe_topic topic rc).1._subscribed_topics).Sublist m._subscribed_topics) ∧
    (topic = none ∨ rc ≠ MOSQ_ERR_SUCCESS →
      (m.unsubscribe_topic topic rc).2 = -1 ∧
      (m.unsubscribe_topic topic rc).1._subscribed_topics = m._subscribed_topics) := by
  refine ⟨?_, ?_, ?_, ?_⟩
  · intro t ht hrc
    subst ht
    subst hrc
    simp [MqttClientImpl.subscribe_topic, MqttClientImpl.emit, MqttClientImpl.schedule_mqtt_tx]
  · intro h
    cases topic with
    | none => simp [MqttClientImpl.subscribe_topic, MqttClientImpl.log]
    | some t =>
      have hrc : rc ≠ MOSQ_ERR_SUCCESS := by
        rcases h with h | h
        · exact absurd h (by simp)
        · exact h
      simp [MqttClientImpl.subscribe_topic, MqttClientImpl.emit, MqttClientImpl.log, hrc]
  · intro t ht hrc
    subst ht
    subst hrc
    have e : (m.unsubscribe_topic (some t) MOSQ_ERR_SUCCESS).1._subscribed_topics =
        m._subscribed_topics.filter (fun s => ¬ s = t) := by
      simp [MqttClientImpl.unsubscribe_topic, MqttClientImpl.emit,
        MqttClientImpl.schedule_mqtt_tx]
    refine ⟨?_, e, ?_, ?_, ?_⟩
    · simp [MqttClientImpl.unsubscribe_topic, MqttClientImpl.emit,
        MqttClientImpl.schedule_mqtt_tx]
    · rw [e]
      simp [List.mem_filter]
    · intro s hs
      rw [e]
      simp [List.mem_filter, hs]
    · rw [e]
      exact List.filter_sublist _
  · intro h
    cases topic with
    | none => simp [MqttClientImpl.unsubscribe_topic, MqttClientImpl.log]
    | some t =>
      have hrc : rc ≠ MOSQ_ERR_SUCCESS := by
        rcases h with h | h
        · exact absurd h (by simp)
        · exact h
      simp [MqttClientImpl.unsubscribe_topic, MqttClientImpl.emit, MqttClientImpl.log, hrc]

/-- Witness of C23: `a`, `b`, `a` are subscribed, a subscribe of `c` fails,
and `a` is unsubscribed. -/
theorem subscribed_topics_record_subscribe_order_witness :
    ((((MqttClientImpl.create 5).subscribe_topic (some "a") 0).1.subscribe_topic
      (some "b") 0).1.subscribe_topic (some "a") 0).1._subscribed_topics = ["a", "b", "a"] ∧
    (((((MqttClientImpl.create 5).subscribe_topic (some "a") 0).1.subscribe_topic
      (some "b") 0).1.subscribe_topic (some "a") 0).1.subscribe_topic
        (some "c") 14).1._subscribed_topics = ["a", "b", "a"] ∧
    (((((MqttClientImpl.create 5).subscribe_topic (some "a") 0).1.subscribe_topic
      (some "b") 0).1.subscribe_topic (some "a") 0).1.unsubscribe_topic
        (some "a") 0).1._subscribed_topics = ["b"] := by
  have h1 := (subscribed_topics_record_subscribe_order (MqttClientImpl.create 5) (some "a")
    0).1 "a" rfl rfl
  have h2 := (subscribed_topics_record_subscribe_order
    ((MqttClientImpl.create 5).subscribe_topic (some "a") 0).1 (some "b") 0).1 "b" rfl rfl
  have h3 := (subscribed_topics_record_subscribe_order
    (((MqttClientImpl.create 5).subscribe_topic (some "a") 0).1.subscribe_topic
      (some "b") 0).1 (some "a") 0).1 "a" rfl rfl
  have h4 := (subscribed_topics_record_subscribe_order
    ((((MqttClientImpl.create 5).subscribe_topic (some "a") 0).1.subscribe_topic
      (some "b") 0).1.subscribe_topic (some "a") 0).1 (some "c") 14).2.1
    (Or.inr (by decide))
  have h5 := (subscribed_topics_record_subscribe_order
    ((((MqttClientImpl.create 5).subscribe_topic (some "a") 0).1.subscribe_topic
      (some "b") 0).1.subscribe_topic (some "a") 0).1 (some "a") 0).2.2.1 "a" rfl rfl
  have e3 : ((((MqttClientImpl.create 5).subscribe_topic (some "a") 0).1.subscribe_topic
      (some "b") 0).1.subscribe_topic (some "a") 0).1._subscribed_topics = ["a", "b", "a"] := by
    rw [h3.2, h2.2, h1.2]
    rfl
  refine ⟨e3, ?_, ?_⟩
  · rw [h4.2, e3]
  · rw [h5.2.1, e3]
    decide

/-! ## Log levels of cancellation completions -/

theorem timer_log_levels_append (a b : List TimerEvent) :
    timer_log_levels (a ++ b) = timer_log_levels a ++ timer_log_levels b := by
  induction a with
  | nil => rfl
  | cons e rest ih => cases e <;> simp [timer_log_levels, ih]

theorem can_log_levels_append (a b : List CanEvent) :
    can_log_levels (a ++ b) = can_log_levels a ++ can_log_levels b := by
  induction a with
  | nil => rfl
  | cons e rest ih => cases e <;> simp [can_log_levels, ih]

/-- C24, as amended: on the cancellation code the CAN read handler logs
exactly one line, a warning, which is below `ERROR` (and so does the
repeating read handler), and the UDP receive handler logs nothing: neither
emits a log entry at level `ERROR` or above. The Timer's wait handler on
`operation_aborted` logs exactly one line, at level `ERROR`. -/
theorem cancellation_log_levels (code : Nat → List TimerCall) (t : Timer)
    (behave : Nat → List Nat → Outcome) (c : CanImpl) (bytes_transferred : Nat)
    (frame : List Nat) (h : Option Nat)
    (udp_behave : Nat → List Nat → Nat → List Nat × Outcome) (u : UdpClientImpl) (n : Nat)
    (recv_error : error_code) :
    timer_log_levels (t.timer_callback code operation_aborted).trace =
      timer_log_levels t.trace ++ [LogLevel.ERROR] ∧
    can_log_levels (c.handle_read behave operation_canceled bytes_transferred frame h).1.trace =
      can_log_levels c.trace ++ [LogLevel.WARN] ∧
    can_log_levels
      (c.handle_read_repeat behave operation_canceled bytes_transferred frame h).1.trace =
      can_log_levels c.trace ++ [LogLevel.WARN] ∧
    LogLevel.WARN.toNat < LogLevel.ERROR.toNat ∧
    udp_log_levels (UdpClientImpl.receive_handler udp_behave operation_aborted n recv_error
      u).1.trace = udp_log_levels u.trace := by
  refine ⟨?_, ?_, ?_, by decide, ?_⟩
  · simp [Timer.timer_callback, Timer.lock, Timer.unlock, operation_aborted,
      timer_log_levels_append, timer_log_levels]
  · simp [CanImpl.handle_read, operation_canceled, CanImpl.log, can_log_levels_append,
      can_log_levels]
  · rw [CanImpl.handle_read_repeat_canceled]
    simp [can_log_levels_append, can_log_levels]
  · simp [UdpClientImpl.receive_handler]

/-- C24, the claim as stated fails: a timer is started and stopped; the
completion of its cancelled wait makes the wait handler log one line at level
`ERROR`, not at trace level. -/
theorem timer_logs_cancellation_as_error :
    ((Timer.create ⟨some 0, 10, 0⟩).start.stop.complete (fun _ => []) 0).trace =
      [TimerEvent.async_wait 0 10, TimerEvent.log LogLevel.ERROR] ∧
    timer_log_levels ((Timer.create ⟨some 0, 10, 0⟩).start.stop.complete (fun _ => []) 0).trace =
      [LogLevel.ERROR] ∧
    ¬ (∀ l ∈ timer_log_levels
        ((Timer.create ⟨some 0, 10, 0⟩).start.stop.complete (fun _ => []) 0).trace,
        l.toNat < LogLevel.ERROR.toNat) := by
  decide

/-! ## CAN adapter: outstanding reads -/

/-- C21, the code at the failing input: on a new adapter
`register_read_callback` is called twice. The second call cancels the read
of the first and issues its own; when the cancelled read completes,
`handle_read_repeat` issues one more (see C15): two repeating reads are then
outstanding on the stream, neither of them cancelled. -/
theorem second_register_leaves_two_reads (behave : Nat → List Nat → Outcome)
    (h1 h2 : Option Nat) (err : error_code) (n : Nat) (frame : List Nat) :
    ((CanImpl.create.register_read_callback h1).register_read_callback h2).reads =
      [⟨ReadLambda.repeating, true⟩, ⟨ReadLambda.repeating, false⟩] ∧
    (((CanImpl.create.register_read_callback h1).register_read_callback h2).complete_read
      behave 0 err n frame).2 = Outcome.returned ∧
    (((CanImpl.create.register_read_callback h1).register_read_callback h2).complete_read
      behave 0 err n frame).1.reads =
      [⟨ReadLambda.repeating, false⟩, ⟨ReadLambda.repeating, false⟩] ∧
    (((CanImpl.create.register_read_callback h1).register_read_callback h2).complete_read
      behave 0 err n frame).1.repeating_reads.length = 2 ∧
    read_handlers_invoked
      (((CanImpl.create.register_read_callback h1).register_read_callback h2).complete_read
        behave 0 err n frame).1.trace = [] := by
  have e : ((CanImpl.create.register_read_callback h1).register_read_callback h2).complete_read
      behave 0 err n frame =
      ({ _can_read_cb := h2,
         reads := [⟨ReadLambda.repeating, false⟩, ⟨ReadLambda.repeating, false⟩],
         writes := [],
         trace := [CanEvent.cancel, CanEvent.async_read, CanEvent.cancel, CanEvent.async_read,
           CanEvent.log LogLevel.WARN, CanEvent.async_read] }, Outcome.returned) := by
    rw [CanImpl.register_twice]
    simp only [CanImpl.complete_read, CanImpl.create, List.map_nil, List.nil_append,
      List.get?_cons_zero, if_true, List.eraseIdx_cons_zero]
    rw [CanImpl.handle_read_repeat_canceled]
    rfl
  rw [e, CanImpl.register_twice]
  exact ⟨rfl, rfl, rfl, by simp [CanImpl.repeating_reads], by simp [read_handlers_invoked]⟩

/-! ## string_util: address and port -/

theorem string_find_some (c : Char) :
    ∀ (s : List Char) (n : Nat), string_find c s = some n →
      s = s.take n ++ c :: s.drop (n + 1) ∧ c ∉ s.take n := by
  intro s
  induction s with
  | nil => intro n h; simp [string_find] at h
  | cons x rest ih =>
    intro n h
    unfold string_find at h
    by_cases hx : x = c
    · simp only [hx, if_true, Option.some.injEq] at h
      subst h
      simp [hx]
    · simp only [hx, if_false, Option.map_eq_some'] at h
      obtain ⟨k, hk, rfl⟩ := h
      obtain ⟨i1, i2⟩ := ih k hk
      constructor
      · simp only [List.take_succ_cons, List.drop_succ_cons, List.cons_append]
        rw [← i1]
      · simp only [List.take_succ_cons, List.mem_cons, not_or]
        exact ⟨fun e => hx e.symm, i2⟩

theorem string_find_append (c : Char) :
    ∀ (a r : List Char), c ∉ a → string_find c (a ++ c :: r) = some a.length := by
  intro a
  induction a with
  | nil => intro r _; simp [string_find]
  | cons x rest ih =>
    intro r h
    simp only [List.mem_cons, not_or] at h
    have hx : ¬ x = c := fun e => h.1 e.symm
    simp [string_find, hx, ih r h.2]

theorem from_chars_uint32_ok (s : List Char) (v : Nat) :
    ((from_chars_uint32 s v).2.1 = errc.ok ∧ (from_chars_uint32 s v).1 = s.length) ↔
      (s ≠ [] ∧ (∀ c ∈ s, c.isDigit = true) ∧ digits_value s ≤ UINT32_MAX) := by
  constructor
  · intro ⟨hok, hlen⟩
    unfold from_chars_uint32 at hok hlen
    by_cases hd : s.takeWhile Char.isDigit = []
    · simp [hd] at hok
    · by_cases hv : digits_value (s.takeWhile Char.isDigit) > UINT32_MAX
      · simp [hd, hv] at hok
      · simp only [hd, hv, if_false] at hlen
        have he : s.takeWhile Char.isDigit = s :=
          (List.takeWhile_prefix Char.isDigit).eq_of_length hlen
        refine ⟨fun e => hd (by rw [e]; rfl), ?_, ?_⟩
        · exact List.takeWhile_eq_self_iff.mp he
        · rw [he] at hv
          omega
  · intro ⟨hne, hall, hv⟩
    have he : s.takeWhile Char.isDigit = s := List.takeWhile_eq_self_iff.mpr hall
    have hv' : ¬ digits_value s > UINT32_MAX := by omega
    unfold from_chars_uint32
    simp [he, hne, hv']

theorem from_chars_uint32_value (s : List Char) (v : Nat)
    (h : s ≠ [] ∧ (∀ c ∈ s, c.isDigit = true) ∧ digits_value s ≤ UINT32_MAX) :
    (from_chars_uint32 s v).2.2 = digits_value s := by
  have he : s.takeWhile Char.isDigit = s := List.takeWhile_eq_self_iff.mpr h.2.1
  have hv' : ¬ digits_value s > UINT32_MAX := by omega
  unfold from_chars_uint32
  simp [he, h.1, hv']

theorem split_url_parts (url : List Char) (n : Nat) :
    string_substr 0 n url = url.take n ∧
    string_substr (n + 1) (url.length - n) url = url.drop (n + 1) := by
  constructor
  · simp [string_substr]
  · unfold string_substr
    apply List.take_of_length_le
    simp only [List.length_drop]
    omega

/-- C25: `split_url_into_address_and_port(url)` returns the pair
`(address, port)` if and only if `url` is `address`, a `':'` and a run of
digits, where `address` is not empty and contains no `':'` (it is the text
before the first `':'`), the run is all that follows the `':'`, is not empty,
consists of decimal digits only, and writes the number `port`, which is at
most 4294967295. So no colon, an empty address, an empty port, a sign or any
other non-digit after the colon, a second colon, or a value above 4294967295
give no result; the examples at the end show each of these. -/
theorem split_url_returns_address_and_port_iff (url address : List Char) (port : Nat) :
    (split_url_into_address_and_port url = some (address, port) ↔
      address ≠ [] ∧ ':' ∉ address ∧
      ∃ digits : List Char,
        url = address ++ ':' :: digits ∧ digits ≠ [] ∧
        (∀ c ∈ digits, c.isDigit = true) ∧
        digits_value digits = port ∧ port ≤ UINT32_MAX) ∧
    UINT32_MAX = 2 ^ 32 - 1 ∧
    split_url_into_address_and_port "localhost:1883".toList = some ("localhost".toList, 1883) ∧
    split_url_into_address_and_port "h:0080".toList = some ("h".toList, 80) ∧
    split_url_into_address_and_port "h:4294967295".toList = some ("h".toList, 4294967295) ∧
    split_url_into_address_and_port "h:4294967296".toList = none ∧
    split_url_into_address_and_port "localhost".toList = none ∧
    split_url_into_address_and_port ":1883".toList = none ∧
    split_url_into_address_and_port "h:".toList = none ∧
    split_url_into_address_and_port "h:+80".toList = none ∧
    split_url_into_address_and_port "h:-80".toList = none ∧
    split_url_into_address_and_port "h: 80".toList = none ∧
    split_url_into_address_and_port "h:80a".toList = none ∧
    split_url_into_address_and_port "h:80:1".toList = none := by
  refine ⟨?_, by decide, by decide, by decide, by decide, by decide, by decide, by decide,
    by decide, by decide, by decide, by decide, by decide, by decide⟩
  constructor
  · intro h
    unfold split_url_into_address_and_port at h
    cases hf : string_find ':' url with
    | none => simp [hf] at h
    | some n =>
      obtain ⟨p1, p2⟩ := split_url_parts url n
      obtain ⟨f1, f2⟩ := string_find_some ':' url n hf
      simp only [hf, p1, p2] at h
      split_ifs at h with hc
      simp only [Option.some.injEq, Prod.mk.injEq] at h
      obtain ⟨ha, hp⟩ := h
      have hok := (from_chars_uint32_ok (url.drop (n + 1)) 0).mp ⟨hc.2.1, hc.2.2⟩
      have hval := from_chars_uint32_value (url.drop (n + 1)) 0 hok
      subst ha
      refine ⟨?_, f2, url.drop (n + 1), f1, hok.1, hok.2.1, ?_, ?_⟩
      · intro e
        exact hc.1 (by rw [e]; rfl)
      · rw [← hp, hval]
      · rw [← hp, hval]
        exact hok.2.2
  · intro ⟨hne, hnc, digits, hurl, hd, hall, hval, hmax⟩
    have hf : string_find ':' url = some address.length := by
      rw [hurl]
      exact string_find_append ':' address digits hnc
    obtain ⟨p1, p2⟩ := split_url_parts url address.length
    have t1 : url.take address.length = address := by
      rw [hurl]
      simp
    have t2 : url.drop (address.length + 1) = digits := by
      rw [hurl]
      simp
    have hcond : digits ≠ [] ∧ (∀ c ∈ digits, c.isDigit = true) ∧
        digits_value digits ≤ UINT32_MAX := ⟨hd, hall, by rw [hval]; exact hmax⟩
    have hok := (from_chars_uint32_ok digits 0).mpr hcond
    have hv := from_chars_uint32_value digits 0 hcond
    have hlen : address.length ≠ 0 := fun e => hne (List.length_eq_zero.mp e)
    unfold split_url_into_address_and_port
    simp only [hf, p1, p2, t1, t2]
    rw [if_pos ⟨hlen, hok.1, hok.2⟩, hv, hval]

/-! ## Timer: the handle and the waits in reachable states -/

theorem list_get?_set_self {α : Type} (a : α) :
    ∀ (l : List α) (i : Nat) (w : α), l.get? i = some w → (l.set i a).get? i = some a
  | [], _, _, h => by simp at h
  | _ :: _, 0, _, _ => by simp
  | _ :: l, i + 1, w, h => by
    simp only [List.get?_cons_succ] at h
    simp only [List.set_cons_succ, List.get?_cons_succ]
    exact list_get?_set_self a l i w h

theorem list_set_eraseIdx {α : Type} (a : α) :
    ∀ (l : List α) (i : Nat), (l.set i a).eraseIdx i = l.eraseIdx i
  | [], _ => by simp
  | _ :: _, 0 => by simp
  | x :: l, i + 1 => by
    simp only [List.set_cons_succ, List.eraseIdx_cons_succ]
    rw [list_set_eraseIdx a l i]

theorem filter_set_length_le {α : Type} (p : α → Bool) (a : α) (ha : p a = false) :
    ∀ (l : List α) (i : Nat), ((l.set i a).filter p).length ≤ (l.filter p).length
  | [], _ => by simp
  | x :: l, 0 => by
    cases hx : p x <;> simp [List.filter_cons, ha, hx]
  | x :: l, i + 1 => by
    have ih := filter_set_length_le p a ha l i
    cases hx : p x <;> simp [List.filter_cons, hx, ih]

theorem filter_eraseIdx_of_not {α : Type} (p : α → Bool) :
    ∀ (l : List α) (i : Nat) (w : α), l.get? i = some w → p w = false →
      (l.eraseIdx i).filter p = l.filter p
  | [], _, _, h, _ => by simp at h
  | x :: l, 0, w, h, hw => by
    simp only [List.get?_cons_zero, Option.some.injEq] at h
    subst h
    simp [List.filter_cons, hw]
  | x :: l, i + 1, w, h, hw => by
    simp only [List.get?_cons_succ] at h
    simp only [List.eraseIdx_cons_succ, List.filter_cons]
    rw [filter_eraseIdx_of_not p l i w h hw]

theorem steady_timer_cancel_expired {h : Nat} {waits : List Wait} {w : Wait}
    (hw : w ∈ steady_timer_cancel h waits) (he : w.status = WaitStatus.expired) :
    w ∈ waits := by
  unfold steady_timer_cancel at hw
  rw [List.mem_map] at hw
  obtain ⟨v, hv, rfl⟩ := hw
  by_cases c : v.handle = h ∧ v.status = WaitStatus.pending
  · simp [c] at he
  · simp only [c, if_false]
    exact hv

theorem Timer.timer_async_wait_no_expired {t : Timer} (b : Bool)
    (hn : ∀ w ∈ t.waits, w.status ≠ WaitStatus.expired) :
    ∀ w ∈ (t.timer_async_wait b).waits, w.status ≠ WaitStatus.expired := by
  unfold Timer.timer_async_wait
  cases ht : t._timer with
  | none => simpa using hn
  | some h =>
    intro w hw he
    simp only [List.mem_append, List.mem_singleton] at hw
    rcases hw with hw | rfl
    · exact hn w (steady_timer_cancel_expired hw he) he
    · exact WaitStatus.noConfusion he

theorem Timer.reset_timer_no_expired {t : Timer}
    (hn : ∀ w ∈ t.waits, w.status ≠ WaitStatus.expired) :
    ∀ w ∈ t.reset_timer.waits, w.status ≠ WaitStatus.expired := by
  unfold Timer.reset_timer
  cases ht : t._timer with
  | none => simpa using hn
  | some h =>
    intro w hw he
    exact hn w (steady_timer_cancel_expired hw he) he

theorem Timer.start_noLock_no_expired {t : Timer}
    (hn : ∀ w ∈ t.waits, w.status ≠ WaitStatus.expired) :
    ∀ w ∈ t.start_noLock.waits, w.status ≠ WaitStatus.expired := by
  unfold Timer.start_noLock
  split_ifs
  · apply Timer.timer_async_wait_no_expired
    exact hn
  · exact hn

theorem Timer.stop_no_lock_no_expired {t : Timer}
    (hn : ∀ w ∈ t.waits, w.status ≠ WaitStatus.expired) :
    ∀ w ∈ t.stop_no_lock.waits, w.status ≠ WaitStatus.expired := by
  rw [Timer.stop_no_lock_eq_reset_timer]
  exact Timer.reset_timer_no_expired hn

theorem Timer.call_no_expired {t : Timer} (c : TimerCall)
    (hn : ∀ w ∈ t.waits, w.status ≠ WaitStatus.expired) :
    ∀ w ∈ (t.call c).waits, w.status ≠ WaitStatus.expired := by
  cases c with
  | start =>
    have := Timer.start_noLock_no_expired (t := t.lock) hn
    exact this
  | stop =>
    have := Timer.stop_no_lock_no_expired (t := t.lock) hn
    exact this
  | restart =>
    have h1 := Timer.stop_no_lock_no_expired (t := t.lock) hn
    have := Timer.start_noLock_no_expired h1
    exact this
  | restart_with cb s p =>
    have h1 := Timer.stop_no_lock_no_expired (t := t.lock) hn
    have := Timer.start_noLock_no_expired
      (t := { t.lock.stop_no_lock with _callback := cb, _start_interval_msec := s,
                                       _periodic_interval_msec := p }) h1
    exact this
  | set_start_interval_msec m => exact hn
  | set_periodic_interval_msec m => exact hn
  | set_callback cb => exact hn

theorem Timer.start_pending {t : Timer} (hwf : t.WF) (hs : t._timer = none) :
    t.start._timer = some t.next_handle ∧
    t.start.pending_waits = [⟨t.next_handle, t._start_interval_msec, WaitStatus.pending⟩] := by
  have hnp := hwf.pending_waits_of_stopped hs
  unfold Timer.pending_waits at hnp
  rw [Timer.start_of_stopped hwf hs]
  exact ⟨rfl, by simp [Timer.pending_waits, List.filter_append, hnp]⟩

/-- What a call of a member function does to the handle and the pending
waits: nothing, or the timer has no handle afterwards, or it has a handle with
exactly one pending wait. -/
theorem Timer.call_pending {t : Timer} (hwf : t.WF) (c : TimerCall) :
    ((t.call c)._timer = t._timer ∧ (t.call c).waits = t.waits) ∨
    (t.call c)._timer = none ∨
    ∃ h msec, (t.call c)._timer = some h ∧
      (t.call c).pending_waits = [⟨h, msec, WaitStatus.pending⟩] := by
  cases c with
  | start =>
    cases hs : t._timer with
    | none =>
      have := Timer.start_pending hwf hs
      exact Or.inr (Or.inr ⟨_, _, this.1, this.2⟩)
    | some k =>
      have e : t.start = t := Timer.start_of_started (by rw [hs]; exact Option.noConfusion)
      refine Or.inl ?_
      show t.start._timer = some k ∧ t.start.waits = t.waits
      rw [e]
      exact ⟨hs, rfl⟩
  | stop => exact Or.inr (Or.inl t.stop_stopped)
  | restart =>
    have := Timer.start_pending hwf.stop t.stop_stopped
    rw [← Timer.restart_eq_stop_start] at this
    exact Or.inr (Or.inr ⟨_, _, this.1, this.2⟩)
  | restart_with cb s p =>
    have hwf2 : Timer.WF
        (((t.stop.set_callback cb).set_start_interval_msec s).set_periodic_interval_msec p) :=
      hwf.stop
    have := Timer.start_pending hwf2 t.stop_stopped
    rw [← Timer.restart_with_eq] at this
    exact Or.inr (Or.inr ⟨_, _, this.1, this.2⟩)
  | set_start_interval_msec m => exact Or.inl ⟨rfl, rfl⟩
  | set_periodic_interval_msec m => exact Or.inl ⟨rfl, rfl⟩
  | set_callback cb => exact Or.inl ⟨rfl, rfl⟩

theorem Timer.timer_callback_no_handle (code : Nat → List TimerCall) (ec : error_code)
    (t : Timer) (hs : t._timer = none) :
    (t.timer_callback code ec)._timer = none ∧ (t.timer_callback code ec).waits = t.waits := by
  obtain ⟨cb, s, p, tm, m, n, w, tr⟩ := t
  simp only at hs
  subst hs
  unfold Timer.timer_callback
  simp only [Timer.lock]
  split_ifs <;> simp_all [Timer.unlock]

theorem Timer.timer_callback_aborted (code : Nat → List TimerCall) (t : Timer) :
    (t.timer_callback code operation_aborted)._timer = t._timer ∧
    (t.timer_callback code operation_aborted).waits = t.waits := by
  unfold Timer.timer_callback
  simp [operation_aborted, Timer.lock, Timer.unlock]

/-- After the wait handler has run with a code other than `operation_aborted`
the timer has no handle, or it has a handle with exactly one pending wait. -/
theorem Timer.timer_callback_pending (code : Nat → List TimerCall) (ec : error_code)
    (hec : ec ≠ operation_aborted) {t : Timer} (hwf : t.WF) :
    (t.timer_callback code ec)._timer = none ∨
    ∃ h msec, (t.timer_callback code ec)._timer = some h ∧
      (t.timer_callback code ec).pending_waits = [⟨h, msec, WaitStatus.pending⟩] := by
  by_cases hh : t._timer = none
  · exact Or.inl (Timer.timer_callback_no_handle code ec t hh).1
  · by_cases hc : (t.fire_callback_state code ec)._periodic_interval_msec > 0 ∧
        (t.fire_callback_state code ec)._timer ≠ none
    · obtain ⟨h, ht⟩ := Option.ne_none_iff_exists'.mp hc.2
      have := Timer.timer_callback_rearm code t ec hh hec hwf h hc.1 ht
      exact Or.inr ⟨_, _, this.1, this.2.2.2.1⟩
    · exact Or.inl (Timer.timer_callback_discard code t ec hh hec hwf hc).1

theorem Timer.run_body_no_expired (body : List TimerCall) :
    ∀ {t : Timer}, (∀ w ∈ t.waits, w.status ≠ WaitStatus.expired) →
      ∀ w ∈ (t.run_body body).waits, w.status ≠ WaitStatus.expired := by
  induction body with
  | nil => intro t hn; exact hn
  | cons c rest ih => intro t hn; exact ih (Timer.call_no_expired c hn)

theorem Timer.call_callback_no_expired (code : Nat → List TimerCall) {t : Timer}
    (hn : ∀ w ∈ t.waits, w.status ≠ WaitStatus.expired) :
    ∀ w ∈ (t.call_callback code).waits, w.status ≠ WaitStatus.expired := by
  unfold Timer.call_callback
  cases t._callback with
  | none => exact hn
  | some cb =>
    apply Timer.run_body_no_expired
    exact hn

theorem Timer.timer_callback_no_expired (code : Nat → List TimerCall) (ec : error_code)
    {t : Timer} (hn : ∀ w ∈ t.waits, w.status ≠ WaitStatus.expired) :
    ∀ w ∈ (t.timer_callback code ec).waits, w.status ≠ WaitStatus.expired := by
  have hl : ∀ w ∈ t.lock.waits, w.status ≠ WaitStatus.expired := hn
  have hl2 : ∀ w ∈ (Timer.waits { t.lock with trace := t.lock.trace ++
      [TimerEvent.log LogLevel.ERROR] }), w.status ≠ WaitStatus.expired := hn
  unfold Timer.timer_callback
  simp only
  split_ifs
  · exact hn
  · exact Timer.timer_async_wait_no_expired false (Timer.call_callback_no_expired code hl2)
  · exact Timer.reset_timer_no_expired (Timer.call_callback_no_expired code hl2)
  · exact hn
  · exact Timer.timer_async_wait_no_expired false (Timer.call_callback_no_expired code hl)
  · exact Timer.reset_timer_no_expired (Timer.call_callback_no_expired code hl)
  · exact hn

theorem Timer.fire_of_none (code : Nat → List TimerCall) {i : Nat} {t : Timer}
    (hg : t.waits.get? i = none) : t.fire code i = t := by
  have e : t.expire i = t := by
    unfold Timer.expire
    simp only [hg]
  unfold Timer.fire
  rw [e]
  unfold Timer.complete
  simp only [hg]

theorem Timer.fire_of_pending (code : Nat → List TimerCall) {i : Nat} {t : Timer} {w : Wait}
    (hg : t.waits.get? i = some w) (hp : w.status = WaitStatus.pending) :
    t.fire code i = Timer.timer_callback code 0 { t with waits := t.waits.eraseIdx i } := by
  have e : t.expire i =
      { t with waits := t.waits.set i { w with status := WaitStatus.expired } } := by
    unfold Timer.expire
    simp only [hg, hp, if_true]
  unfold Timer.fire
  rw [e]
  unfold Timer.complete
  simp only [list_get?_set_self _ _ _ _ hg, list_set_eraseIdx]

theorem Timer.fire_of_aborted (code : Nat → List TimerCall) {i : Nat} {t : Timer} {w : Wait}
    (hg : t.waits.get? i = some w) (ha : w.status = WaitStatus.aborted) :
    t.fire code i =
      Timer.timer_callback code operation_aborted { t with waits := t.waits.eraseIdx i } := by
  have e : t.expire i = t := by
    unfold Timer.expire
    simp only [hg, ha]
    rfl
  unfold Timer.fire
  rw [e]
  unfold Timer.complete
  simp only [hg, ha]

/-- In every state outside a fire at most one wait is pending. -/
theorem Timer.Reachable.pending_le {code : Nat → List TimerCall} {t : Timer}
    (h : Timer.Reachable code t) : t.pending_waits.length ≤ 1 := by
  induction h with
  | create config => simp [Timer.pending_waits, Timer.create]
  | @call t c hr ih =>
    rcases Timer.call_pending hr.wf c with ⟨_, hw⟩ | hn | ⟨k, msec, _, hp⟩
    · unfold Timer.pending_waits at ih ⊢
      rw [hw]
      exact ih
    · rw [(hr.wf.call c).pending_waits_of_stopped hn]
      exact Nat.zero_le 1
    · rw [hp]
      exact Nat.le_refl 1
  | @expire t i hr ih =>
    unfold Timer.expire
    cases hg : t.waits.get? i with
    | none => exact ih
    | some w =>
      simp only
      split_ifs with hp
      · refine Nat.le_trans ?_ ih
        unfold Timer.pending_waits
        exact filter_set_length_le _ _ (by simp) t.waits i
      · exact ih
  | @complete t i hr ih =>
    have hle : (Timer.pending_waits { t with waits := t.waits.eraseIdx i }).length ≤ 1 := by
      refine Nat.le_trans ?_ ih
      unfold Timer.pending_waits
      exact ((List.eraseIdx_sublist t.waits i).filter _).length_le
    unfold Timer.complete
    cases hg : t.waits.get? i with
    | none => exact ih
    | some w =>
      simp only
      cases hs : w.status with
      | pending => exact ih
      | expired =>
        simp only
        rcases Timer.timer_callback_pending code 0 (by decide) (hr.wf.erase_wait i) with
          hn | ⟨k, msec, _, hp⟩
        · rw [((hr.wf.erase_wait i).timer_callback code 0).pending_waits_of_stopped hn]
          exact Nat.zero_le 1
        · rw [hp]
          exact Nat.le_refl 1
      | aborted =>
        simp only
        have := Timer.timer_callback_aborted code { t with waits := t.waits.eraseIdx i }
        unfold Timer.pending_waits at hle ⊢
        rw [this.2]
        exact hle

theorem Timer.ReachableAtomic.reachable {code : Nat → List TimerCall} {t : Timer}
    (h : Timer.ReachableAtomic code t) : Timer.Reachable code t := by
  induction h with
  | create config => exact Timer.Reachable.create config
  | call c _ ih => exact Timer.Reachable.call c ih
  | fire i _ ih => exact Timer.Reachable.complete i (Timer.Reachable.expire i ih)

/-- When every wait handler runs as soon as its wait completes, no
outstanding wait is in the expired state between two steps. -/
theorem Timer.ReachableAtomic.no_expired {code : Nat → List TimerCall} {t : Timer}
    (h : Timer.ReachableAtomic code t) : ∀ w ∈ t.waits, w.status ≠ WaitStatus.expired := by
  induction h with
  | create config => simp [Timer.create]
  | call c _ ih => exact Timer.call_no_expired c ih
  | @fire t i hr ih =>
    have he : ∀ w ∈ (Timer.waits { t with waits := t.waits.eraseIdx i }),
        w.status ≠ WaitStatus.expired :=
      fun w hw => ih w (List.mem_of_mem_eraseIdx hw)
    cases hg : t.waits.get? i with
    | none =>
      rw [Timer.fire_of_none code hg]
      exact ih
    | some w =>
      cases hs : w.status with
      | pending =>
        rw [Timer.fire_of_pending code hg hs]
        exact Timer.timer_callback_no_expired code 0 he
      | expired => exact absurd hs (ih w (List.get?_mem hg))
      | aborted =>
        rw [Timer.fire_of_aborted code hg hs]
        exact Timer.timer_callback_no_expired code operation_aborted he

/-- When every wait handler runs as soon as its wait completes, a timer with
a handle has exactly one pending wait, on that handle. -/
theorem Timer.ReachableAtomic.pending_exact {code : Nat → List TimerCall} {t : Timer}
    (h : Timer.ReachableAtomic code t) :
    ∀ k, t._timer = some k → ∃ msec, t.pending_waits = [⟨k, msec, WaitStatus.pending⟩] := by
  induction h with
  | create config =>
    intro k hk
    exact Option.noConfusion hk
  | @call t c hr ih =>
    intro k hk
    rcases Timer.call_pending hr.reachable.wf c with ⟨ht, hw⟩ | hn | ⟨j, msec, hj, hp⟩
    · obtain ⟨msec, hm⟩ := ih k (ht ▸ hk)
      refine ⟨msec, ?_⟩
      unfold Timer.pending_waits at hm ⊢
      rw [hw]
      exact hm
    · rw [hn] at hk
      exact Option.noConfusion hk
    · rw [hj] at hk
      cases hk
      exact ⟨msec, hp⟩
  | @fire t i hr ih =>
    intro k hk
    cases hg : t.waits.get? i with
    | none =>
      rw [Timer.fire_of_none code hg] at hk ⊢
      exact ih k hk
    | some w =>
      cases hs : w.status with
      | pending =>
        rw [Timer.fire_of_pending code hg hs] at hk ⊢
        rcases Timer.timer_callback_pending code 0 (by decide) (hr.reachable.wf.erase_wait i) with
          hn | ⟨j, msec, hj, hp⟩
        · rw [hn] at hk
          exact Option.noConfusion hk
        · rw [hj] at hk
          cases hk
          exact ⟨msec, hp⟩
      | expired => exact absurd hs (hr.no_expired w (List.get?_mem hg))
      | aborted =>
        rw [Timer.fire_of_aborted code hg hs] at hk ⊢
        have e := Timer.timer_callback_aborted code { t with waits := t.waits.eraseIdx i }
        rw [e.1] at hk
        obtain ⟨msec, hm⟩ := ih k hk
        refine ⟨msec, ?_⟩
        unfold Timer.pending_waits at hm ⊢
        rw [e.2]
        show (t.waits.eraseIdx i).filter _ = _
        rw [filter_eraseIdx_of_not _ t.waits i w hg (by simp [hs])]
        exact hm

theorem Timer.uncancelled_waits_of_no_expired {t : Timer}
    (hn : ∀ w ∈ t.waits, w.status ≠ WaitStatus.expired) :
    t.uncancelled_waits = t.pending_waits := by
  unfold Timer.uncancelled_waits Timer.pending_waits
  apply List.filter_congr
  intro w hw
  have := hn w hw
  cases hs : w.status <;> simp_all

/-- C22, as amended: in every timer state reachable from a newly created
timer by calls of the member functions, deadlines passing and runs of wait
handlers (also when the callback re-enters `stop` or `restart`),
`is_started()` is true iff the handle is present, a timer without a handle has
no pending wait, and a timer with a handle has at most one pending wait, which
is on that handle. When every wait handler runs as soon as its wait completes,
a timer without a handle has no uncancelled outstanding wait and a timer with
a handle has exactly one, which is pending on that handle. -/
theorem timer_handle_and_waits_invariant (code : Nat → List TimerCall) (t : Timer) :
    (Timer.Reachable code t →
      (t.is_started = true ↔ t._timer ≠ none) ∧
      (t._timer = none → t.pending_waits = []) ∧
      (∀ h, t._timer = some h →
        t.pending_waits.length ≤ 1 ∧ ∀ w ∈ t.pending_waits, w.handle = h)) ∧
    (Timer.ReachableAtomic code t →
      (t.is_started = true ↔ t._timer ≠ none) ∧
      (t._timer = none → t.uncancelled_waits = []) ∧
      (∀ h, t._timer = some h →
        ∃ msec, t.uncancelled_waits = [⟨h, msec, WaitStatus.pending⟩])) := by
  have hs : t.is_started = true ↔ t._timer ≠ none := by
    unfold Timer.is_started
    cases t._timer <;> simp
  refine ⟨fun hr => ⟨hs, hr.wf.pending_waits_of_stopped, ?_⟩, fun hr => ⟨hs, ?_, ?_⟩⟩
  · intro h ht
    refine ⟨hr.pending_le, ?_⟩
    intro w hw
    unfold Timer.pending_waits at hw
    rw [List.mem_filter] at hw
    have := hr.wf.2.2 w hw.1 (by simpa using hw.2)
    rw [ht] at this
    exact (Option.some.inj this).symm
  · intro ht
    rw [Timer.uncancelled_waits_of_no_expired hr.no_expired]
    exact hr.reachable.wf.pending_waits_of_stopped ht
  · intro h ht
    rw [Timer.uncancelled_waits_of_no_expired hr.no_expired]
    exact hr.pending_exact h ht

/-- C22, an instance: a periodic timer whose callback calls `restart()`, after
`start()` and one fire, has the handle that `restart` created, reports started
and has exactly one uncancelled wait, the one rescheduled with the period;
and after `start()` and the passing of the deadline alone it has at most one
pending wait. -/
theorem timer_handle_and_waits_invariant_witness :
    Timer.ReachableAtomic (fun _ => [TimerCall.restart])
      (((Timer.create ⟨some 0, 10, 100⟩).call TimerCall.start).fire
        (fun _ => [TimerCall.restart]) 0) ∧
    (((Timer.create ⟨some 0, 10, 100⟩).call TimerCall.start).fire
      (fun _ => [TimerCall.restart]) 0)._timer = some 1 ∧
    (((Timer.create ⟨some 0, 10, 100⟩).call TimerCall.start).fire
      (fun _ => [TimerCall.restart]) 0).is_started = true ∧
    (∃ msec, (((Timer.create ⟨some 0, 10, 100⟩).call TimerCall.start).fire
      (fun _ => [TimerCall.restart]) 0).uncancelled_waits = [⟨1, msec, WaitStatus.pending⟩]) ∧
    (((Timer.create ⟨some 0, 10, 100⟩).call TimerCall.start).fire
      (fun _ => [TimerCall.restart]) 0).uncancelled_waits = [⟨1, 100, WaitStatus.pending⟩] ∧
    Timer.Reachable (fun _ => [TimerCall.restart])
      (((Timer.create ⟨some 0, 10, 100⟩).call TimerCall.start).expire 0) ∧
    (((Timer.create ⟨some 0, 10, 100⟩).call TimerCall.start).expire 0).pending_waits.length ≤ 1 :=
  ⟨Timer.ReachableAtomic.fire 0
      (Timer.ReachableAtomic.call TimerCall.start (Timer.ReachableAtomic.create _)),
    by decide,
    ((timer_handle_and_waits_invariant (fun _ => [TimerCall.restart]) _).2
      (Timer.ReachableAtomic.fire 0
        (Timer.ReachableAtomic.call TimerCall.start (Timer.ReachableAtomic.create _)))).1.mpr
      (by decide),
    ((timer_handle_and_waits_invariant (fun _ => [TimerCall.restart]) _).2
      (Timer.ReachableAtomic.fire 0
        (Timer.ReachableAtomic.call TimerCall.start (Timer.ReachableAtomic.create _)))).2.2 1
      (by decide),
    by decide,
    Timer.Reachable.expire 0 (Timer.Reachable.call TimerCall.start (Timer.Reachable.create _)),
    (((timer_handle_and_waits_invariant (fun _ => [TimerCall.restart]) _).1
      (Timer.Reachable.expire 0
        (Timer.Reachable.call TimerCall.start (Timer.Reachable.create _)))).2.2 0
      (by decide)).1⟩

/-- C22 as stated fails once a deadline has passed and the handler has not
run yet: after `start()` and the passing of the deadline the timer has its
handle and no pending wait; after a `stop()` at that moment it has no handle
while the expired wait, whose handler will run with a success code, is still
outstanding and was not cancelled; and after a further `start()`, the passing
of the new deadline and the run of the first handler, the timer has one
handle and two uncancelled waits on it. All three states are reachable. -/
theorem expired_wait_breaks_handle_invariant :
    Timer.Reachable (fun _ => []) ((Timer.create ⟨some 0, 10, 100⟩).start.expire 0) ∧
    ((Timer.create ⟨some 0, 10, 100⟩).start.expire 0)._timer = some 0 ∧
    ((Timer.create ⟨some 0, 10, 100⟩).start.expire 0).is_started = true ∧
    ((Timer.create ⟨some 0, 10, 100⟩).start.expire 0).pending_waits = [] ∧
    Timer.Reachable (fun _ => []) ((Timer.create ⟨some 0, 10, 100⟩).start.expire 0).stop ∧
    ((Timer.create ⟨some 0, 10, 100⟩).start.expire 0).stop._timer = none ∧
    ((Timer.create ⟨some 0, 10, 100⟩).start.expire 0).stop.is_started = false ∧
    ((Timer.create ⟨some 0, 10, 100⟩).start.expire 0).stop.uncancelled_waits =
      [⟨0, 10, WaitStatus.expired⟩] ∧
    Timer.Reachable (fun _ => [])
      ((((Timer.create ⟨some 0, 10, 100⟩).start.expire 0).stop.start.expire 1).complete
        (fun _ => []) 0) ∧
    ((((Timer.create ⟨some 0, 10, 100⟩).start.expire 0).stop.start.expire 1).complete
      (fun _ => []) 0)._timer = some 1 ∧
    ((((Timer.create ⟨some 0, 10, 100⟩).start.expire 0).stop.start.expire 1).complete
      (fun _ => []) 0).uncancelled_waits =
      [⟨1, 10, WaitStatus.expired⟩, ⟨1, 100, WaitStatus.pending⟩] :=
  ⟨Timer.Reachable.expire 0 (Timer.Reachable.call TimerCall.start (Timer.Reachable.create _)),
    by decide, by decide, by decide,
    Timer.Reachable.call TimerCall.stop
      (Timer.Reachable.expire 0 (Timer.Reachable.call TimerCall.start (Timer.Reachable.create _))),
    by decide, by decide, by decide,
    Timer.Reachable.complete 0 (Timer.Reachable.expire 1 (Timer.Reachable.call TimerCall.start
      (Timer.Reachable.call TimerCall.stop (Timer.Reachable.expire 0
        (Timer.Reachable.call TimerCall.start (Timer.Reachable.create _)))))),
    by decide, by decide⟩

end asio.utils
